import Mathlib

/-!
# AuraSpeak debug-ui: state coordinator (`app/server.go`)

A shallow embedding of the HTTP handlers of `app.Server` that manage the debug
UDP clients and the debug UDP server, together with the message conversion
helper `convertMessageToBytes` and the id counter of `internal/services`.

Conventions of the embedding

* A Go `string` is a Lean `String` (a sequence of Unicode scalar values, that
  is, a valid UTF-8 string); `[]byte(s)` is its UTF-8 encoding.
* A Go `byte` is a `Nat` below 256; a `[]byte` is a `List Nat`.
* A Go `int` is an `Int`; arithmetic on values that come from a request and
  the increment of the id counter are reduced to the 64-bit range with
  `wrapInt64`.
* A Go `map[K]V` is an association list; the order of the list stands for the
  order in which one `range` loop happens to visit the entries.
* A handler returns the state it leaves, the reply it writes and the trace of
  the events it performs (lock operations, transport calls, hub broadcasts).
  A handler that can panic or wait forever returns a `Run` of these.
* What the transport layer, the name generator and the renderer return is an
  argument of the handler that uses it.
-/

namespace DebugUI

/-! ## Go standard library: `unicode`, `strings`, `unicode/utf8`, `encoding/hex` -/

/-- Go `unicode.IsSpace`: the Latin-1 cases `'\t'`, `'\n'`, `'\v'`, `'\f'`,
`'\r'`, `' '`, U+0085, U+00A0 and, above Latin-1, the `White_Space` table. -/
def unicodeIsSpace (c : Char) : Bool :=
  let r := c.toNat
  if r ≤ 0xFF then
    r == 0x09 || r == 0x0A || r == 0x0B || r == 0x0C || r == 0x0D || r == 0x20
      || r == 0x85 || r == 0xA0
  else
    r == 0x1680 || (0x2000 ≤ r && r ≤ 0x200A) || r == 0x2028 || r == 0x2029
      || r == 0x202F || r == 0x205F || r == 0x3000

/-- Go `strings.TrimSpace` on the runes of a string: all leading and trailing
white space (as defined by `unicode.IsSpace`) removed. -/
def trimSpaceRunes (s : List Char) : List Char :=
  (s.dropWhile unicodeIsSpace).rdropWhile unicodeIsSpace

/-- Go `strings.TrimSpace`. -/
def TrimSpace (s : String) : String := ⟨trimSpaceRunes s.data⟩

/-- Go `strings.ReplaceAll(s, " ", "")` on the runes of a string: every
occurrence of the one-byte string `" "` (U+0020) is deleted. -/
def removeSpacesRunes (s : List Char) : List Char :=
  s.filter (fun c => c != ' ')

/-- Go `strings.ReplaceAll(s, " ", "")`. -/
def ReplaceAllSpaces (s : String) : String := ⟨removeSpacesRunes s.data⟩

/-- UTF-8 encoding of one rune (Go `utf8.AppendRune` for a valid scalar value). -/
def utf8EncodeRune (c : Char) : List Nat :=
  let r := c.toNat
  if r < 0x80 then [r]
  else if r < 0x800 then [0xC0 + r / 64, 0x80 + r % 64]
  else if r < 0x10000 then [0xE0 + r / 4096, 0x80 + r / 64 % 64, 0x80 + r % 64]
  else [0xF0 + r / 262144, 0x80 + r / 4096 % 64, 0x80 + r / 64 % 64, 0x80 + r % 64]

/-- Go conversion `[]byte(s)` on the runes of a string. -/
def utf8Bytes (s : List Char) : List Nat :=
  s.flatMap utf8EncodeRune

/-- Go conversion `[]byte(s)`: the UTF-8 bytes of the string. -/
def stringBytes (s : String) : List Nat := utf8Bytes s.data

/-- Go `encoding/hex` `reverseHexTable`: the value of a hexadecimal digit, and
`0xff` for every other byte. -/
def reverseHexTable (b : Nat) : Nat :=
  if 0x30 ≤ b ∧ b ≤ 0x39 then b - 0x30
  else if 0x61 ≤ b ∧ b ≤ 0x66 then b - 0x61 + 10
  else if 0x41 ≤ b ∧ b ≤ 0x46 then b - 0x41 + 10
  else 0xff

/-- Go `encoding/hex` errors: `InvalidByteError(b)` and `ErrLength`. -/
inductive HexError where
  | InvalidByteError (b : Nat)
  | ErrLength
  deriving DecidableEq, Repr

/-- Go `hex.Decode` followed by `dst[:n]`: the bytes decoded before the first
problem, and the error (if any). Pairs of digits are decoded from the left; an
invalid byte is reported before an odd length. -/
def hexDecode : List Nat → List Nat × Option HexError
  | [] => ([], none)
  | [p] =>
    if reverseHexTable p > 0x0f then ([], some (.InvalidByteError p))
    else ([], some .ErrLength)
  | p :: q :: rest =>
    let a := reverseHexTable p
    let b := reverseHexTable q
    if a > 0x0f then ([], some (.InvalidByteError p))
    else if b > 0x0f then ([], some (.InvalidByteError q))
    else
      let r := hexDecode rest
      (((a <<< 4 ||| b) % 256) :: r.1, r.2)

/-- Go `hex.DecodeString`. -/
def DecodeString (s : String) : List Nat × Option HexError :=
  hexDecode (stringBytes s)

/-! ## `convertMessageToBytes` -/

/-- The source function `convertMessageToBytes(message, format)`; the result
is the pair `([]byte, error)`. -/
def convertMessageToBytes (message : String) (format : String) :
    List Nat × Option HexError :=
  if format = "hex" then
    -- Remove spaces from hex string
    let hexString := ReplaceAllSpaces (TrimSpace message)
    DecodeString hexString
  else
    -- Text format: convert string to []byte using UTF-8
    (stringBytes message, none)

/-! ## Data model (`internal/api`) -/

/-- Go `strconv.Itoa`: the decimal representation, with a leading `-` for a
negative number. -/
def Itoa (i : Int) : String := toString i

/-- Go type `api.DatagramDirection` (a Go `int`). -/
abbrev DatagramDirection := Int

/-- Go constant `api.ClientToServer`. -/
def ClientToServer : DatagramDirection := 1

/-- Go constant `api.ServerToClient`. -/
def ServerToClient : DatagramDirection := 2

/-- Go type `api.Datagram`. -/
structure Datagram where
  Direction : DatagramDirection
  Message : List Nat
  deriving DecidableEq, Repr

/-- Go type `api.UDPClient`. The field `Client` is the `*client.Client` transport owned
by the record, represented by its identity: records are only created by
`genUDPClient`, from the pointer `client.NewDebugClient` returns. -/
structure UDPClient where
  ID : Int
  Client : Nat
  Name : String
  Datagrams : List Datagram
  Running : Bool
  deriving DecidableEq, Repr

/-- Go type `api.SendDatagramRequest`. -/
structure SendDatagramRequest where
  Id : Int
  Message : String
  Format : String
  deriving DecidableEq, Repr

/-- Go type `api.UDPClientResponse`. -/
structure UDPClientResponse where
  Name : String
  Id : Int
  deriving DecidableEq, Repr

/-- Go type `api.UDPClientListItem`. -/
structure UDPClientListItem where
  Id : Int
  Name : String
  deriving DecidableEq, Repr

/-- Go type `tracer.TraceEvent`: time stamp, local and remote address, direction,
length and the id of the client the event belongs to. -/
structure TraceEvent where
  TS : Int
  Local : String
  Remote : String
  Dir : Int
  Len : Int
  ClientID : Int
  deriving DecidableEq, Repr

/-- An `error` value whose `Error()` text fills a reply's `Details`. -/
inductive GoError where
  | hex (e : HexError)
  | other (msg : String)
  deriving DecidableEq, Repr

/-- The replies a handler writes with `Send(w)`: `api.ApiError`,
`api.ApiSuccess`, `api.SendDatagramResponse`, `api.UDPClientStateResponse`,
`api.AllUDPClientResponse`, `api.UDPClientPaginatedRespone`,
`api.ServerStateResponse`, `api.MermaidResponse` and `api.UDPClientResponse`. -/
inductive Response where
  | ApiError (Code : Int) (Message : String) (Details : Option GoError)
  | ApiSuccess (Message : String)
  | SendDatagramResponse (Message : String)
  | UDPClientStateResponse (Id : Int) (Running : Bool) (Datagrams : List Datagram)
  | AllUDPClientResponse (UDPClients : List UDPClientResponse)
  | UDPClientPaginatedRespone (Items : List UDPClientListItem) (Page PageSize Total : Int)
  | ServerStateResponse (ShouldStop IsAlive : Bool)
  | MermaidResponse (Heading Diagram : String)
  | UDPClientResponse (r : UDPClientResponse)
  deriving DecidableEq, Repr

/-- The HTTP status each `Send(w)` passes to `w.WriteHeader`: the `Code` of an
`ApiError`, `http.StatusOK` for every other reply. -/
def Response.status : Response → Int
  | .ApiError code _ _ => code
  | _ => 200

/-- Go type `protocol.PacketType`; only `PacketTypeDebugAny` is used here. -/
inductive PacketType where
  | PacketTypeDebugAny
  deriving DecidableEq, Repr

/-- Go type `protocol.Packet`: the header's packet type and the payload. -/
structure Packet where
  PacketType : PacketType
  Payload : List Nat
  deriving DecidableEq, Repr

/-- The events of a handler run that are visible outside the registry:
operations on the registry lock `s.mu` and on the trace lock `s.traceMu`, calls
into a client transport (`Send`, `Stop`, `OnPacket`, and `Run` on a goroutine of
its own), calls into the UDP server (`OnPacket`, `Stop`, and `Run` on a
goroutine of its own), the start of a client-command relay
(`handleClientCommands`), calls of the hub's `Broadcast`, the call of the
sequence-diagram renderer with the list of traces it is handed, and, for the
UDP server service, operations on the service's own lock and the call of the
UDP server's `Broadcast`. -/
inductive Event where
  | muLock
  | muUnlock
  | clientSend (client : Nat) (packet : Packet)
  | clientStop (client : Nat)
  | hubBroadcast (msg : List Nat)
  | traceMuLock
  | traceMuUnlock
  | goClientCommands (clientID : Int) (cmdCh : Nat)
  | clientOnPacket (client : Nat) (name : String)
  | goClientRun (client : Nat)
  | serverOnPacket (server : Nat)
  | goServerRun (server : Nat)
  | serverStop (server : Nat)
  | buildSequenceDiagram (traces : List TraceEvent)
  | serviceMuLock
  | serviceMuUnlock
  | serverBroadcast (server : Nat) (packet : Packet)
  deriving DecidableEq, Repr

/-- The transport layer as seen by the handlers: what `Send` returns (`none`
is Go `nil`, `some e` an error with text `e`) for the encoded packet. -/
structure Transport where
  Send : Nat → Packet → Option String

/-! ## Go maps as association lists -/

/-- Go `m[k]` with the comma-ok form: the value stored under `k`, if any. -/
def mapLookup {κ ν : Type} [DecidableEq κ] (m : List (κ × ν)) (k : κ) : Option ν :=
  match m with
  | [] => none
  | (k', v) :: rest => if k' = k then some v else mapLookup rest k

/-- Go `m[k] = v`: replaces the value under `k`, or adds the entry. -/
def mapStore {κ ν : Type} [DecidableEq κ] (m : List (κ × ν)) (k : κ) (v : ν) : List (κ × ν) :=
  match m with
  | [] => [(k, v)]
  | (k', v') :: rest => if k' = k then (k, v) :: rest else (k', v') :: mapStore rest k v

/-- Go `delete(m, k)`. -/
def mapDelete {κ ν : Type} [DecidableEq κ] (m : List (κ × ν)) (k : κ) : List (κ × ν) :=
  match m with
  | [] => []
  | (k', v) :: rest => if k' = k then mapDelete rest k else (k', v) :: mapDelete rest k

/-! ## The server state (`app.Server`) -/

/-- Go type `app.Config`. -/
structure Config where
  UDPPort : Int
  deriving DecidableEq, Repr

/-- The fields of `app.Server` the handlers read and write: `Port`, `config`,
`wsHub` (here: whether the pointer is non-nil), `udpServer` (the `*server.Server`
handle, represented by its identity; `none` is `nil`), the registry `udpClients`,
`clientCommandChs` (each channel is the `OutCommandCh` of a client transport,
represented by that transport's identity) and the trace log `traces`. -/
structure Server where
  Port : Int
  config : Config
  wsHub : Bool
  udpServer : Option Nat
  udpClients : List (String × UDPClient)
  clientCommandChs : List (Int × Nat)
  traces : List TraceEvent
  deriving DecidableEq, Repr

/-- Constructor `NewServer(port, udpPort, cfg)`: a hub is created, both maps are empty,
there is no UDP server and no trace. -/
def NewServer (port udpPort : Int) : Server :=
  { Port := port
    config := { UDPPort := udpPort }
    wsHub := true
    udpServer := none
    udpClients := []
    clientCommandChs := []
    traces := [] }

/-- What a handler run amounts to: the state it leaves, the reply it writes
and its events in order. -/
structure Outcome where
  state : Server
  reply : Response
  trace : List Event
  deriving DecidableEq, Repr

/-- The tokens a trace hands to the hub's `Broadcast`, in order. -/
def broadcasts (t : List Event) : List (List Nat) :=
  t.filterMap (fun e => match e with
    | .hubBroadcast msg => some msg
    | _ => none)

/-- The transport calls (`Send`, `Stop`) of a trace, in order. -/
def transportCalls (t : List Event) : List Event :=
  t.filter (fun e => match e with
    | .clientSend _ _ => true
    | .clientStop _ => true
    | _ => false)

/-! ## Handlers -/

/-- The `range` loop of `SendDatagram`: the first visited entry whose `ID` is
the requested one (the loop breaks there). -/
def findClientById (clients : List (String × UDPClient)) (id : Int) :
    Option (String × UDPClient) :=
  clients.find? (fun e => decide (e.2.ID = id))

/-- Handler `Server.SendDatagram`. `body` is the result of decoding the request body
into an `api.SendDatagramRequest`; `tr` is the transport; `env` is the effect on
the server state of whatever other goroutines do between the handler's first
critical section and its second one (the identity when nothing interleaves). -/
def SendDatagram (tr : Transport) (env : Server → Server) (s : Server)
    (body : Except String SendDatagramRequest) : Outcome :=
  match body with
  | .error e => ⟨s, .ApiError 400 "Invalid request body" (some (.other e)), []⟩
  | .ok req =>
    -- Validate format
    if req.Format ≠ "hex" ∧ req.Format ≠ "text" then
      ⟨s, .ApiError 400 "Format must be 'hex' or 'text'" none, []⟩
    else
      -- Find client by ID and validate (with lock)
      match findClientById s.udpClients req.Id with
      | none =>
        ⟨s, .ApiError 404 "UDP client not found" none, [.muLock, .muUnlock]⟩
      | some (clientName, uc) =>
        -- Check if client is running
        if !uc.Running then
          ⟨s, .ApiError 400 "Client is not running" none, [.muLock, .muUnlock]⟩
        else
          -- Convert message to []byte based on format
          match convertMessageToBytes req.Message req.Format with
          | (_, some err) =>
            ⟨s, .ApiError 400 "Invalid hex string" (some (.hex err)), [.muLock, .muUnlock]⟩
          | (messageBytes, none) =>
            let packet : Packet := ⟨.PacketTypeDebugAny, messageBytes⟩
            -- Send message via client (outside the lock)
            match tr.Send uc.Client packet with
            | some err =>
              ⟨s, .ApiError 500 "Failed to send datagram" (some (.other err)),
                [.muLock, .muUnlock, .clientSend uc.Client packet]⟩
            | none =>
              -- take the lock again for the map update
              let s2 := env s
              -- Find client again (it may have changed)
              match mapLookup s2.udpClients clientName with
              | none =>
                ⟨s2, .ApiError 404 "UDP client not found" none,
                  [.muLock, .muUnlock, .clientSend uc.Client packet, .muLock, .muUnlock]⟩
              | some udpClient =>
                -- Store datagram in client's datagrams list
                let newDatagram : Datagram := ⟨ClientToServer, messageBytes⟩
                let udpClient := { udpClient with Datagrams := udpClient.Datagrams ++ [newDatagram] }
                let s3 := { s2 with udpClients := mapStore s2.udpClients clientName udpClient }
                -- Broadcast WebSocket update
                let bc := if s2.wsHub then
                  [Event.hubBroadcast (stringBytes ("usu" ++ Itoa req.Id))] else []
                ⟨s3, .SendDatagramResponse "Datagram sent successfully",
                  [.muLock, .muUnlock, .clientSend uc.Client packet, .muLock] ++ bc ++ [.muUnlock]⟩

/-- Go `r.URL.Query().Get(key)`: the parameter's value, `""` when it is
missing. -/
def queryGet (param : Option String) : String := param.getD ""

/-- Handler `Server.StopUDPClient`; `nameParam` is the `name` query parameter. -/
def StopUDPClient (s : Server) (nameParam : Option String) : Outcome :=
  let name := queryGet nameParam
  if name = "" then
    ⟨s, .ApiError 400 "Name is required" none, [.muLock, .muUnlock]⟩
  else
    match mapLookup s.udpClients name with
    | none => ⟨s, .ApiError 404 "UDP client not found" none, [.muLock, .muUnlock]⟩
    | some udpClient =>
      -- Remove client command channel from map
      ⟨{ s with clientCommandChs := mapDelete s.clientCommandChs udpClient.ID },
        .ApiSuccess "UDP client stopped",
        [.muLock, .clientStop udpClient.Client, .muUnlock]⟩

/-- Handler `Server.GetUDPClientStateByName`; `nameParam` is the `name` query
parameter. -/
def GetUDPClientStateByName (s : Server) (nameParam : Option String) : Outcome :=
  let name := queryGet nameParam
  if name = "" then
    ⟨s, .ApiError 400 "Name is required" none, [.muLock, .muUnlock]⟩
  else
    match mapLookup s.udpClients name with
    | none => ⟨s, .ApiError 404 "UDP client not found" none, [.muLock, .muUnlock]⟩
    | some udpClient =>
      ⟨s, .UDPClientStateResponse udpClient.ID udpClient.Running udpClient.Datagrams,
        [.muLock, .muUnlock]⟩

/-- Handler `Server.GetAllUDPClients`: one item per registry entry, in the order the
`range` loop visits them. -/
def GetAllUDPClients (s : Server) : Outcome :=
  ⟨s, .AllUDPClientResponse (s.udpClients.map (fun e => ⟨e.1, e.2.ID⟩)),
    [.muLock, .muUnlock]⟩

/-! ## Go standard library: `strconv.Atoi`, `strings.Contains`, `int` arithmetic -/

/-- How a call ends: it returns a result, it panics at run time, or it never
returns because it waits for a lock that is not released. -/
inductive Run (α : Type) where
  | returns (a : α)
  | panics (msg : String)
  | blocks
  deriving DecidableEq, Repr

/-- A 64-bit Go `int` result: the value reduced to the range `-2^63 .. 2^63 - 1`
(two's complement wrap-around). -/
def wrapInt64 (x : Int) : Int := (x + 2 ^ 63) % 2 ^ 64 - 2 ^ 63

/-- A decimal digit `0`-`9`. -/
def isDecimalDigit (c : Char) : Bool := 48 ≤ c.toNat && c.toNat ≤ 57

/-- The number a string of decimal digits denotes. -/
def decimalValue (digits : List Char) : Nat :=
  digits.foldl (fun n c => 10 * n + (c.toNat - 48)) 0

/-- Go `strconv.Atoi` on a 64-bit platform: an optional sign `+` or `-`
followed by one or more decimal digits, with a value in `-2^63 .. 2^63 - 1`;
`none` is a non-nil error (syntax or range). -/
def Atoi (s : String) : Option Int :=
  let neg : Bool := s.data.head? = some '-'
  let digits : List Char :=
    if s.data.head? = some '-' ∨ s.data.head? = some '+' then s.data.tail else s.data
  if digits = [] ∨ digits.all isDecimalDigit = false then none
  else
    let v : Int := if neg then -(decimalValue digits : Int) else (decimalValue digits : Int)
    if -2 ^ 63 ≤ v ∧ v ≤ 2 ^ 63 - 1 then some v else none

/-- Go `strings.Contains(s, substr)`: `substr` occurs in `s` as a contiguous
substring. -/
def Contains (s substr : String) : Bool := decide (substr.data <:+: s.data)

/-- Go `int(math.Ceil(float64(a) / float64(b)))` for `a ≥ 0` and `b ≥ 1`: the
least integer not below `a / b`. (The float64 quotient gives exactly this
ceiling for every `a` below `2^53`, which the length of a registry is.) -/
def ceilDiv (a b : Int) : Int := (a + b - 1) / b

/-! ## `GetAllUDPClientPaginated` -/

/-- The parsing pattern `GetAllUDPClientPaginated` applies to `page` and to
`pageSize`: the default when the parameter is `""`, otherwise `strconv.Atoi`,
rejected (`none`) when it returns an error or a value below 1. -/
def parsePositive (str : String) (dflt : Int) : Option Int :=
  if str ≠ "" then
    match Atoi str with
    | none => none
    | some v => if v < 1 then none else some v
  else some dflt

/-- The `range` loop of `GetAllUDPClientPaginated`: the registry entries, in
the order the loop visits them, that pass the search filter, each as an item
with the record's `ID` and the key as `Name`. `ToLower` is Go
`strings.ToLower`. -/
def paginatedItems (ToLower : String → String) (clients : List (String × UDPClient))
    (searchQuery : String) : List UDPClientListItem :=
  clients.filterMap (fun e =>
    -- Apply search filter if provided
    if searchQuery ≠ "" ∧ Contains (ToLower e.1) (ToLower searchQuery) = false then none
    else some { Id := e.2.ID, Name := e.1 })

/-- Handler `Server.GetAllUDPClientPaginated`; the parameters are the `page`,
`pageSize` and `q` query parameters. The slice expression
`allItems[startIndex:endIndex]` panics unless
`0 ≤ startIndex ≤ endIndex ≤ cap(allItems)`; `endIndex` never exceeds
`len(allItems)`, which bounds it below the capacity. -/
def GetAllUDPClientPaginated (ToLower : String → String) (s : Server)
    (pageParam pageSizeParam qParam : Option String) : Run Outcome :=
  -- Parse page parameter with default value 1
  match parsePositive (queryGet pageParam) 1 with
  | none =>
    .returns ⟨s, .ApiError 400 "Page must be a positive integer" none, [.muLock, .muUnlock]⟩
  | some pageInt =>
    -- Parse pageSize parameter with default value 10
    match parsePositive (queryGet pageSizeParam) 10 with
    | none =>
      .returns ⟨s, .ApiError 400 "Page size must be a positive integer" none,
        [.muLock, .muUnlock]⟩
    | some pageSizeInt =>
      -- Filter and collect all matching UDP clients
      let allItems := paginatedItems ToLower s.udpClients (queryGet qParam)
      -- Calculate pagination
      let total : Int := allItems.length
      let totalPages : Int := ceilDiv total pageSizeInt
      -- Validate page number
      if pageInt > totalPages ∧ totalPages > 0 then
        .returns ⟨s, .ApiError 400 "Page is out of range" none, [.muLock, .muUnlock]⟩
      else
        -- Calculate slice indices for pagination
        let startIndex := wrapInt64 ((pageInt - 1) * pageSizeInt)
        let endIndex0 := wrapInt64 (startIndex + pageSizeInt)
        let endIndex := if endIndex0 > total then total else endIndex0
        -- Extract items for current page
        if startIndex < total then
          if 0 ≤ startIndex ∧ startIndex ≤ endIndex ∧ endIndex ≤ total then
            let items := (allItems.drop startIndex.toNat).take (endIndex - startIndex).toNat
            .returns ⟨s, .UDPClientPaginatedRespone items pageInt pageSizeInt total,
              [.muLock, .muUnlock]⟩
          else .panics "slice bounds out of range"
        else
          .returns ⟨s, .UDPClientPaginatedRespone [] pageInt pageSizeInt total,
            [.muLock, .muUnlock]⟩

/-! ## The id counter (`internal/services/id_manager.go`) -/

/-- Go type `services.ids`: the counter. `nextID` is a Go `int` (64 bits, two's
complement); it starts at 0 and only changes by `nextID++`. -/
structure ids where
  nextID : Int
  deriving DecidableEq, Repr

/-- The package-level `idCounter` as `init` sets it. -/
def idCounter : ids := { nextID := 0 }

/-- Method `ids.getNextID` (the exported `GetNextID` calls it on `idCounter`):
under the counter's own lock, the current `nextID` is returned and the counter
is incremented; `nextID++` on a Go `int` wraps around from `2^63 - 1` to
`-2^63`. The result is the id and the counter after the call. -/
def ids.getNextID (i : ids) : Int × ids :=
  let id := i.nextID
  (id, { nextID := wrapInt64 (i.nextID + 1) })

/-- The ids handed out by `n` successive calls of `GetNextID`, in call order,
and the counter after them. -/
def getNextIDs (i : ids) : Nat → List Int × ids
  | 0 => ([], i)
  | n + 1 =>
    let r := i.getNextID
    let rest := getNextIDs r.2 n
    (r.1 :: rest.1, rest.2)

/-! ## `genUDPClient` and `StartUDPClient` -/

/-- What a run of `genUDPClient` leaves: the name it returns, the id counter,
the server state and its events. -/
structure GenUDPClientResult where
  name : String
  counter : ids
  state : Server
  trace : List Event
  deriving DecidableEq, Repr

/-- Method `Server.genUDPClient`. `name` is what `util.GetFirstName()` returns and
`client` the transport `client.NewDebugClient("localhost", port, id)` creates;
`muHeld` tells whether `s.mu` is held at the moment of the call, in which case
`s.mu.Lock()` never returns (`sync.Mutex` is not reentrant). -/
def genUDPClient (counter : ids) (s : Server) (muHeld : Bool) (name : String) (client : Nat) :
    Run GenUDPClientResult :=
  let r := counter.getNextID
  let id := r.1
  -- s.mu.Lock()
  if muHeld then .blocks
  else
    let s1 := { s with
      udpClients := mapStore s.udpClients name
        { ID := id, Client := client, Name := name, Datagrams := [], Running := false } }
    -- Register client command channel and start listening
    let s2 := { s1 with clientCommandChs := mapStore s1.clientCommandChs id client }
    .returns ⟨name, r.2, s2, [.muLock, .goClientCommands id client, .muUnlock]⟩

/-- What a run of `StartUDPClient` leaves: the handler outcome and the id
counter. -/
structure StartUDPClientResult where
  outcome : Outcome
  counter : ids
  deriving DecidableEq, Repr

/-- Handler `Server.StartUDPClient`: it locks `s.mu` and, holding it, calls
`genUDPClient`. `name` and `client` are as for `genUDPClient`. -/
def StartUDPClient (counter : ids) (s : Server) (name : String) (client : Nat) :
    Run StartUDPClientResult :=
  -- s.mu.Lock(); name := s.genUDPClient(s.config.UDPPort)
  match genUDPClient counter s true name client with
  | .blocks => .blocks
  | .panics msg => .panics msg
  | .returns r =>
    -- udpClient := s.udpClients[name]
    match mapLookup r.state.udpClients r.name with
    | none => .panics "nil pointer dereference"
    | some udpClient =>
      if r.state.wsHub then
        .returns ⟨⟨r.state, .UDPClientResponse { Name := r.name, Id := udpClient.ID },
          [.muLock] ++ r.trace ++ [.clientOnPacket udpClient.Client r.name, .muUnlock,
            .goClientRun udpClient.Client, .hubBroadcast (stringBytes "cnu")]⟩, r.counter⟩
      else .panics "nil pointer dereference"

/-- Successive runs of `genUDPClient`, each with the registry lock free, for the
given generated `(name, client)` pairs: the `(name, id)` of every start in
order, the counter and the state after them. -/
def genUDPClients (counter : ids) (s : Server) :
    List (String × Nat) → List (String × Int) × ids × Server
  | [] => ([], counter, s)
  | (name, client) :: rest =>
    match genUDPClient counter s false name client with
    | .returns r =>
      let out := genUDPClients r.counter r.state rest
      ((r.name, counter.nextID) :: out.1, out.2)
    | _ => ([], counter, s)

/-- The critical section of `genUDPClient` (between `s.mu.Lock()` and
`s.mu.Unlock()`): the record and the command channel are stored. -/
def registerClient (s : Server) (name : String) (id : Int) (client : Nat) : Server :=
  { s with
    udpClients := mapStore s.udpClients name
      { ID := id, Client := client, Name := name, Datagrams := [], Running := false }
    clientCommandChs := mapStore s.clientCommandChs id client }

/-- The critical sections of several starts, run one after another in the
given order; each entry is the generated name, the allocated id and the created
transport of one start. -/
def registerAll (s : Server) : List (String × Int × Nat) → Server
  | [] => s
  | (name, id, client) :: rest => registerAll (registerClient s name id client) rest

/-- The starts, listed in the order in which they call `GetNextID`, each with
the id that call returns. -/
def allocateIds (counter : ids) (starts : List (String × Nat)) : List (String × Int × Nat) :=
  List.zipWith (fun e id => (e.1, id, e.2)) starts (getNextIDs counter starts.length).1

/-! ## The UDP server handlers -/

/-- Go type `services.UDPServerService`: its `server` field (`none` is `nil`) and
its `wsHub` field (here: whether the pointer is non-nil). -/
structure UDPServerService where
  server : Option Nat
  wsHub : Bool
  deriving DecidableEq, Repr

/-- Constructor `services.NewUDPServerService(ctx, cfg, wsHub)`: no server yet. -/
def NewUDPServerService (wsHub : Bool) : UDPServerService := { server := none, wsHub := wsHub }

/-- Method `UDPServerService.Start`; `created` is what `server.NewServer(port, ctx,
cfg)` returns (`none` is `nil`). The result is the service and the error. -/
def UDPServerService.Start (svc : UDPServerService) (created : Option Nat) :
    UDPServerService × Option String :=
  match created with
  | none => ({ svc with server := none }, some "failed to create server")
  | some h => ({ svc with server := some h }, none)

/-- Method `UDPServerService.GetServer`. -/
def UDPServerService.GetServer (svc : UDPServerService) : Option Nat := svc.server

/-- Handler `Server.StartUDPServer`; `created` is what `server.NewServer` returns
for this request. -/
def StartUDPServer (s : Server) (created : Option Nat) : Outcome :=
  let r := (NewUDPServerService s.wsHub).Start created
  match r.2 with
  | some _ =>
    ⟨s, .ApiError 500 "Failed to create server (DTLS config error)" none, [.muLock, .muUnlock]⟩
  | none =>
    match r.1.GetServer with
    | none =>
      ⟨s, .ApiError 500 "Failed to create server (DTLS config error)" none,
        [.muLock, .muUnlock]⟩
    | some udpServer =>
      ⟨{ s with udpServer := some udpServer }, .ApiSuccess "UDP server started",
        [.muLock, .serverOnPacket udpServer, .goServerRun udpServer, .muUnlock]⟩

/-- Handler `Server.StopUDPServer`. -/
def StopUDPServer (s : Server) : Outcome :=
  match s.udpServer with
  | none => ⟨s, .ApiError 400 "UDP server is not running" none, [.muLock, .muUnlock]⟩
  | some udpServer =>
    ⟨s, .ApiSuccess "UDP server stopped", [.muLock, .muUnlock, .serverStop udpServer]⟩

/-- Go type of `udpServer.ServerState`: the polled state snapshot. -/
structure ServerState where
  ShouldStop : Bool
  IsAlive : Bool
  deriving DecidableEq, Repr

/-- Handler `Server.GetUDPServerState`; `serverState h` is what the field
`ServerState` of the server `h` holds when it is read. -/
def GetUDPServerState (serverState : Nat → ServerState) (s : Server) : Outcome :=
  match s.udpServer with
  | none => ⟨s, .ServerStateResponse false false, [.muLock, .muUnlock]⟩
  | some udpServer =>
    let state := serverState udpServer
    ⟨s, .ServerStateResponse state.ShouldStop state.IsAlive, [.muLock, .muUnlock]⟩

/-- The servers a trace starts running (`go udpServer.Run()`) and does not stop
afterwards. -/
def serversLeftRunning : List Event → List Nat
  | [] => []
  | .goServerRun h :: rest =>
    if Event.serverStop h ∈ rest then serversLeftRunning rest else h :: serversLeftRunning rest
  | _ :: rest => serversLeftRunning rest

/-! ## `GetTraces` -/

/-- Handler `Server.GetTraces`; `nameParam` is the `name` query parameter and
`render` is `util.BuildSequenceDiagramFromTraces`. -/
def GetTraces (render : List TraceEvent → String) (s : Server) (nameParam : Option String) :
    Outcome :=
  let clientName := queryGet nameParam
  match mapLookup s.udpClients clientName with
  | none => ⟨s, .ApiError 404 "UDP client not found" none, [.muLock, .muUnlock]⟩
  | some udpClient =>
    let clientID := udpClient.ID
    let traces := s.traces
    let filteredTraces := traces.filter (fun trace => decide (trace.ClientID = clientID))
    let md := render filteredTraces
    ⟨s, .MermaidResponse ("Diagram for user: " ++ clientName) md,
      [.muLock, .traceMuLock, .traceMuUnlock, .buildSequenceDiagram filteredTraces, .muUnlock]⟩

/-- The trace lists a run hands to the sequence-diagram renderer, in order. -/
def renderedTraces (t : List Event) : List (List TraceEvent) :=
  t.filterMap (fun e => match e with
    | .buildSequenceDiagram traces => some traces
    | _ => none)

/-! ## `GetUDPClientStateById` -/

/-- Handler `Server.GetUDPClientStateById`; `idParam` is the `id` query parameter.
The `range` loop returns the first visited record whose `ID` is the requested
one. -/
def GetUDPClientStateById (s : Server) (idParam : Option String) : Outcome :=
  let id := queryGet idParam
  if id = "" then
    ⟨s, .ApiError 400 "ID is required" none, [.muLock, .muUnlock]⟩
  else
    match Atoi id with
    | none => ⟨s, .ApiError 400 "ID is invalid" none, [.muLock, .muUnlock]⟩
    | some idInt =>
      match findClientById s.udpClients idInt with
      | some (_, udpClient) =>
        ⟨s, .UDPClientStateResponse udpClient.ID udpClient.Running udpClient.Datagrams,
          [.muLock, .muUnlock]⟩
      | none => ⟨s, .ApiError 404 "UDP client not found" none, [.muLock, .muUnlock]⟩

/-! ## Callbacks and relay loops -/

/-- What a packet callback leaves: the state, the error it returns (`none` is
`nil`) and its events. -/
structure CallbackOutcome where
  state : Server
  err : Option String
  trace : List Event
  deriving DecidableEq, Repr

/-- Method `Server.handleAllClient`, the callback `StartUDPClient` registers for
the packets a client receives. -/
def handleAllClient (s : Server) (name : String) (packet : List Nat) : CallbackOutcome :=
  match mapLookup s.udpClients name with
  | none => ⟨s, some ("UDP client not found: " ++ name), [.muLock, .muUnlock]⟩
  | some udpClient =>
    let newDatagram : Datagram := ⟨ServerToClient, packet⟩
    let udpClient := { udpClient with Datagrams := udpClient.Datagrams ++ [newDatagram] }
    let s1 := { s with udpClients := mapStore s.udpClients name udpClient }
    let bc := if s.wsHub then
      [Event.hubBroadcast (stringBytes ("usu" ++ Itoa udpClient.ID))] else []
    ⟨s1, none, [.muLock] ++ bc ++ [.muUnlock]⟩

/-- Method `UDPServerService.HandleAll`, the callback `StartUDPServer` registers
for the packets the UDP server receives; `packet` is the packet's payload. The
result is the error it returns (always `nil`) and its events. -/
def UDPServerService.HandleAll (svc : UDPServerService) (_clientAddr : String)
    (packet : List Nat) : Option String × List Event :=
  let toClients := match svc.server with
    | some server => [Event.serverBroadcast server ⟨.PacketTypeDebugAny, packet⟩]
    | none => []
  let toViewers := if svc.wsHub then [Event.hubBroadcast packet] else []
  (none, [.serviceMuLock] ++ toClients ++ [.serviceMuUnlock]
    ++ [.serviceMuLock] ++ toViewers ++ [.serviceMuUnlock])

/-- What one turn of a relay loop leaves: the state, its events, and whether
the loop returns (`exits`) or goes round again. -/
structure LoopOutcome where
  state : Server
  trace : List Event
  exits : Bool
  deriving DecidableEq, Repr

/-- What a client-command relay receives in its `select`: a command from the
client's command channel, or the cancellation of the server context. -/
inductive ClientWake where
  | command (cmd : Int)
  | ctxDone
  deriving DecidableEq, Repr

/-- One turn of the loop `handleClientCommands(clientID, cmdCh)` starts.
`CmdUpdateClientState` is the constant `command.CmdUpdateClientState` and
`clientRunning c` is what `ClientState.Running` of the transport `c` holds when
it is read. -/
def handleClientCommandsStep (CmdUpdateClientState : Int) (clientRunning : Nat → Int)
    (s : Server) (clientID : Int) (wake : ClientWake) : LoopOutcome :=
  match wake with
  | .ctxDone => ⟨s, [], true⟩
  | .command cmd =>
    if cmd = CmdUpdateClientState then
      -- Find udpClient by ID and update running field
      match findClientById s.udpClients clientID with
      | none => ⟨s, [.muLock, .muUnlock], false⟩
      | some (name, uc) =>
        let running := clientRunning uc.Client
        let uc := { uc with Running := decide (running = 1) }
        let s1 := { s with udpClients := mapStore s.udpClients name uc }
        let bc := if s.wsHub then
          [Event.hubBroadcast (stringBytes ("usu" ++ Itoa clientID))] else []
        ⟨s1, [.muLock] ++ bc ++ [.muUnlock], false⟩
    else ⟨s, [], false⟩

/-- What the server-command relay is woken by: the cancellation of the server
context, the 100 ms timer it waits on while there is no UDP server, or a
command from the UDP server's command channel. -/
inductive ServerWake where
  | ctxDone
  | timer
  | command (cmd : Int)
  deriving DecidableEq, Repr

/-- One turn of the loop `handleInternal` starts. `CmdUpdateServerState` is the
constant `serverCommand.CmdUpdateServerState`. A wake-up the current `select`
has no case for leaves everything as it is. -/
def handleInternalStep (CmdUpdateServerState : Int) (s : Server) (wake : ServerWake) :
    LoopOutcome :=
  match wake with
  | .ctxDone => ⟨s, [.muLock, .muUnlock], true⟩
  | .timer => ⟨s, [.muLock, .muUnlock], false⟩
  | .command cmd =>
    match s.udpServer with
    | none => ⟨s, [.muLock, .muUnlock], false⟩
    | some _ =>
      if cmd = CmdUpdateServerState ∧ s.wsHub = true then
        ⟨s, [.muLock, .muUnlock, .hubBroadcast (stringBytes "uss")], false⟩
      else ⟨s, [.muLock, .muUnlock], false⟩

/-- What the trace relay is woken by: the cancellation of the server context,
the 100 ms timer it waits on while there is no UDP server, or a trace event
from the UDP server's trace channel. -/
inductive TraceWake where
  | ctxDone
  | timer
  | trace (t : TraceEvent)
  deriving DecidableEq, Repr

/-- One turn of the loop `handleTrace` starts. A wake-up the current `select`
has no case for leaves everything as it is. -/
def handleTraceStep (s : Server) (wake : TraceWake) : LoopOutcome :=
  match wake with
  | .ctxDone => ⟨s, [.muLock, .muUnlock], true⟩
  | .timer => ⟨s, [.muLock, .muUnlock], false⟩
  | .trace t =>
    match s.udpServer with
    | none => ⟨s, [.muLock, .muUnlock], false⟩
    | some _ =>
      ⟨{ s with traces := s.traces ++ [t] },
        [.muLock, .muUnlock, .traceMuLock, .traceMuUnlock], false⟩

/-! ## Lock discipline of a trace -/

/-- Whether some call of the hub's `Broadcast` occurs in the trace while the
registry lock `s.mu` is held; `held` tells whether it is held at the start. -/
def broadcastsWhileLocked : Bool → List Event → Bool
  | _, [] => false
  | _, .muLock :: rest => broadcastsWhileLocked true rest
  | _, .muUnlock :: rest => broadcastsWhileLocked false rest
  | held, .hubBroadcast _ :: rest => held || broadcastsWhileLocked held rest
  | held, _ :: rest => broadcastsWhileLocked held rest

/-- Whether every call of the hub's `Broadcast` in the trace occurs while the
registry lock `s.mu` is held. -/
def allBroadcastsLocked : Bool → List Event → Bool
  | _, [] => true
  | _, .muLock :: rest => allBroadcastsLocked true rest
  | _, .muUnlock :: rest => allBroadcastsLocked false rest
  | held, .hubBroadcast _ :: rest => held && allBroadcastsLocked held rest
  | held, _ :: rest => allBroadcastsLocked held rest

/-- Whether the trace acquires the trace lock `s.traceMu` while the registry
lock `s.mu` is held; `mu` tells whether `s.mu` is held at the start. -/
def locksTraceMuUnderMu : Bool → List Event → Bool
  | _, [] => false
  | _, .muLock :: rest => locksTraceMuUnderMu true rest
  | _, .muUnlock :: rest => locksTraceMuUnderMu false rest
  | mu, .traceMuLock :: rest => mu || locksTraceMuUnderMu mu rest
  | mu, _ :: rest => locksTraceMuUnderMu mu rest

/-- Whether the trace acquires the registry lock `s.mu` while the trace lock
`s.traceMu` is held; `tr` tells whether `s.traceMu` is held at the start. -/
def locksMuUnderTraceMu : Bool → List Event → Bool
  | _, [] => false
  | _, .traceMuLock :: rest => locksMuUnderTraceMu true rest
  | _, .traceMuUnlock :: rest => locksMuUnderTraceMu false rest
  | tr, .muLock :: rest => tr || locksMuUnderTraceMu tr rest
  | tr, _ :: rest => locksMuUnderTraceMu tr rest

/-! ## `Shutdown` -/

/-- What decides a run of `Shutdown`: which case the first `select` takes
(`wgDone`, or the deadline `shutdownCtx.Done()`), the error
`s.httpServer.Shutdown(shutdownCtx)` returns (`none` is `nil`), and which case
the second `select` takes (`httpDone`, or the deadline). -/
structure ShutdownRun where
  wgDoneFirst : Bool
  httpErr : Option String
  httpDoneFirst : Bool
  deriving DecidableEq, Repr

/-- What a run of `Shutdown` leaves: the error it returns (`none` is `nil`), the
lines it prints, whether the server context was cancelled and whether the hub
was cancelled. -/
structure ShutdownResult where
  err : Option String
  printed : List String
  ctxCancelled : Bool
  hubCancelled : Bool
  deriving DecidableEq, Repr

/-- Method `Server.Shutdown(timeout)`. `hasHTTPServer` tells whether
`s.httpServer` is set (which `Run` does); without it the call of
`s.httpServer.Shutdown` panics. -/
def Shutdown (s : Server) (hasHTTPServer : Bool) (r : ShutdownRun) : Run ShutdownResult :=
  if hasHTTPServer = false then .panics "nil pointer dereference"
  else
    -- Shutdown HTTP server: what the goroutine sends on httpDone
    let httpDone : Option String :=
      match r.httpErr with
      | some e => some ("error shutting down HTTP server: " ++ e)
      | none => none
    -- Wait for either all goroutines or context timeout
    let line1 := if r.wgDoneFirst then "All connections closed"
      else "Warning: Shutdown timeout reached, some connections may not have closed gracefully"
    -- Wait for HTTP server shutdown result with timeout
    if r.httpDoneFirst then
      match httpDone with
      | some err => .returns ⟨some err, ["Shutting down server...", line1], true, s.wsHub⟩
      | none =>
        .returns ⟨none, ["Shutting down server...", line1, "Server shutdown complete"], true,
          s.wsHub⟩
    else
      .returns ⟨none, ["Shutting down server...", line1, "HTTP server shutdown timeout",
        "Server shutdown complete"], true, s.wsHub⟩

/-! ## Go standard library: `hex.EncodeToString` -/

/-- Go `encoding/hex` `hextable`, the string `"0123456789abcdef"`, indexed. -/
def hextable (n : Nat) : Char :=
  "0123456789abcdef".data.getD n '0'

/-- Go `hex.EncodeToString`: for every byte `v` the two digits `hextable[v>>4]`
and `hextable[v&0x0f]`. -/
def EncodeToString (src : List Nat) : String :=
  ⟨src.flatMap (fun v => [hextable (v >>> 4), hextable (v &&& 0x0f)])⟩

/-- The upper-case hex encoding: the digits of `hex.EncodeToString` with
`a`-`f` replaced by `A`-`F` (Go `strings.ToUpper` of the encoding). -/
def EncodeToStringUpper (src : List Nat) : String :=
  ⟨(EncodeToString src).data.map Char.toUpper⟩

/-! ## Control codes -/

/-- A control code of the viewer channel: `rp`, `uss`, `cnu`, or `usu` followed
by the decimal of a client id. -/
def IsControlCode (msg : List Nat) : Prop :=
  msg = stringBytes "rp" ∨ msg = stringBytes "uss" ∨ msg = stringBytes "cnu"
    ∨ ∃ id : Int, msg = stringBytes ("usu" ++ Itoa id)

/-! ## Example states -/

/-- A running client record with one received datagram in its log. -/
def exampleClient : UDPClient :=
  { ID := 7, Client := 1, Name := "alice",
    Datagrams := [{ Direction := ServerToClient, Message := [1, 2] }], Running := true }

/-- A server whose registry holds the running client `alice` with id 7. -/
def exampleServer : Server :=
  { NewServer 8080 9090 with
    udpClients := [("alice", exampleClient)]
    clientCommandChs := [(7, 1)] }

/-- A transport whose `Send` always succeeds. -/
def okTransport : Transport := ⟨fun _ _ => none⟩

/-- A transport whose `Send` always fails. -/
def badTransport : Transport := ⟨fun _ _ => some "write: connection refused"⟩

/-- A client record that is not running. -/
def stoppedClient : UDPClient :=
  { ID := 3, Client := 2, Name := "bob", Datagrams := [], Running := false }

/-- A registry whose only client, `bob` with id 3, is not running. -/
def stoppedServer : Server :=
  { NewServer 8080 9090 with
    udpClients := [("bob", stoppedClient)]
    clientCommandChs := [(3, 2)] }

/-- A registry of `n` clients named `C0`, `C1`, ... with the ids 0, 1, ... -/
def manyClients (n : Nat) : List (String × UDPClient) :=
  (List.range n).map (fun (i : Nat) =>
    ("C" ++ toString i,
      { ID := Int.ofNat i, Client := i, Name := "C" ++ toString i, Datagrams := [],
        Running := false }))

/-- A server whose registry holds 25 clients. -/
def crowdedServer : Server :=
  { NewServer 8080 9090 with udpClients := manyClients 25 }

/-- Lower-casing of the ASCII letters, every other rune unchanged: what
`strings.ToLower` does on ASCII strings. -/
def asciiToLower (s : String) : String := ⟨s.data.map Char.toLower⟩

/-- A server with one client and a trace log that mixes the events of two
client ids. -/
def tracedServer : Server :=
  { exampleServer with
    traces := [⟨1, "s", "a", 0, 10, 7⟩, ⟨2, "s", "b", 0, 11, 8⟩, ⟨3, "s", "a", 1, 12, 7⟩] }

/-- A server on which the UDP server with handle 1 has been started. -/
def runningServer : Server := (StartUDPServer (NewServer 8080 9090) (some 1)).state

/-- What `Shutdown` leaves on `exampleServer` when the tracked loops miss the
deadline and the listener's shutdown fails with "listener closed". -/
def listenerFailedResult : ShutdownResult :=
  { err := some "error shutting down HTTP server: listener closed",
    printed := ["Shutting down server...",
      "Warning: Shutdown timeout reached, some connections may not have closed gracefully"],
    ctxCancelled := true,
    hubCancelled := true }

/-! ## Reference readings of hexadecimal strings and of white-space removal -/

/-- A character in `0-9`, `a-f` or `A-F`. -/
def isHexDigit (c : Char) : Bool :=
  let r := c.toNat
  (0x30 ≤ r && r ≤ 0x39) || (0x61 ≤ r && r ≤ 0x66) || (0x41 ≤ r && r ≤ 0x46)

/-- The value of a hexadecimal digit (`0` for any other character). -/
def hexDigitValue (c : Char) : Nat :=
  let r := c.toNat
  if 0x30 ≤ r ∧ r ≤ 0x39 then r - 0x30
  else if 0x61 ≤ r ∧ r ≤ 0x66 then r - 0x61 + 10
  else if 0x41 ≤ r ∧ r ≤ 0x46 then r - 0x41 + 10
  else 0

/-- The bytes an even-length string of hexadecimal digits denotes: one byte per
pair of digits, the high nibble first. -/
def hexValue : List Char → List Nat
  | [] => []
  | [_] => []
  | c1 :: c2 :: rest => (16 * hexDigitValue c1 + hexDigitValue c2) :: hexValue rest

/-- A string with all of its white-space characters removed, wherever they
occur. -/
def removeAllWhitespace (s : String) : String :=
  ⟨s.data.filter (fun c => !unicodeIsSpace c)⟩

/-! ## Facts about the map operations and the lookup loop -/

theorem mapLookup_mapStore_self {κ ν : Type} [DecidableEq κ] (m : List (κ × ν)) (k : κ) (v : ν) :
    mapLookup (mapStore m k v) k = some v := by
  induction m with
  | nil => simp [mapStore, mapLookup]
  | cons e rest ih =>
    obtain ⟨k', v'⟩ := e
    by_cases h : k' = k
    · simp [mapStore, mapLookup, h]
    · simp [mapStore, mapLookup, h, ih]

theorem mapLookup_mapStore_of_ne {κ ν : Type} [DecidableEq κ] (m : List (κ × ν)) (k k' : κ)
    (v : ν) (h : k' ≠ k) : mapLookup (mapStore m k v) k' = mapLookup m k' := by
  induction m with
  | nil => simp [mapStore, mapLookup, Ne.symm h]
  | cons e rest ih =>
    obtain ⟨k0, v0⟩ := e
    by_cases h0 : k0 = k
    · subst h0
      simp [mapStore, mapLookup, Ne.symm h]
    · by_cases h1 : k0 = k'
      · subst h1
        simp [mapStore, mapLookup, h0]
      · simp [mapStore, mapLookup, h0, h1, ih]

theorem mapStore_keys_of_mapLookup {κ ν : Type} [DecidableEq κ] (m : List (κ × ν)) (k : κ)
    (v w : ν) (h : mapLookup m k = some w) :
    (mapStore m k v).map Prod.fst = m.map Prod.fst := by
  induction m with
  | nil => simp [mapLookup] at h
  | cons e rest ih =>
    obtain ⟨k0, v0⟩ := e
    by_cases h0 : k0 = k
    · simp [mapStore, h0]
    · simp only [mapLookup, h0, if_false] at h
      simp [mapStore, h0, ih h]

theorem mapLookup_mapDelete_self {κ ν : Type} [DecidableEq κ] (m : List (κ × ν)) (k : κ) :
    mapLookup (mapDelete m k) k = none := by
  induction m with
  | nil => simp [mapDelete, mapLookup]
  | cons e rest ih =>
    obtain ⟨k0, v0⟩ := e
    by_cases h0 : k0 = k
    · simp [mapDelete, h0, ih]
    · simp [mapDelete, mapLookup, h0, ih]

theorem mapLookup_mapDelete_of_ne {κ ν : Type} [DecidableEq κ] (m : List (κ × ν)) (k k' : κ)
    (h : k' ≠ k) : mapLookup (mapDelete m k) k' = mapLookup m k' := by
  induction m with
  | nil => simp [mapDelete, mapLookup]
  | cons e rest ih =>
    obtain ⟨k0, v0⟩ := e
    by_cases h0 : k0 = k
    · subst h0
      simp [mapDelete, mapLookup, Ne.symm h, ih]
    · by_cases h1 : k0 = k'
      · subst h1
        simp [mapDelete, mapLookup, h0]
      · simp [mapDelete, mapLookup, h0, h1, ih]

theorem mapLookup_eq_none_iff {κ ν : Type} [DecidableEq κ] (m : List (κ × ν)) (k : κ) :
    mapLookup m k = none ↔ k ∉ m.map Prod.fst := by
  induction m with
  | nil => simp [mapLookup]
  | cons e rest ih =>
    obtain ⟨k0, v0⟩ := e
    by_cases h0 : k0 = k
    · simp [mapLookup, h0]
    · simp [mapLookup, h0, ih, Ne.symm h0]

theorem findClientById_eq_none_iff (clients : List (String × UDPClient)) (id : Int) :
    findClientById clients id = none ↔ ∀ e ∈ clients, e.2.ID ≠ id := by
  simp [findClientById, List.find?_eq_none]

theorem findClientById_some_mem (clients : List (String × UDPClient)) (id : Int)
    (n : String) (uc : UDPClient) (h : findClientById clients id = some (n, uc)) :
    (n, uc) ∈ clients ∧ uc.ID = id := by
  unfold findClientById at h
  refine ⟨List.mem_of_find?_eq_some h, ?_⟩
  simpa using List.find?_some h

/-- With unique ids (the data-model invariant), the lookup loop finds the one
record that has the requested id, whatever the iteration order. -/
theorem findClientById_of_unique (clients : List (String × UDPClient)) (id : Int)
    (n : String) (uc : UDPClient) (hmem : (n, uc) ∈ clients) (hid : uc.ID = id)
    (huniq : ∀ e ∈ clients, e.2.ID = id → e = (n, uc)) :
    findClientById clients id = some (n, uc) := by
  cases hf : findClientById clients id with
  | none =>
    exact absurd hid ((findClientById_eq_none_iff clients id).1 hf (n, uc) hmem)
  | some e =>
    obtain ⟨n', uc'⟩ := e
    have h := findClientById_some_mem clients id n' uc' hf
    rw [huniq (n', uc') h.1 h.2]

/-- A server built by `NewServer` has a hub, so the `s.wsHub != nil` guards of
the handlers hold on it. -/
theorem NewServer_wsHub (port udpPort : Int) : (NewServer port udpPort).wsHub = true := rfl

/-! ## `SendDatagram` -/

/-- C1: when a request passes validation (format `hex` or `text`, the lookup
loop finds a record with the requested id and that record is running, the
message converts without error) and the transport's `Send` returns an error,
`SendDatagram` replies 500 "Failed to send datagram", leaves the whole server
state (every record and every datagram log) as it was, and broadcasts nothing;
its only transport call is that one `Send`. -/
theorem SendDatagram_transport_failure (tr : Transport) (env : Server → Server) (s : Server)
    (req : SendDatagramRequest) (name : String) (uc : UDPClient) (bytes : List Nat)
    (err : String)
    (hfmt : req.Format = "hex" ∨ req.Format = "text")
    (hfind : findClientById s.udpClients req.Id = some (name, uc))
    (hrun : uc.Running = true)
    (hconv : convertMessageToBytes req.Message req.Format = (bytes, none))
    (hsend : tr.Send uc.Client ⟨.PacketTypeDebugAny, bytes⟩ = some err) :
    (SendDatagram tr env s (.ok req)).reply
        = .ApiError 500 "Failed to send datagram" (some (.other err))
      ∧ (SendDatagram tr env s (.ok req)).reply.status = 500
      ∧ (SendDatagram tr env s (.ok req)).state = s
      ∧ broadcasts (SendDatagram tr env s (.ok req)).trace = []
      ∧ transportCalls (SendDatagram tr env s (.ok req)).trace
          = [.clientSend uc.Client ⟨.PacketTypeDebugAny, bytes⟩] := by
  have hf : ¬ (req.Format ≠ "hex" ∧ req.Format ≠ "text") := by
    rcases hfmt with h | h <;> simp [h]
  simp only [SendDatagram, hf, if_false, hfind, hrun, hconv, hsend]
  simp [Response.status, broadcasts, transportCalls]

theorem SendDatagram_transport_failure_witness :
    (SendDatagram badTransport id exampleServer (.ok ⟨7, "4a 4B", "hex"⟩)).reply
        = .ApiError 500 "Failed to send datagram" (some (.other "write: connection refused"))
      ∧ (SendDatagram badTransport id exampleServer (.ok ⟨7, "4a 4B", "hex"⟩)).reply.status = 500
      ∧ (SendDatagram badTransport id exampleServer (.ok ⟨7, "4a 4B", "hex"⟩)).state
          = exampleServer
      ∧ broadcasts (SendDatagram badTransport id exampleServer (.ok ⟨7, "4a 4B", "hex"⟩)).trace
          = []
      ∧ transportCalls
          (SendDatagram badTransport id exampleServer (.ok ⟨7, "4a 4B", "hex"⟩)).trace
          = [.clientSend 1 ⟨.PacketTypeDebugAny, [74, 75]⟩] :=
  SendDatagram_transport_failure badTransport id exampleServer ⟨7, "4a 4B", "hex"⟩ "alice"
    exampleClient [74, 75] "write: connection refused" (by decide) (by decide) (by decide)
    (by decide) (by decide)

/-- C2: for a request whose format is `hex` or `text`: if no registry record
has the requested id the reply is 404 "UDP client not found"; if the lookup
loop finds a record with that id whose `Running` is false the reply is 400
"Client is not running"; in both cases no transport call is made, nothing is
broadcast and the server state (so every datagram log) is unchanged. -/
theorem SendDatagram_unknown_or_stopped_client (tr : Transport) (env : Server → Server)
    (s : Server) (req : SendDatagramRequest)
    (hfmt : req.Format = "hex" ∨ req.Format = "text") :
    ((∀ e ∈ s.udpClients, e.2.ID ≠ req.Id) →
        (SendDatagram tr env s (.ok req)).reply = .ApiError 404 "UDP client not found" none
        ∧ (SendDatagram tr env s (.ok req)).reply.status = 404)
      ∧ (∀ name uc, findClientById s.udpClients req.Id = some (name, uc) → uc.Running = false →
        (SendDatagram tr env s (.ok req)).reply = .ApiError 400 "Client is not running" none
        ∧ (SendDatagram tr env s (.ok req)).reply.status = 400)
      ∧ (((∀ e ∈ s.udpClients, e.2.ID ≠ req.Id)
            ∨ ∃ name uc, findClientById s.udpClients req.Id = some (name, uc)
                ∧ uc.Running = false) →
        transportCalls (SendDatagram tr env s (.ok req)).trace = []
        ∧ broadcasts (SendDatagram tr env s (.ok req)).trace = []
        ∧ (SendDatagram tr env s (.ok req)).state = s) := by
  have hf : ¬ (req.Format ≠ "hex" ∧ req.Format ≠ "text") := by
    rcases hfmt with h | h <;> simp [h]
  refine ⟨?_, ?_, ?_⟩
  · intro hno
    have hnone := (findClientById_eq_none_iff s.udpClients req.Id).2 hno
    simp only [SendDatagram, hf, if_false, hnone]
    simp [Response.status]
  · intro name uc hfind hrun
    simp only [SendDatagram, hf, if_false, hfind, hrun]
    simp [Response.status]
  · rintro (hno | ⟨name, uc, hfind, hrun⟩)
    · have hnone := (findClientById_eq_none_iff s.udpClients req.Id).2 hno
      simp only [SendDatagram, hf, if_false, hnone]
      simp [broadcasts, transportCalls]
    · simp only [SendDatagram, hf, if_false, hfind, hrun]
      simp [broadcasts, transportCalls]

theorem SendDatagram_unknown_or_stopped_client_witness :
    (SendDatagram okTransport id stoppedServer (.ok ⟨999, "test", "text"⟩)).reply.status = 404
      ∧ (SendDatagram okTransport id stoppedServer (.ok ⟨3, "test", "text"⟩)).reply.status = 400
      ∧ (SendDatagram okTransport id stoppedServer (.ok ⟨3, "test", "text"⟩)).state
          = stoppedServer :=
  ⟨((SendDatagram_unknown_or_stopped_client okTransport id stoppedServer ⟨999, "test", "text"⟩
      (by decide)).1 (by decide)).2,
   ((SendDatagram_unknown_or_stopped_client okTransport id stoppedServer ⟨3, "test", "text"⟩
      (by decide)).2.1 "bob" stoppedClient (by decide) (by decide)).2,
   ((SendDatagram_unknown_or_stopped_client okTransport id stoppedServer ⟨3, "test", "text"⟩
      (by decide)).2.2 (Or.inr ⟨"bob", stoppedClient, by decide, by decide⟩)).2.2⟩

/-- C3: for a request with a valid format on a client the lookup loop finds
running, whose message converts to `bytes` and whose `Send` succeeds, and whose
record `old` is still registered under the same name when the lock is taken
again (on a server with a hub): the record stored under that name is `old` with
its datagram log extended by exactly the one datagram
`{Direction: ClientToServer (1), Message: bytes}`, so that its ID, Name and
Running are unchanged; every other name maps to what it mapped to; no key is
added or removed; the command channels are untouched; the one broadcast is the
token "usu" followed by the decimal of the requested id; the reply is 200. -/
theorem SendDatagram_success_appends (tr : Transport) (env : Server → Server) (s : Server)
    (req : SendDatagramRequest) (name : String) (uc old : UDPClient) (bytes : List Nat)
    (hfmt : req.Format = "hex" ∨ req.Format = "text")
    (hfind : findClientById s.udpClients req.Id = some (name, uc))
    (hrun : uc.Running = true)
    (hconv : convertMessageToBytes req.Message req.Format = (bytes, none))
    (hsend : tr.Send uc.Client ⟨.PacketTypeDebugAny, bytes⟩ = none)
    (hstill : mapLookup (env s).udpClients name = some old)
    (hhub : (env s).wsHub = true) :
    mapLookup (SendDatagram tr env s (.ok req)).state.udpClients name
        = some { ID := old.ID, Client := old.Client, Name := old.Name,
                 Datagrams := old.Datagrams ++ [{ Direction := 1, Message := bytes }],
                 Running := old.Running }
      ∧ ClientToServer = 1
      ∧ (∀ other, other ≠ name →
          mapLookup (SendDatagram tr env s (.ok req)).state.udpClients other
            = mapLookup (env s).udpClients other)
      ∧ (SendDatagram tr env s (.ok req)).state.udpClients.map Prod.fst
          = (env s).udpClients.map Prod.fst
      ∧ (SendDatagram tr env s (.ok req)).state.clientCommandChs = (env s).clientCommandChs
      ∧ (SendDatagram tr env s (.ok req)).state.wsHub = (env s).wsHub
      ∧ broadcasts (SendDatagram tr env s (.ok req)).trace
          = [stringBytes ("usu" ++ Itoa req.Id)]
      ∧ transportCalls (SendDatagram tr env s (.ok req)).trace
          = [.clientSend uc.Client ⟨.PacketTypeDebugAny, bytes⟩]
      ∧ (SendDatagram tr env s (.ok req)).reply = .SendDatagramResponse "Datagram sent successfully"
      ∧ (SendDatagram tr env s (.ok req)).reply.status = 200 := by
  have hf : ¬ (req.Format ≠ "hex" ∧ req.Format ≠ "text") := by
    rcases hfmt with h | h <;> simp [h]
  simp only [SendDatagram, hf, if_false, hfind, hrun, hconv, hsend, hstill, hhub]
  refine ⟨?_, rfl, ?_, ?_, rfl, rfl, ?_, ?_, rfl, rfl⟩
  · simp [mapLookup_mapStore_self, ClientToServer]
  · intro other hne
    exact mapLookup_mapStore_of_ne _ _ _ _ hne
  · exact mapStore_keys_of_mapLookup _ _ _ old hstill
  · simp [broadcasts]
  · simp [transportCalls]

theorem SendDatagram_success_appends_witness :
    mapLookup (SendDatagram okTransport id exampleServer (.ok ⟨7, "4a 4B", "hex"⟩)).state.udpClients
        "alice"
        = some { ID := 7, Client := 1, Name := "alice",
                 Datagrams := [{ Direction := 2, Message := [1, 2] }]
                   ++ [{ Direction := 1, Message := [74, 75] }],
                 Running := true }
      ∧ broadcasts (SendDatagram okTransport id exampleServer (.ok ⟨7, "4a 4B", "hex"⟩)).trace
          = [stringBytes ("usu" ++ Itoa 7)]
      ∧ (SendDatagram okTransport id exampleServer (.ok ⟨7, "4a 4B", "hex"⟩)).reply.status = 200 :=
  have h := SendDatagram_success_appends okTransport id exampleServer ⟨7, "4a 4B", "hex"⟩ "alice"
    exampleClient exampleClient [74, 75] (by decide) (by decide) (by decide) (by decide)
    (by decide) (by decide) (by decide)
  ⟨h.1, h.2.2.2.2.2.2.1, h.2.2.2.2.2.2.2.2.2⟩

/-- C4: a request whose body parses and whose format is neither "hex" nor
"text" gets the reply 400 "Format must be 'hex' or 'text'", whatever its id and
message and whatever the registry holds; the handler performs no event at all
(no lock, no transport call, no broadcast) and leaves the state unchanged. -/
theorem SendDatagram_invalid_format (tr : Transport) (env : Server → Server) (s : Server)
    (req : SendDatagramRequest) (hfmt : req.Format ≠ "hex" ∧ req.Format ≠ "text") :
    (SendDatagram tr env s (.ok req)).reply
        = .ApiError 400 "Format must be 'hex' or 'text'" none
      ∧ (SendDatagram tr env s (.ok req)).reply.status = 400
      ∧ (SendDatagram tr env s (.ok req)).trace = []
      ∧ transportCalls (SendDatagram tr env s (.ok req)).trace = []
      ∧ broadcasts (SendDatagram tr env s (.ok req)).trace = []
      ∧ (SendDatagram tr env s (.ok req)).state = s := by
  simp [SendDatagram, hfmt, Response.status, transportCalls, broadcasts]

theorem SendDatagram_invalid_format_witness :
    (SendDatagram okTransport id exampleServer (.ok ⟨1, "test", "invalid"⟩)).reply
        = .ApiError 400 "Format must be 'hex' or 'text'" none
      ∧ (SendDatagram okTransport id exampleServer (.ok ⟨7, "test", "HEX"⟩)).state
          = exampleServer :=
  ⟨(SendDatagram_invalid_format okTransport id exampleServer ⟨1, "test", "invalid"⟩
      (by decide)).1,
   (SendDatagram_invalid_format okTransport id exampleServer ⟨7, "test", "HEX"⟩
      (by decide)).2.2.2.2.2⟩

/-! ## `StopUDPClient` -/

/-- C9: `StopUDPClient` with a missing or empty `name` replies 400 "Name is
required"; with a non-empty name that is not a key of the registry it replies
404 "UDP client not found"; in both cases the whole state (client registry and
command-channel map) is unchanged and no transport call is made. -/
theorem StopUDPClient_rejects (s : Server) :
    ((StopUDPClient s none).reply = .ApiError 400 "Name is required" none
        ∧ (StopUDPClient s none).state = s
        ∧ transportCalls (StopUDPClient s none).trace = [])
      ∧ ((StopUDPClient s (some "")).reply = .ApiError 400 "Name is required" none
        ∧ (StopUDPClient s (some "")).state = s
        ∧ transportCalls (StopUDPClient s (some "")).trace = [])
      ∧ (∀ name : String, name ≠ "" → name ∉ s.udpClients.map Prod.fst →
        (StopUDPClient s (some name)).reply = .ApiError 404 "UDP client not found" none
        ∧ (StopUDPClient s (some name)).reply.status = 404
        ∧ (StopUDPClient s (some name)).state = s
        ∧ (StopUDPClient s (some name)).state.udpClients = s.udpClients
        ∧ (StopUDPClient s (some name)).state.clientCommandChs = s.clientCommandChs
        ∧ transportCalls (StopUDPClient s (some name)).trace = []) := by
  refine ⟨?_, ?_, ?_⟩
  · simp [StopUDPClient, queryGet, transportCalls]
  · simp [StopUDPClient, queryGet, transportCalls]
  · intro name hne hkey
    have hnone := (mapLookup_eq_none_iff s.udpClients name).2 hkey
    simp [StopUDPClient, queryGet, hne, hnone, transportCalls, Response.status]

theorem StopUDPClient_rejects_witness :
    (StopUDPClient exampleServer (some "missing")).reply
        = .ApiError 404 "UDP client not found" none
      ∧ (StopUDPClient exampleServer (some "missing")).state = exampleServer :=
  ⟨((StopUDPClient_rejects exampleServer).2.2 "missing" (by decide) (by decide)).1,
   ((StopUDPClient_rejects exampleServer).2.2 "missing" (by decide) (by decide)).2.2.1⟩

/-- C10, as stated, fails: on the registry `{alice ↦ id 7}` the call
`StopUDPClient("alice")` succeeds, yet the registry still holds the record under
`alice`, a following `GetUDPClientStateByName("alice")` replies 200 (not 404),
and the listing still contains the client. -/
theorem StopUDPClient_removes_record_counterexample :
    (StopUDPClient exampleServer (some "alice")).reply = .ApiSuccess "UDP client stopped"
      ∧ mapLookup (StopUDPClient exampleServer (some "alice")).state.udpClients "alice"
          = some exampleClient
      ∧ (GetUDPClientStateByName (StopUDPClient exampleServer (some "alice")).state
          (some "alice")).reply.status = 200
      ∧ (GetAllUDPClients (StopUDPClient exampleServer (some "alice")).state).reply
          = .AllUDPClientResponse [⟨"alice", 7⟩] := by
  decide

/-- C10 (amended): for every registry holding a record `uc` under a non-empty
name `n`, `StopUDPClient(n)` replies "UDP client stopped" (200), stops exactly
that record's transport and deregisters the command channel of its id (the
channels of other ids stay); the client registry itself is unchanged, so the
record stays under `n`: a following `GetUDPClientStateByName(n)` replies 200
with that record's id, running flag and datagrams, and `GetAllUDPClients`
lists what it listed before. -/
theorem StopUDPClient_success (s : Server) (n : String) (uc : UDPClient)
    (hne : n ≠ "") (hreg : mapLookup s.udpClients n = some uc) :
    (StopUDPClient s (some n)).reply = .ApiSuccess "UDP client stopped"
      ∧ (StopUDPClient s (some n)).reply.status = 200
      ∧ transportCalls (StopUDPClient s (some n)).trace = [.clientStop uc.Client]
      ∧ mapLookup (StopUDPClient s (some n)).state.clientCommandChs uc.ID = none
      ∧ (∀ i, i ≠ uc.ID → mapLookup (StopUDPClient s (some n)).state.clientCommandChs i
          = mapLookup s.clientCommandChs i)
      ∧ (StopUDPClient s (some n)).state.udpClients = s.udpClients
      ∧ (GetUDPClientStateByName (StopUDPClient s (some n)).state (some n)).reply
          = .UDPClientStateResponse uc.ID uc.Running uc.Datagrams
      ∧ (GetAllUDPClients (StopUDPClient s (some n)).state).reply = (GetAllUDPClients s).reply := by
  have hout : StopUDPClient s (some n)
      = ⟨{ s with clientCommandChs := mapDelete s.clientCommandChs uc.ID },
          .ApiSuccess "UDP client stopped", [.muLock, .clientStop uc.Client, .muUnlock]⟩ := by
    simp [StopUDPClient, queryGet, hne, hreg]
  rw [hout]
  refine ⟨rfl, rfl, ?_, ?_, ?_, rfl, ?_, rfl⟩
  · simp [transportCalls]
  · exact mapLookup_mapDelete_self _ _
  · intro i hi
    exact mapLookup_mapDelete_of_ne _ _ _ hi
  · simp [GetUDPClientStateByName, queryGet, hne, hreg]

theorem StopUDPClient_success_witness :
    transportCalls (StopUDPClient exampleServer (some "alice")).trace = [.clientStop 1]
      ∧ mapLookup (StopUDPClient exampleServer (some "alice")).state.clientCommandChs 7 = none
      ∧ (StopUDPClient exampleServer (some "alice")).state.udpClients
          = exampleServer.udpClients :=
  have h := StopUDPClient_success exampleServer "alice" exampleClient (by decide) (by decide)
  ⟨h.2.2.1, h.2.2.2.1, h.2.2.2.2.2.1⟩

/-! ## Facts about trimming and space removal -/

theorem trimSpaceRunes_decomp (l : List Char) :
    ∃ pre post, l = pre ++ trimSpaceRunes l ++ post
      ∧ (∀ c ∈ pre, unicodeIsSpace c = true) ∧ (∀ c ∈ post, unicodeIsSpace c = true) := by
  refine ⟨l.takeWhile unicodeIsSpace, (l.dropWhile unicodeIsSpace).rtakeWhile unicodeIsSpace,
    ?_, ?_, ?_⟩
  · have h1 := List.takeWhile_append_dropWhile unicodeIsSpace l
    have h2 : (l.dropWhile unicodeIsSpace).rdropWhile unicodeIsSpace
        ++ (l.dropWhile unicodeIsSpace).rtakeWhile unicodeIsSpace = l.dropWhile unicodeIsSpace := by
      have h3 := List.takeWhile_append_dropWhile unicodeIsSpace (l.dropWhile unicodeIsSpace).reverse
      have h4 := congrArg List.reverse h3
      rw [List.reverse_append, List.reverse_reverse] at h4
      exact h4
    rw [trimSpaceRunes, List.append_assoc, h2, h1]
  · intro c hc
    exact List.mem_takeWhile_imp hc
  · intro c hc
    exact List.mem_rtakeWhile_imp hc

theorem filter_eq_nil_of_forall_false {α : Type} (q : α → Bool) (l : List α)
    (h : ∀ c ∈ l, q c = false) : l.filter q = [] := by
  rw [List.filter_eq_nil_iff]
  intro c hc
  simp [h c hc]

/-- Removing every white-space character gives the same string before and
after trimming. -/
theorem filter_notSpace_trimSpaceRunes (l : List Char) :
    (trimSpaceRunes l).filter (fun c => !unicodeIsSpace c)
      = l.filter (fun c => !unicodeIsSpace c) := by
  obtain ⟨pre, post, hl, hpre, hpost⟩ := trimSpaceRunes_decomp l
  have h1 : pre.filter (fun c => !unicodeIsSpace c) = [] :=
    filter_eq_nil_of_forall_false _ _ (fun c hc => by simp [hpre c hc])
  have h2 : post.filter (fun c => !unicodeIsSpace c) = [] :=
    filter_eq_nil_of_forall_false _ _ (fun c hc => by simp [hpost c hc])
  conv_rhs => rw [hl]
  simp [List.filter_append, h1, h2]

theorem unicodeIsSpace_space : unicodeIsSpace ' ' = true := by decide

/-- On a trimmed string whose only white space is U+0020, deleting the spaces
deletes all the white space of the original string. -/
theorem removeSpacesRunes_trimSpaceRunes (l : List Char)
    (h : ∀ c ∈ trimSpaceRunes l, unicodeIsSpace c = true → c = ' ') :
    removeSpacesRunes (trimSpaceRunes l) = l.filter (fun c => !unicodeIsSpace c) := by
  rw [← filter_notSpace_trimSpaceRunes, removeSpacesRunes]
  apply List.filter_congr
  intro c hc
  by_cases hs : unicodeIsSpace c = true
  · have := h c hc hs
    subst this
    simp [unicodeIsSpace_space]
  · have hne : c ≠ ' ' := by
      intro hc'
      subst hc'
      exact hs unicodeIsSpace_space
    simp [hs, hne]

theorem trimSpaceRunes_subset (l : List Char) : ∀ c ∈ trimSpaceRunes l, c ∈ l := by
  intro c hc
  have h1 : c ∈ l.dropWhile unicodeIsSpace :=
    (List.rdropWhile_prefix unicodeIsSpace _).subset hc
  exact (List.dropWhile_suffix unicodeIsSpace).subset h1

/-! ## Facts about hexadecimal decoding -/

theorem nibbles_value : ∀ a < 16, ∀ b < 16, (a <<< 4 ||| b) % 256 = 16 * a + b := by
  decide

theorem isHexDigit_facts (c : Char) (h : isHexDigit c = true) :
    utf8EncodeRune c = [c.toNat] ∧ reverseHexTable c.toNat = hexDigitValue c
      ∧ hexDigitValue c < 16 := by
  simp only [isHexDigit, Bool.or_eq_true, Bool.and_eq_true, decide_eq_true_eq] at h
  simp only [utf8EncodeRune, reverseHexTable, hexDigitValue]
  generalize c.toNat = r at *
  refine ⟨?_, ?_, ?_⟩
  · rw [if_pos (by omega)]
  · split_ifs <;> first | rfl | omega
  · split_ifs <;> omega

theorem not_isHexDigit_facts (c : Char) (h : isHexDigit c = false) :
    ∃ b rest, utf8EncodeRune c = b :: rest ∧ reverseHexTable b = 0xff := by
  simp only [isHexDigit, Bool.or_eq_false_iff, Bool.and_eq_false_iff, decide_eq_false_iff_not] at h
  simp only [utf8EncodeRune, reverseHexTable]
  generalize c.toNat = r at *
  by_cases h1 : r < 0x80
  · refine ⟨r, [], by rw [if_pos h1], ?_⟩
    split_ifs <;> first | rfl | omega
  · by_cases h2 : r < 0x800
    · refine ⟨_, _, by rw [if_neg h1, if_pos h2], ?_⟩
      split_ifs <;> first | rfl | omega
    · by_cases h3 : r < 0x10000
      · refine ⟨_, _, by rw [if_neg h1, if_neg h2, if_pos h3], ?_⟩
        split_ifs <;> first | rfl | omega
      · refine ⟨_, _, by rw [if_neg h1, if_neg h2, if_neg h3], ?_⟩
        split_ifs <;> first | rfl | omega

theorem reverseHexTable_cases (b : Nat) : reverseHexTable b ≤ 15 ∨ reverseHexTable b = 0xff := by
  simp only [reverseHexTable]
  split_ifs <;> omega

/-- Go `hex.Decode` reports no error exactly on an even number of bytes that are
all hexadecimal digits. -/
theorem hexDecode_ok_iff (bs : List Nat) :
    (hexDecode bs).2 = none ↔ bs.length % 2 = 0 ∧ ∀ b ∈ bs, reverseHexTable b ≤ 15 := by
  induction bs using hexDecode.induct with
  | case1 => simp [hexDecode]
  | case2 p hp => simp [hexDecode, hp]
  | case3 p hp => simp [hexDecode, hp]
  | case4 p q rest a ha =>
    have ha' : 15 < reverseHexTable p := ha
    have : ¬ reverseHexTable p ≤ 15 := by omega
    simp [hexDecode, ha', this]
  | case5 p q rest a b ha hb =>
    have ha' : ¬ 15 < reverseHexTable p := ha
    have hb' : 15 < reverseHexTable q := hb
    have : ¬ reverseHexTable q ≤ 15 := by omega
    simp [hexDecode, ha', hb', this]
  | case6 p q rest a b ha hb ih =>
    have ha' : ¬ 15 < reverseHexTable p := ha
    have hb' : ¬ 15 < reverseHexTable q := hb
    have h1 : reverseHexTable p ≤ 15 := by omega
    have h2 : reverseHexTable q ≤ 15 := by omega
    have hlen : (rest.length + 1 + 1) % 2 = rest.length % 2 := by omega
    simp [hexDecode, ha', hb', ih, h1, h2, hlen]

theorem utf8Bytes_of_hexDigits (s : List Char) (h : ∀ c ∈ s, isHexDigit c = true) :
    utf8Bytes s = s.map Char.toNat := by
  induction s with
  | nil => rfl
  | cons c rest ih =>
    have hc := (isHexDigit_facts c (h c (List.mem_cons_self _ _))).1
    have ih' := ih (fun d hd => h d (List.mem_cons_of_mem _ hd))
    simp only [utf8Bytes] at ih' ⊢
    simp [List.flatMap_cons, hc, ih']

theorem utf8Bytes_invalid_of_not_hexDigit (s : List Char) (c : Char) (hc : c ∈ s)
    (h : isHexDigit c = false) : ∃ b ∈ utf8Bytes s, reverseHexTable b = 0xff := by
  obtain ⟨b, rest, hb, hv⟩ := not_isHexDigit_facts c h
  refine ⟨b, ?_, hv⟩
  simp only [utf8Bytes, List.mem_flatMap]
  exact ⟨c, hc, by simp [hb]⟩

/-- Go `hex.DecodeString` on the runes of a string reports no error exactly when
the string is an even number of hexadecimal digits. -/
theorem hexDecode_utf8Bytes_ok_iff (s : List Char) :
    (hexDecode (utf8Bytes s)).2 = none ↔ s.length % 2 = 0 ∧ ∀ c ∈ s, isHexDigit c = true := by
  rw [hexDecode_ok_iff]
  constructor
  · rintro ⟨hlen, hall⟩
    have hdig : ∀ c ∈ s, isHexDigit c = true := by
      intro c hc
      by_contra hn
      have hn' : isHexDigit c = false := by simpa using hn
      obtain ⟨b, hb, hv⟩ := utf8Bytes_invalid_of_not_hexDigit s c hc hn'
      have := hall b hb
      omega
    refine ⟨?_, hdig⟩
    rw [utf8Bytes_of_hexDigits s hdig, List.length_map] at hlen
    exact hlen
  · rintro ⟨hlen, hdig⟩
    rw [utf8Bytes_of_hexDigits s hdig, List.length_map]
    refine ⟨hlen, ?_⟩
    intro b hb
    obtain ⟨c, hc, rfl⟩ := List.mem_map.1 hb
    have := isHexDigit_facts c (hdig c hc)
    omega

/-- On an even number of hexadecimal digits `hex.DecodeString` returns the
bytes the digits denote, and no error. -/
theorem hexDecode_of_hexDigits (s : List Char) (hlen : s.length % 2 = 0)
    (hdig : ∀ c ∈ s, isHexDigit c = true) :
    hexDecode (utf8Bytes s) = (hexValue s, none) := by
  rw [utf8Bytes_of_hexDigits s hdig]
  induction s using hexValue.induct with
  | case1 => rfl
  | case2 c => simp at hlen
  | case3 c1 c2 rest ih =>
    have f1 := isHexDigit_facts c1 (hdig c1 (by simp))
    have f2 := isHexDigit_facts c2 (hdig c2 (by simp))
    have hlen' : rest.length % 2 = 0 := by
      simp only [List.length_cons] at hlen
      omega
    have ih' := ih hlen' (fun d hd => hdig d (by simp [hd]))
    have hv := nibbles_value (hexDigitValue c1) f1.2.2 (hexDigitValue c2) f2.2.2
    have g1 : ¬ hexDigitValue c1 > 15 := by omega
    have g2 : ¬ hexDigitValue c2 > 15 := by omega
    simp only [List.map_cons, hexDecode, f1.2.1, f2.2.1, g1, g2, if_false, ih', hv, hexValue]

theorem hexValue_length (s : List Char) : (hexValue s).length = s.length / 2 := by
  induction s using hexValue.induct with
  | case1 => rfl
  | case2 c => simp [hexValue]
  | case3 c1 c2 rest ih =>
    simp only [hexValue, List.length_cons, ih]
    omega

/-! ## `convertMessageToBytes`: the repository's tests -/

/-- Test `TestConvertMessageToBytes_Text`. -/
theorem test_convertMessageToBytes_text :
    convertMessageToBytes "Hello, World!" "text"
      = ([72, 101, 108, 108, 111, 44, 32, 87, 111, 114, 108, 100, 33], none) := by
  decide

/-- Test `TestConvertMessageToBytes_Hex` and `TestConvertMessageToBytes_HexWithSpaces`. -/
theorem test_convertMessageToBytes_hex :
    convertMessageToBytes "48656c6c6f" "hex" = (stringBytes "Hello", none)
      ∧ convertMessageToBytes "48 65 6c 6c 6f" "hex" = (stringBytes "Hello", none) := by
  decide

/-- Test `TestConvertMessageToBytes_InvalidHex`. -/
theorem test_convertMessageToBytes_invalidHex :
    (convertMessageToBytes "invalid hex" "hex").2 = some (.InvalidByteError 105) := by
  decide

/-- The UTF-8 encoder on runes of one, two, three and four bytes. -/
theorem test_stringBytes :
    stringBytes "aé€😀" = [0x61, 0xC3, 0xA9, 0xE2, 0x82, 0xAC, 0xF0, 0x9F, 0x98, 0x80] := by
  decide

/-! ## `convertMessageToBytes`: properties -/

/-- C5, as stated, fails: the message `"48\t65"` has a tab between its digits;
with all of its white space removed it is `"4865"`, which decodes to the bytes
`48 65`, but `convertMessageToBytes` only trims the ends and deletes U+0020, so
it reports the tab as an invalid byte; `"48\t65"` and `"4865"` differ only in
white space and do not yield the same result. -/
theorem convertMessageToBytes_hex_whitespace_counterexample :
    convertMessageToBytes "48\t65" "hex" = ([72], some (.InvalidByteError 9))
      ∧ DecodeString (removeAllWhitespace "48\t65") = ([72, 101], none)
      ∧ removeAllWhitespace "48\t65" = removeAllWhitespace "4865"
      ∧ convertMessageToBytes "4865" "hex" = ([72, 101], none) := by
  decide

theorem isHexDigit_not_space (c : Char) (h : isHexDigit c = true) : unicodeIsSpace c = false := by
  simp only [isHexDigit, Bool.or_eq_true, Bool.and_eq_true, decide_eq_true_eq] at h
  simp only [unicodeIsSpace]
  generalize c.toNat = r at *
  have hr : r ≤ 0xFF := by omega
  simp only [hr, if_true]
  simp only [Bool.or_eq_false_iff, beq_eq_false_iff_ne]
  omega

/-- A white-space character other than U+0020 that is left after trimming makes
the hex conversion fail: it survives the deletion of spaces and is not a
hexadecimal digit. -/
theorem convertMessageToBytes_hex_inner_whitespace (m : String) (c : Char)
    (hc : c ∈ (TrimSpace m).data) (hs : unicodeIsSpace c = true) (hne : c ≠ ' ') :
    (convertMessageToBytes m "hex").2 ≠ none := by
  intro hok
  simp only [convertMessageToBytes, if_true, ReplaceAllSpaces, TrimSpace, DecodeString,
    stringBytes] at hok hc
  have hall := ((hexDecode_utf8Bytes_ok_iff _).1 hok).2
  have hmem : c ∈ removeSpacesRunes (trimSpaceRunes m.data) := by
    simp [removeSpacesRunes, hc, hne]
  have := isHexDigit_not_space c (hall c hmem)
  rw [hs] at this
  exact Bool.noConfusion this

/-- C5 (amended): `convertMessageToBytes(m, "hex")` is the hex decoding of `m`
with its leading and trailing white space trimmed and every U+0020 deleted.
White space other than U+0020 that is left after trimming (a tab, carriage
return or newline between the digits, or any other white space) is not removed
and makes the decoding fail, also when `m` with all of its white space removed
decodes without error, so the two results then differ. Whenever the only white
space left after trimming is U+0020, the result is the hex decoding of `m` with
all of its white space removed, so two such messages that differ only in white
space yield the same result. Hence the conversion succeeds exactly when the
only white space left after trimming is U+0020 and `m` with all of its white
space removed decodes without error. -/
theorem convertMessageToBytes_hex_whitespace (m : String) :
    convertMessageToBytes m "hex" = DecodeString (ReplaceAllSpaces (TrimSpace m))
      ∧ (∀ c ∈ (TrimSpace m).data, unicodeIsSpace c = true → c ≠ ' ' →
          c ∈ (ReplaceAllSpaces (TrimSpace m)).data
            ∧ (convertMessageToBytes m "hex").2 ≠ none
            ∧ ((DecodeString (removeAllWhitespace m)).2 = none →
                convertMessageToBytes m "hex" ≠ DecodeString (removeAllWhitespace m)))
      ∧ (∀ c ∈ (TrimSpace m).data,
          (c = Char.ofNat 9 ∨ c = Char.ofNat 10 ∨ c = Char.ofNat 13) →
          (convertMessageToBytes m "hex").2 ≠ none)
      ∧ ((∀ c ∈ (TrimSpace m).data, unicodeIsSpace c = true → c = ' ') →
          convertMessageToBytes m "hex" = DecodeString (removeAllWhitespace m))
      ∧ (∀ m2 : String,
          (∀ c ∈ (TrimSpace m).data, unicodeIsSpace c = true → c = ' ') →
          (∀ c ∈ (TrimSpace m2).data, unicodeIsSpace c = true → c = ' ') →
          removeAllWhitespace m = removeAllWhitespace m2 →
          convertMessageToBytes m "hex" = convertMessageToBytes m2 "hex")
      ∧ ((convertMessageToBytes m "hex").2 = none
          ↔ (∀ c ∈ (TrimSpace m).data, unicodeIsSpace c = true → c = ' ')
              ∧ (DecodeString (removeAllWhitespace m)).2 = none) := by
  have key : ∀ x : String, (∀ c ∈ (TrimSpace x).data, unicodeIsSpace c = true → c = ' ') →
      convertMessageToBytes x "hex" = DecodeString (removeAllWhitespace x) := by
    intro x hx
    have h := removeSpacesRunes_trimSpaceRunes x.data hx
    simp only [convertMessageToBytes, if_true, ReplaceAllSpaces, TrimSpace, removeAllWhitespace,
      DecodeString, stringBytes]
    rw [h]
  refine ⟨by simp [convertMessageToBytes], ?_, ?_, key m, ?_, ?_⟩
  · intro c hc hs hne
    have hfail := convertMessageToBytes_hex_inner_whitespace m c hc hs hne
    refine ⟨?_, hfail, ?_⟩
    · simp only [ReplaceAllSpaces, removeSpacesRunes, List.mem_filter]
      exact ⟨hc, by simp [hne]⟩
    · intro hok heq
      rw [heq] at hfail
      exact hfail hok
  · intro c hc hcase
    have hs : unicodeIsSpace c = true ∧ c ≠ ' ' := by
      rcases hcase with h | h | h <;> subst h <;> decide
    exact convertMessageToBytes_hex_inner_whitespace m c hc hs.1 hs.2
  · intro m2 h1 h2 heq
    rw [key m h1, key m2 h2, heq]
  · constructor
    · intro hok
      have hsp : ∀ c ∈ (TrimSpace m).data, unicodeIsSpace c = true → c = ' ' := by
        intro c hc hs
        by_contra hne
        exact convertMessageToBytes_hex_inner_whitespace m c hc hs hne hok
      refine ⟨hsp, ?_⟩
      rw [← key m hsp]
      exact hok
    · rintro ⟨hsp, hok⟩
      rw [key m hsp]
      exact hok

theorem convertMessageToBytes_hex_whitespace_witness :
    convertMessageToBytes "\t 48 65 6c 6c 6f\r\n" "hex"
        = DecodeString (removeAllWhitespace "\t 48 65 6c 6c 6f\r\n")
      ∧ convertMessageToBytes "\t 48 65 6c 6c 6f\r\n" "hex"
        = convertMessageToBytes "48656c6c6f" "hex"
      ∧ (convertMessageToBytes "48\t65" "hex").2 ≠ none
      ∧ convertMessageToBytes "48\t65" "hex" ≠ DecodeString (removeAllWhitespace "48\t65")
      ∧ (convertMessageToBytes "48 65\r\n6c" "hex").2 ≠ none :=
  ⟨(convertMessageToBytes_hex_whitespace "\t 48 65 6c 6c 6f\r\n").2.2.2.1 (by decide),
   (convertMessageToBytes_hex_whitespace "\t 48 65 6c 6c 6f\r\n").2.2.2.2.1 "48656c6c6f"
      (by decide) (by decide) (by decide),
   ((convertMessageToBytes_hex_whitespace "48\t65").2.1 (Char.ofNat 9) (by decide) (by decide)
      (by decide)).2.1,
   ((convertMessageToBytes_hex_whitespace "48\t65").2.1 (Char.ofNat 9) (by decide) (by decide)
      (by decide)).2.2 (by decide),
   (convertMessageToBytes_hex_whitespace "48 65\r\n6c").2.2.1 (Char.ofNat 13) (by decide)
      (Or.inr (Or.inr rfl))⟩

/-- C6: if `h` is an even-length string of hexadecimal digits and `m` is `h`
with ASCII spaces inserted anywhere (deleting the spaces of `m` gives `h`),
then `convertMessageToBytes(m, "hex")` returns exactly what
`hex.DecodeString(h)` returns: no error, and the `len(h)/2` bytes the digit
pairs of `h` denote. -/
theorem convertMessageToBytes_hex_spaces (h m : String)
    (hdig : ∀ c ∈ h.data, isHexDigit c = true) (heven : h.data.length % 2 = 0)
    (hins : removeSpacesRunes m.data = h.data) :
    convertMessageToBytes m "hex" = DecodeString h
      ∧ DecodeString h = (hexValue h.data, none)
      ∧ (convertMessageToBytes m "hex").2 = none
      ∧ (convertMessageToBytes m "hex").1.length = h.data.length / 2 := by
  have hm : ∀ c ∈ m.data, unicodeIsSpace c = true → c = ' ' := by
    intro c hc hs
    by_contra hne
    have hmem : c ∈ removeSpacesRunes m.data := by
      simp [removeSpacesRunes, hc, hne]
    rw [hins] at hmem
    have := isHexDigit_not_space c (hdig c hmem)
    rw [hs] at this
    exact Bool.noConfusion this
  have h1 : removeSpacesRunes (trimSpaceRunes m.data) = h.data := by
    rw [removeSpacesRunes_trimSpaceRunes m.data
      (fun c hc hs => hm c (trimSpaceRunes_subset m.data c hc) hs), ← hins, removeSpacesRunes]
    apply List.filter_congr
    intro c hc
    by_cases hs : unicodeIsSpace c = true
    · have := hm c hc hs
      subst this
      simp [unicodeIsSpace_space]
    · have hne : c ≠ ' ' := by
        intro hc'
        subst hc'
        exact hs unicodeIsSpace_space
      simp [hs, hne]
  have h2 : DecodeString h = (hexValue h.data, none) := hexDecode_of_hexDigits h.data heven hdig
  have h3 : convertMessageToBytes m "hex" = DecodeString h := by
    simp only [convertMessageToBytes, if_true, ReplaceAllSpaces, TrimSpace, DecodeString,
      stringBytes]
    rw [h1]
  refine ⟨h3, h2, ?_, ?_⟩
  · rw [h3, h2]
  · rw [h3, h2]
    exact hexValue_length h.data

theorem convertMessageToBytes_hex_spaces_witness :
    (convertMessageToBytes " 48 65 6c  6c 6f " "hex" = DecodeString "48656c6c6f"
      ∧ DecodeString "48656c6c6f" = (hexValue "48656c6c6f".data, none)
      ∧ (convertMessageToBytes " 48 65 6c  6c 6f " "hex").2 = none
      ∧ (convertMessageToBytes " 48 65 6c  6c 6f " "hex").1.length = "48656c6c6f".data.length / 2)
      ∧ hexValue "48656c6c6f".data = stringBytes "Hello" :=
  ⟨convertMessageToBytes_hex_spaces "48656c6c6f" " 48 65 6c  6c 6f " (by decide) (by decide)
    (by decide), by decide⟩

/-! ## Facts about the UTF-8 conversion -/

theorem char_toNat_lt (c : Char) : c.toNat < 0x110000 := by
  have := c.valid
  simp only [Char.toNat, UInt32.isValidChar, Nat.isValidChar] at *
  omega

/-- The encoding of a rune has the length Lean's own `Char.utf8Size` gives. -/
theorem utf8EncodeRune_length (c : Char) : (utf8EncodeRune c).length = c.utf8Size := by
  have h1 : (c.val ≤ UInt32.ofNatCore 0x7F (by decide)) ↔ c.toNat ≤ 0x7F := by
    simp [UInt32.le_def, Char.toNat, UInt32.toNat, BitVec.le_def]
  have h2 : (c.val ≤ UInt32.ofNatCore 0x7FF (by decide)) ↔ c.toNat ≤ 0x7FF := by
    simp [UInt32.le_def, Char.toNat, UInt32.toNat, BitVec.le_def]
  have h3 : (c.val ≤ UInt32.ofNatCore 0xFFFF (by decide)) ↔ c.toNat ≤ 0xFFFF := by
    simp [UInt32.le_def, Char.toNat, UInt32.toNat, BitVec.le_def]
  simp only [Char.utf8Size, utf8EncodeRune, h1, h2, h3]
  generalize c.toNat = r
  split_ifs <;> first | rfl | omega

theorem utf8EncodeRune_lt (c : Char) : ∀ b ∈ utf8EncodeRune c, b < 256 := by
  have hc := char_toNat_lt c
  simp only [utf8EncodeRune]
  generalize c.toNat = r at *
  intro b hb
  split_ifs at hb <;> simp at hb <;> omega

theorem utf8Bytes_length (s : List Char) : (utf8Bytes s).length = String.utf8ByteSize.go s := by
  induction s with
  | nil => rfl
  | cons c rest ih =>
    simp only [utf8Bytes] at ih
    simp only [utf8Bytes, List.flatMap_cons, List.length_append, String.utf8ByteSize.go, ih,
      utf8EncodeRune_length]
    omega

theorem utf8Bytes_append (a b : List Char) : utf8Bytes (a ++ b) = utf8Bytes a ++ utf8Bytes b := by
  simp [utf8Bytes, List.flatMap_append]

/-- C7: for every message `m`, `convertMessageToBytes(m, "text")` returns no
error and exactly the UTF-8 bytes of `m`: the encodings of its runes one after
the other, in order, all of them (as many bytes as the UTF-8 size of `m`),
nothing trimmed and no space removed, so the bytes of `a ++ b` are the bytes of
`a` followed by the bytes of `b` whatever white space `a` and `b` hold. -/
theorem convertMessageToBytes_text (m : String) :
    convertMessageToBytes m "text" = (stringBytes m, none)
      ∧ (convertMessageToBytes m "text").2 = none
      ∧ (convertMessageToBytes m "text").1 = m.data.flatMap utf8EncodeRune
      ∧ (convertMessageToBytes m "text").1.length = m.utf8ByteSize
      ∧ (∀ b ∈ (convertMessageToBytes m "text").1, b < 256)
      ∧ (∀ a b : String, m = a ++ b →
          (convertMessageToBytes m "text").1 = stringBytes a ++ stringBytes b) := by
  have h : convertMessageToBytes m "text" = (stringBytes m, none) := by
    simp [convertMessageToBytes]
  rw [h]
  refine ⟨rfl, rfl, rfl, ?_, ?_, ?_⟩
  · exact utf8Bytes_length m.data
  · intro b hb
    simp only [stringBytes, utf8Bytes, List.mem_flatMap] at hb
    obtain ⟨c, _, hc⟩ := hb
    exact utf8EncodeRune_lt c b hc
  · intro a b hab
    subst hab
    simp only [stringBytes, String.data_append]
    exact utf8Bytes_append a.data b.data

/-- C8: `convertMessageToBytes(m, "hex")` returns an error exactly when the
string left after trimming surrounding white space and deleting spaces has odd
length or contains a character outside `0-9`, `a-f`, `A-F`; otherwise it
returns, without error, the bytes the digit pairs denote. In `SendDatagram` a
message with such an error never leads to a transport call, a broadcast or a
state change, and the reply is 400 or 404; when the client exists and is
running, the reply is 400 "Invalid hex string" carrying the decoder's error. -/
theorem convertMessageToBytes_hex_malformed (m : String) :
    ((convertMessageToBytes m "hex").2 ≠ none ↔
        (ReplaceAllSpaces (TrimSpace m)).data.length % 2 = 1
          ∨ ∃ c ∈ (ReplaceAllSpaces (TrimSpace m)).data, isHexDigit c = false)
      ∧ ((convertMessageToBytes m "hex").2 = none →
          convertMessageToBytes m "hex" = (hexValue (ReplaceAllSpaces (TrimSpace m)).data, none))
      ∧ (∀ (tr : Transport) (env : Server → Server) (s : Server) (reqId : Int),
          (convertMessageToBytes m "hex").2 ≠ none →
          transportCalls (SendDatagram tr env s (.ok ⟨reqId, m, "hex"⟩)).trace = []
            ∧ broadcasts (SendDatagram tr env s (.ok ⟨reqId, m, "hex"⟩)).trace = []
            ∧ (SendDatagram tr env s (.ok ⟨reqId, m, "hex"⟩)).state = s
            ∧ ((SendDatagram tr env s (.ok ⟨reqId, m, "hex"⟩)).reply.status = 400
                ∨ (SendDatagram tr env s (.ok ⟨reqId, m, "hex"⟩)).reply.status = 404)
            ∧ (∀ name uc, findClientById s.udpClients reqId = some (name, uc) →
                uc.Running = true →
                ∃ e, (convertMessageToBytes m "hex").2 = some e
                  ∧ (SendDatagram tr env s (.ok ⟨reqId, m, "hex"⟩)).reply
                    = .ApiError 400 "Invalid hex string" (some (.hex e)))) := by
  have hconv : convertMessageToBytes m "hex"
      = hexDecode (utf8Bytes (ReplaceAllSpaces (TrimSpace m)).data) := by
    simp [convertMessageToBytes, DecodeString, stringBytes]
  have hiff := hexDecode_utf8Bytes_ok_iff (ReplaceAllSpaces (TrimSpace m)).data
  refine ⟨?_, ?_, ?_⟩
  · rw [hconv, Ne, hiff]
    constructor
    · intro hn
      by_cases hlen : (ReplaceAllSpaces (TrimSpace m)).data.length % 2 = 0
      · right
        by_contra hall
        apply hn
        refine ⟨hlen, fun c hc => ?_⟩
        by_contra hd
        exact hall ⟨c, hc, by simpa using hd⟩
      · left
        omega
    · rintro (hodd | ⟨c, hc, hd⟩) ⟨hlen, hall⟩
      · omega
      · rw [hall c hc] at hd
        exact Bool.noConfusion hd
  · intro hok
    rw [hconv] at hok ⊢
    obtain ⟨hlen, hall⟩ := hiff.1 hok
    exact hexDecode_of_hexDigits _ hlen hall
  · intro tr env s reqId herr
    obtain ⟨e, he⟩ := Option.ne_none_iff_exists'.1 herr
    have hpair : convertMessageToBytes m "hex" = ((convertMessageToBytes m "hex").1, some e) := by
      rw [← he]
    cases hfind : findClientById s.udpClients reqId with
    | none =>
      simp [SendDatagram, hfind, transportCalls, broadcasts, Response.status]
    | some found =>
      obtain ⟨name, uc⟩ := found
      cases hrun : uc.Running with
      | false =>
        simp [SendDatagram, hfind, hrun, transportCalls, broadcasts, Response.status]
      | true =>
        have hout : SendDatagram tr env s (.ok ⟨reqId, m, "hex"⟩)
            = ⟨s, .ApiError 400 "Invalid hex string" (some (.hex e)), [.muLock, .muUnlock]⟩ := by
          simp only [SendDatagram]
          rw [hpair]
          simp [hfind, hrun]
        rw [hout]
        refine ⟨by simp [transportCalls], by simp [broadcasts], rfl, Or.inl rfl, ?_⟩
        intro name' uc' hf _
        exact ⟨e, he, rfl⟩

theorem convertMessageToBytes_hex_malformed_witness :
    (convertMessageToBytes "invalid hex" "hex").2 ≠ none
      ∧ (SendDatagram okTransport id exampleServer (.ok ⟨7, "invalid hex", "hex"⟩)).state
          = exampleServer
      ∧ ∃ e, (convertMessageToBytes "invalid hex" "hex").2 = some e
          ∧ (SendDatagram okTransport id exampleServer (.ok ⟨7, "invalid hex", "hex"⟩)).reply
            = .ApiError 400 "Invalid hex string" (some (.hex e)) :=
  ⟨(convertMessageToBytes_hex_malformed "invalid hex").1.2 (Or.inr ⟨'i', by decide, by decide⟩),
   ((convertMessageToBytes_hex_malformed "invalid hex").2.2 okTransport id exampleServer 7
      (by decide)).2.2.1,
   ((convertMessageToBytes_hex_malformed "invalid hex").2.2 okTransport id exampleServer 7
      (by decide)).2.2.2.2 "alice" exampleClient (by decide) (by decide)⟩

/-! ## The id counter -/

theorem wrapInt64_range (x : Int) : -2 ^ 63 ≤ wrapInt64 x ∧ wrapInt64 x < 2 ^ 63 := by
  unfold wrapInt64
  omega

theorem wrapInt64_wrapInt64_add (x y : Int) :
    wrapInt64 (wrapInt64 x + y) = wrapInt64 (x + y) := by
  unfold wrapInt64
  omega

theorem wrapInt64_natCast_of_lt (j : Nat) (h : j < 2 ^ 63) : wrapInt64 (j : Int) = (j : Int) := by
  unfold wrapInt64
  omega

/-- Two values of a counter less than `2^64` steps apart are different after
wrap-around. -/
theorem wrapInt64_add_ne (c : Int) (a b : Nat) (hab : a < b) (hb : b < 2 ^ 64) :
    wrapInt64 (c + (a : Int)) ≠ wrapInt64 (c + (b : Int)) := by
  unfold wrapInt64
  omega

/-- The ids `n` successive calls hand out from a counter that holds a Go `int`:
the counter's value and its successors, wrapping around. -/
theorem getNextIDs_eq (i : ids) (n : Nat) (h1 : -2 ^ 63 ≤ i.nextID) (h2 : i.nextID < 2 ^ 63) :
    getNextIDs i n
      = ((List.range n).map (fun (j : Nat) => wrapInt64 (i.nextID + (j : Int))),
          { nextID := wrapInt64 (i.nextID + (n : Int)) }) := by
  induction n generalizing i with
  | zero =>
    obtain ⟨c⟩ := i
    have hc : wrapInt64 (c + ((0 : Nat) : Int)) = c := by
      simp only at h1 h2
      unfold wrapInt64
      omega
    simp only [getNextIDs, List.range_zero, List.map_nil, hc]
  | succ n ih =>
    obtain ⟨c⟩ := i
    simp only at h1 h2
    have hr := wrapInt64_range (c + 1)
    have hc : wrapInt64 (c + ((0 : Nat) : Int)) = c := by
      unfold wrapInt64
      omega
    have hstep : ∀ j : Nat, wrapInt64 (wrapInt64 (c + 1) + (j : Int))
        = wrapInt64 (c + ((j + 1 : Nat) : Int)) := by
      intro j
      rw [wrapInt64_wrapInt64_add]
      congr 1
      push_cast
      ring
    simp only [getNextIDs, ids.getNextID, ih ⟨wrapInt64 (c + 1)⟩ hr.1 hr.2,
      List.range_succ_eq_map, List.map_cons, List.map_map, hc, hstep]
    rfl

/-- C14, as stated, fails beyond the range of a Go `int`: after `2^63` calls
from the counter at 0 the counter has wrapped around, so call number `2^63 + 1`
returns `-2^63` and not `2^63`; and after `2^64` calls the counter is back at 0,
so call number `2^64 + 1` hands out the id 0 a second time. -/
theorem GetNextID_sequential_counterexample :
    ((getNextIDs idCounter (2 ^ 63)).2.getNextID).1 = -2 ^ 63
      ∧ ((getNextIDs idCounter (2 ^ 63)).2.getNextID).1 ≠ (((2 ^ 63 + 1 : Nat) : Int) - 1)
      ∧ ((getNextIDs idCounter (2 ^ 64)).2.getNextID).1 = 0
      ∧ ((getNextIDs idCounter 0).2.getNextID).1 = 0 := by
  have h0 : (-2 ^ 63 : Int) ≤ idCounter.nextID ∧ idCounter.nextID < 2 ^ 63 := by decide
  rw [getNextIDs_eq idCounter (2 ^ 63) h0.1 h0.2, getNextIDs_eq idCounter (2 ^ 64) h0.1 h0.2]
  simp only [ids.getNextID, idCounter, wrapInt64, getNextIDs]
  norm_num

/-- C14 (amended): starting from the counter at 0, the `k`-th call of
`GetNextID` returns `k-1` reduced to the range of a 64-bit Go `int`, for every
`k ≥ 1`. For `n ≤ 2^63` calls these are exactly the ids `0, 1, ..., n-1` in
this order (the `k`-th call returns `k-1`), strictly increasing, each handed out
once, and for `n < 2^63` the counter is left at `n`. For `n ≤ 2^64` calls no id
is handed out twice. (Calls from several goroutines run one at a time under the
counter's lock, so 100 goroutines making 10 calls each are 1000 calls in some
order and receive the set `0..999`.) -/
theorem GetNextID_sequential (n : Nat) :
    (getNextIDs idCounter n).1 = (List.range n).map (fun (j : Nat) => wrapInt64 (j : Int))
      ∧ (∀ k : Nat, ((getNextIDs idCounter k).2.getNextID).1 = wrapInt64 (k : Int))
      ∧ (getNextIDs idCounter n).1.length = n
      ∧ (∀ id ∈ (getNextIDs idCounter n).1, -2 ^ 63 ≤ id ∧ id < 2 ^ 63)
      ∧ (n ≤ 2 ^ 63 →
          (getNextIDs idCounter n).1 = (List.range n).map (fun (j : Nat) => (j : Int))
            ∧ (∀ k : Nat, 1 ≤ k → k ≤ n →
                (getNextIDs idCounter n).1[k - 1]? = some ((k : Int) - 1))
            ∧ (getNextIDs idCounter n).1.Pairwise (fun a b => a < b)
            ∧ (∀ id : Int, id ∈ (getNextIDs idCounter n).1 ↔ 0 ≤ id ∧ id < n))
      ∧ (n < 2 ^ 63 → (getNextIDs idCounter n).2.nextID = n)
      ∧ (n ≤ 2 ^ 64 → (getNextIDs idCounter n).1.Nodup) := by
  have h0 : (-2 ^ 63 : Int) ≤ idCounter.nextID ∧ idCounter.nextID < 2 ^ 63 := by decide
  have hz : ∀ j : Nat, wrapInt64 (idCounter.nextID + (j : Int)) = wrapInt64 (j : Int) := by
    intro j
    simp [idCounter]
  have h : (getNextIDs idCounter n).1
      = (List.range n).map (fun (j : Nat) => wrapInt64 (j : Int)) := by
    rw [getNextIDs_eq idCounter n h0.1 h0.2]
    simp only [hz]
  refine ⟨h, ?_, ?_, ?_, ?_, ?_, ?_⟩
  · intro k
    rw [getNextIDs_eq idCounter k h0.1 h0.2]
    simp only [ids.getNextID, hz]
  · rw [h]
    simp
  · intro id hid
    rw [h] at hid
    obtain ⟨j, _, rfl⟩ := List.mem_map.1 hid
    exact wrapInt64_range _
  · intro hn
    have h' : (getNextIDs idCounter n).1 = (List.range n).map (fun (j : Nat) => (j : Int)) := by
      rw [h]
      apply List.map_congr_left
      intro j hj
      exact wrapInt64_natCast_of_lt j (by have := List.mem_range.1 hj; omega)
    have hpw : ((List.range n).map (fun (j : Nat) => (j : Int))).Pairwise
        (fun a b => a < b) := by
      rw [List.pairwise_map]
      exact (List.pairwise_lt_range n).imp (fun hab => by exact_mod_cast hab)
    refine ⟨h', ?_, ?_, ?_⟩
    · intro k hk1 hkn
      rw [h', List.getElem?_map, List.getElem?_range (by omega)]
      simp only [Option.map_some']
      congr 1
      omega
    · rw [h']
      exact hpw
    · intro id
      rw [h']
      simp only [List.mem_map, List.mem_range]
      constructor
      · rintro ⟨j, hj, rfl⟩
        omega
      · rintro ⟨h0, hn⟩
        exact ⟨id.toNat, by omega, by omega⟩
  · intro hn
    rw [getNextIDs_eq idCounter n h0.1 h0.2]
    simp only [hz]
    exact wrapInt64_natCast_of_lt n hn
  · intro hn
    rw [h]
    have hpw : ((List.range n).map (fun (j : Nat) => wrapInt64 (j : Int))).Pairwise
        (fun a b => a ≠ b) := by
      rw [List.pairwise_map]
      refine (List.pairwise_lt_range n).imp_of_mem ?_
      intro a b ha hb hab
      have hb' := List.mem_range.1 hb
      have := wrapInt64_add_ne 0 a b hab (by omega)
      simpa using this
    exact hpw

theorem GetNextID_sequential_witness :
    (getNextIDs idCounter 1000).1 = (List.range 1000).map (fun (j : Nat) => (j : Int))
      ∧ (getNextIDs idCounter 1000).1[999]? = some 999
      ∧ (getNextIDs idCounter 1000).2.nextID = 1000
      ∧ (getNextIDs idCounter 1000).1.Nodup :=
  ⟨((GetNextID_sequential 1000).2.2.2.2.1 (by decide)).1,
   ((GetNextID_sequential 1000).2.2.2.2.1 (by decide)).2.1 1000 (by decide) (by decide),
   (GetNextID_sequential 1000).2.2.2.2.2.1 (by decide),
   (GetNextID_sequential 1000).2.2.2.2.2.2 (by decide)⟩

/-- From a counter at the largest `int`, two calls return `2^63 - 1` and then
`-2^63`, and leave the counter at `-2^63 + 1`. -/
theorem getNextIDs_at_MaxInt64 :
    getNextIDs { nextID := 9223372036854775807 } 2
      = ([9223372036854775807, -9223372036854775808], { nextID := -9223372036854775807 }) := by
  decide

/-- The test `TestGetNextID`: 100 sequential calls return 0, 1, ..., 99. -/
theorem test_GetNextID :
    (getNextIDs idCounter 100).1 = (List.range 100).map (fun (j : Nat) => (j : Int)) := by
  decide

/-! ## The UDP server handlers: properties -/

/-- C17: on every server state without a UDP server (`udpServer` is nil),
`GetUDPServerState` replies with status 200 and the body
`{shouldStop: false, isAlive: false}`, whatever the transport layer reports; the
state is unchanged and the only events are taking and releasing the registry
lock. -/
theorem GetUDPServerState_no_server (serverState : Nat → ServerState) (s : Server)
    (hnil : s.udpServer = none) :
    (GetUDPServerState serverState s).reply = .ServerStateResponse false false
      ∧ (GetUDPServerState serverState s).reply.status = 200
      ∧ (GetUDPServerState serverState s).state = s
      ∧ (GetUDPServerState serverState s).trace = [.muLock, .muUnlock] := by
  unfold GetUDPServerState
  rw [hnil]
  exact ⟨rfl, rfl, rfl, rfl⟩

theorem GetUDPServerState_no_server_witness :
    (GetUDPServerState (fun _ => ⟨true, true⟩) (NewServer 8080 9090)).reply
        = .ServerStateResponse false false
      ∧ (GetUDPServerState (fun _ => ⟨true, true⟩) (NewServer 8080 9090)).reply.status = 200
      ∧ (GetUDPServerState (fun _ => ⟨true, true⟩) (NewServer 8080 9090)).state
          = NewServer 8080 9090
      ∧ (GetUDPServerState (fun _ => ⟨true, true⟩) (NewServer 8080 9090)).trace
          = [.muLock, .muUnlock] :=
  GetUDPServerState_no_server (fun _ => ⟨true, true⟩) (NewServer 8080 9090) rfl

/-- C18, as stated, fails: on a state whose server 1 is running (started, never
stopped), `StartUDPServer` with a newly created server 2 replies 200 "UDP
server started", replaces the handle 1 by 2 and never calls `Stop` on server 1;
after the two starts both servers have been set running and none stopped. -/
theorem StartUDPServer_replaces_running_counterexample :
    runningServer.udpServer = some 1
      ∧ (StartUDPServer runningServer (some 2)).reply = .ApiSuccess "UDP server started"
      ∧ (StartUDPServer runningServer (some 2)).state.udpServer = some 2
      ∧ Event.serverStop 1 ∉ (StartUDPServer runningServer (some 2)).trace
      ∧ serversLeftRunning ((StartUDPServer (NewServer 8080 9090) (some 1)).trace
          ++ (StartUDPServer runningServer (some 2)).trace) = [1, 2] := by
  decide

/-- C18 (amended): `StartUDPServer` does not look at the existing handle. When
the transport layer creates no server it replies 500 and leaves the state, so
any existing handle, as it was. When a server `h` is created it replies 200
"UDP server started", installs `h` as the handle whatever handle was there
before, registers the packet callback on `h` and sets `h` running; it stops
no server, and the rest of the state is unchanged. -/
theorem StartUDPServer_installs (s : Server) (created : Option Nat) :
    (created = none →
        (StartUDPServer s created).reply
            = .ApiError 500 "Failed to create server (DTLS config error)" none
          ∧ (StartUDPServer s created).state = s
          ∧ (StartUDPServer s created).trace = [.muLock, .muUnlock])
      ∧ (∀ h, created = some h →
          (StartUDPServer s created).reply = .ApiSuccess "UDP server started"
            ∧ (StartUDPServer s created).reply.status = 200
            ∧ (StartUDPServer s created).state = { s with udpServer := some h }
            ∧ (StartUDPServer s created).trace
                = [.muLock, .serverOnPacket h, .goServerRun h, .muUnlock]
            ∧ (∀ g, Event.serverStop g ∉ (StartUDPServer s created).trace)
            ∧ serversLeftRunning (StartUDPServer s created).trace = [h]) := by
  refine ⟨?_, ?_⟩
  · intro hc
    subst hc
    exact ⟨rfl, rfl, rfl⟩
  · intro h hc
    subst hc
    refine ⟨rfl, rfl, rfl, rfl, ?_, ?_⟩
    · intro g
      simp [StartUDPServer, NewUDPServerService, UDPServerService.Start,
        UDPServerService.GetServer]
    · simp [StartUDPServer, NewUDPServerService, UDPServerService.Start,
        UDPServerService.GetServer, serversLeftRunning]

theorem StartUDPServer_installs_witness :
    (StartUDPServer runningServer (some 2)).state = { runningServer with udpServer := some 2 }
      ∧ (StartUDPServer runningServer none).state = runningServer :=
  ⟨((StartUDPServer_installs runningServer (some 2)).2 2 rfl).2.2.1,
   ((StartUDPServer_installs runningServer none).1 rfl).2.1⟩

/-- C19, as stated, fails: on the state whose server 1 has been started,
`StopUDPServer` replies 200 "UDP server stopped", but the handle is still
present afterwards; a following `GetUDPServerState` reports what server 1
reports (here `{shouldStop: true, isAlive: false}`), and a second
`StopUDPServer` replies 200 again instead of 400. -/
theorem StopUDPServer_clears_handle_counterexample :
    (StopUDPServer runningServer).reply = .ApiSuccess "UDP server stopped"
      ∧ (StopUDPServer runningServer).state.udpServer = some 1
      ∧ (GetUDPServerState (fun _ => ⟨true, false⟩) (StopUDPServer runningServer).state).reply
          = .ServerStateResponse true false
      ∧ (StopUDPServer (StopUDPServer runningServer).state).reply
          = .ApiSuccess "UDP server stopped"
      ∧ (StopUDPServer (StopUDPServer runningServer).state).reply.status = 200 := by
  decide

/-- C19 (amended): on every state with a server handle `h`, `StopUDPServer`
calls `Stop` on `h` and replies 200 "UDP server stopped" without changing the
state: the handle stays `h`. A following `GetUDPServerState` therefore reports
the `ServerState` of `h`, and a second `StopUDPServer` calls `Stop` on `h`
again and replies 200 again. Only a state without a handle gets 400 "UDP server
is not running". -/
theorem StopUDPServer_keeps_handle (serverState : Nat → ServerState) (s : Server) (h : Nat)
    (hsrv : s.udpServer = some h) :
    (StopUDPServer s).reply = .ApiSuccess "UDP server stopped"
      ∧ (StopUDPServer s).reply.status = 200
      ∧ (StopUDPServer s).trace = [.muLock, .muUnlock, .serverStop h]
      ∧ (StopUDPServer s).state = s
      ∧ (StopUDPServer s).state.udpServer = some h
      ∧ (GetUDPServerState serverState (StopUDPServer s).state).reply
          = .ServerStateResponse (serverState h).ShouldStop (serverState h).IsAlive
      ∧ (StopUDPServer (StopUDPServer s).state).reply = .ApiSuccess "UDP server stopped"
      ∧ (StopUDPServer (StopUDPServer s).state).trace = [.muLock, .muUnlock, .serverStop h]
      ∧ (∀ t : Server, t.udpServer = none →
          (StopUDPServer t).reply = .ApiError 400 "UDP server is not running" none
            ∧ (StopUDPServer t).state = t) := by
  have hout : StopUDPServer s
      = ⟨s, .ApiSuccess "UDP server stopped", [.muLock, .muUnlock, .serverStop h]⟩ := by
    unfold StopUDPServer
    rw [hsrv]
  rw [hout]
  refine ⟨rfl, rfl, rfl, rfl, hsrv, ?_, ?_, ?_, ?_⟩
  · unfold GetUDPServerState
    simp only [hsrv]
  · rw [hout]
  · rw [hout]
  · intro t ht
    unfold StopUDPServer
    rw [ht]
    exact ⟨rfl, rfl⟩

theorem StopUDPServer_keeps_handle_witness :
    (StopUDPServer runningServer).state = runningServer
      ∧ (StopUDPServer (StopUDPServer runningServer).state).reply
          = .ApiSuccess "UDP server stopped" :=
  ⟨(StopUDPServer_keeps_handle (fun _ => ⟨true, false⟩) runningServer 1 (by decide)).2.2.2.1,
   (StopUDPServer_keeps_handle (fun _ => ⟨true, false⟩) runningServer 1
      (by decide)).2.2.2.2.2.2.1⟩

/-! ## `GetTraces`: properties -/

/-- C20: if the name is not a registry key, `GetTraces` replies 404 and the
renderer is not called. Otherwise the renderer is called exactly once, with the
trace-log events whose `ClientID` is the id of the record under that name: a
subsequence of the log in its original order, in which every event of that
client occurs as often as in the log and no other event occurs; the reply
carries the rendered diagram. In both cases the state (registry and trace log)
is unchanged. -/
theorem GetTraces_filters (render : List TraceEvent → String) (s : Server)
    (nameParam : Option String) :
    (mapLookup s.udpClients (queryGet nameParam) = none →
        (GetTraces render s nameParam).reply = .ApiError 404 "UDP client not found" none
          ∧ (GetTraces render s nameParam).reply.status = 404
          ∧ renderedTraces (GetTraces render s nameParam).trace = [])
      ∧ (∀ uc, mapLookup s.udpClients (queryGet nameParam) = some uc →
          renderedTraces (GetTraces render s nameParam).trace
              = [s.traces.filter (fun t => decide (t.ClientID = uc.ID))]
            ∧ (s.traces.filter (fun t => decide (t.ClientID = uc.ID))).Sublist s.traces
            ∧ (∀ t, t ∈ s.traces.filter (fun t => decide (t.ClientID = uc.ID))
                ↔ t ∈ s.traces ∧ t.ClientID = uc.ID)
            ∧ (∀ t, t.ClientID = uc.ID →
                (s.traces.filter (fun t => decide (t.ClientID = uc.ID))).count t
                  = s.traces.count t)
            ∧ (GetTraces render s nameParam).reply
                = .MermaidResponse ("Diagram for user: " ++ queryGet nameParam)
                    (render (s.traces.filter (fun t => decide (t.ClientID = uc.ID))))
            ∧ (GetTraces render s nameParam).reply.status = 200)
      ∧ (GetTraces render s nameParam).state = s
      ∧ (GetTraces render s nameParam).state.udpClients = s.udpClients
      ∧ (GetTraces render s nameParam).state.traces = s.traces := by
  have hstate : (GetTraces render s nameParam).state = s := by
    unfold GetTraces
    cases hl : mapLookup s.udpClients (queryGet nameParam) <;> simp only [hl]
  refine ⟨?_, ?_, hstate, by rw [hstate], by rw [hstate]⟩
  · intro hnone
    have hout : GetTraces render s nameParam
        = ⟨s, .ApiError 404 "UDP client not found" none, [.muLock, .muUnlock]⟩ := by
      unfold GetTraces
      simp only [hnone]
    rw [hout]
    exact ⟨rfl, rfl, by simp [renderedTraces]⟩
  · intro uc hsome
    refine ⟨?_, List.filter_sublist _, ?_, ?_, ?_, ?_⟩
    · unfold GetTraces
      simp [hsome, renderedTraces]
    · intro t
      simp [List.mem_filter]
    · intro t ht
      rw [List.count_filter]
      simp [ht]
    · unfold GetTraces
      simp only [hsome]
    · unfold GetTraces
      simp only [hsome]
      rfl

theorem GetTraces_filters_witness :
    renderedTraces (GetTraces (fun _ => "sequenceDiagram") tracedServer (some "alice")).trace
        = [[⟨1, "s", "a", 0, 10, 7⟩, ⟨3, "s", "a", 1, 12, 7⟩]]
      ∧ (GetTraces (fun _ => "sequenceDiagram") tracedServer (some "missing")).reply.status = 404 :=
  ⟨((GetTraces_filters (fun _ => "sequenceDiagram") tracedServer (some "alice")).2.1
      exampleClient (by decide)).1,
   ((GetTraces_filters (fun _ => "sequenceDiagram") tracedServer (some "missing")).1
      (by decide)).2.1⟩

/-! ## `genUDPClient`: properties -/

theorem mapStore_length_of_mapLookup_none {κ ν : Type} [DecidableEq κ] (m : List (κ × ν)) (k : κ)
    (v : ν) (h : mapLookup m k = none) : (mapStore m k v).length = m.length + 1 := by
  induction m with
  | nil => rfl
  | cons e rest ih =>
    obtain ⟨k0, v0⟩ := e
    by_cases h0 : k0 = k
    · simp [mapLookup, h0] at h
    · simp only [mapLookup, h0, if_false] at h
      simp [mapStore, h0, ih h]

theorem genUDPClient_free (counter : ids) (s : Server) (name : String) (client : Nat) :
    genUDPClient counter s false name client
      = .returns ⟨name, { nextID := wrapInt64 (counter.nextID + 1) },
          registerClient s name counter.nextID client,
          [.muLock, .goClientCommands counter.nextID client, .muUnlock]⟩ := by
  rfl

/-- C16: a run of `genUDPClient` that gets the registry lock returns the
generated name `n` without any check against the existing keys and without an
error: afterwards the entry under `n` is
`{ID: the freshly allocated id, Name: n, Running: false, Datagrams: empty}` and
the command-channel map has an entry for the fresh id; every other name maps to
what it mapped to. If `n` was already a key, the lookup by name now yields the
new record (with the fresh id and an empty log) instead of the prior one, and
the keys and the number of entries are unchanged; if it was not, there is one
entry more. -/
theorem genUDPClient_overwrites (counter : ids) (s : Server) (n : String) (client : Nat) :
    ∃ r, genUDPClient counter s false n client = .returns r
      ∧ r.name = n
      ∧ r.counter = (counter.getNextID).2
      ∧ mapLookup r.state.udpClients n
          = some { ID := (counter.getNextID).1, Client := client, Name := n, Datagrams := [],
                   Running := false }
      ∧ mapLookup r.state.clientCommandChs (counter.getNextID).1 = some client
      ∧ (∀ other, other ≠ n →
          mapLookup r.state.udpClients other = mapLookup s.udpClients other)
      ∧ (∀ old, mapLookup s.udpClients n = some old →
          r.state.udpClients.map Prod.fst = s.udpClients.map Prod.fst
            ∧ r.state.udpClients.length = s.udpClients.length
            ∧ (old.ID ≠ (counter.getNextID).1 → mapLookup r.state.udpClients n ≠ some old)
            ∧ (n ≠ "" → (GetUDPClientStateByName r.state (some n)).reply
                = .UDPClientStateResponse (counter.getNextID).1 false []))
      ∧ (mapLookup s.udpClients n = none →
          r.state.udpClients.length = s.udpClients.length + 1)
      ∧ broadcasts r.trace = []
      ∧ transportCalls r.trace = [] := by
  refine ⟨_, genUDPClient_free counter s n client, rfl, rfl, ?_, ?_, ?_, ?_, ?_, ?_, ?_⟩
  · exact mapLookup_mapStore_self _ _ _
  · exact mapLookup_mapStore_self _ _ _
  · intro other hne
    exact mapLookup_mapStore_of_ne _ _ _ _ hne
  · intro old hold
    have hkeys := mapStore_keys_of_mapLookup s.udpClients n
      { ID := counter.nextID, Client := client, Name := n, Datagrams := [], Running := false }
      old hold
    refine ⟨hkeys, ?_, ?_, ?_⟩
    · have := congrArg List.length hkeys
      simpa using this
    · intro hid heq
      have hnew : mapLookup (registerClient s n counter.nextID client).udpClients n
          = some { ID := counter.nextID, Client := client, Name := n, Datagrams := [],
                   Running := false } := mapLookup_mapStore_self _ _ _
      rw [hnew] at heq
      apply hid
      have := Option.some.inj heq
      simp [ids.getNextID, ← this]
    · intro hn
      have hnew : mapLookup (registerClient s n counter.nextID client).udpClients n
          = some { ID := counter.nextID, Client := client, Name := n, Datagrams := [],
                   Running := false } := mapLookup_mapStore_self _ _ _
      simp [GetUDPClientStateByName, queryGet, hn, hnew, ids.getNextID]
  · intro hnone
    exact mapStore_length_of_mapLookup_none _ _ _ hnone
  · simp [broadcasts]
  · simp [transportCalls]

/-! ## Several starts -/

theorem allocateIds_cons (counter : ids) (name : String) (client : Nat)
    (rest : List (String × Nat)) :
    allocateIds counter ((name, client) :: rest)
      = (name, counter.nextID, client)
          :: allocateIds { nextID := wrapInt64 (counter.nextID + 1) } rest := by
  simp [allocateIds, getNextIDs, ids.getNextID]

theorem allocateIds_names (counter : ids) (starts : List (String × Nat)) :
    (allocateIds counter starts).map (fun e => e.1) = starts.map Prod.fst := by
  induction starts generalizing counter with
  | nil => rfl
  | cons e rest ih =>
    obtain ⟨name, client⟩ := e
    rw [allocateIds_cons]
    simp [ih]

theorem allocateIds_ids (counter : ids) (starts : List (String × Nat)) :
    (allocateIds counter starts).map (fun e => e.2.1) = (getNextIDs counter starts.length).1 := by
  induction starts generalizing counter with
  | nil => rfl
  | cons e rest ih =>
    obtain ⟨name, client⟩ := e
    rw [allocateIds_cons]
    simp [ih, getNextIDs, ids.getNextID]

theorem getNextIDs_nodup (counter : ids) (n : Nat)
    (h1 : -2 ^ 63 ≤ counter.nextID) (h2 : counter.nextID < 2 ^ 63) (hn : n ≤ 2 ^ 64) :
    (getNextIDs counter n).1.Nodup := by
  rw [getNextIDs_eq counter n h1 h2]
  have hpw : ((List.range n).map (fun (j : Nat) => wrapInt64 (counter.nextID + (j : Int)))).Pairwise
      (fun a b => a ≠ b) := by
    rw [List.pairwise_map]
    refine (List.pairwise_lt_range n).imp_of_mem ?_
    intro a b _ hb hab
    have hb' := List.mem_range.1 hb
    exact wrapInt64_add_ne counter.nextID a b hab (by omega)
  exact hpw

theorem genUDPClients_eq (counter : ids) (s : Server) (starts : List (String × Nat))
    (h1 : -2 ^ 63 ≤ counter.nextID) (h2 : counter.nextID < 2 ^ 63) :
    genUDPClients counter s starts
      = ((allocateIds counter starts).map (fun e => (e.1, e.2.1)),
          { nextID := wrapInt64 (counter.nextID + (starts.length : Int)) },
          registerAll s (allocateIds counter starts)) := by
  induction starts generalizing counter s with
  | nil =>
    obtain ⟨c⟩ := counter
    have hc : wrapInt64 c = c := by
      simp only at h1 h2
      unfold wrapInt64
      omega
    simp [genUDPClients, allocateIds, registerAll, getNextIDs, hc]
  | cons e rest ih =>
    obtain ⟨name, client⟩ := e
    have hr := wrapInt64_range (counter.nextID + 1)
    have hstep : wrapInt64 (wrapInt64 (counter.nextID + 1) + (rest.length : Int))
        = wrapInt64 (counter.nextID + ((rest.length + 1 : Nat) : Int)) := by
      rw [wrapInt64_wrapInt64_add]
      congr 1
      push_cast
      ring
    rw [allocateIds_cons]
    simp only [genUDPClients, genUDPClient_free, ih ⟨wrapInt64 (counter.nextID + 1)⟩ _ hr.1 hr.2,
      List.map_cons, registerAll, List.length_cons, hstep]

theorem registerAll_append (s : Server) (a b : List (String × Int × Nat)) :
    registerAll s (a ++ b) = registerAll (registerAll s a) b := by
  induction a generalizing s with
  | nil => rfl
  | cons e rest ih =>
    obtain ⟨name, id, client⟩ := e
    show registerAll (registerClient s name id client) (rest ++ b)
      = registerAll (registerAll (registerClient s name id client) rest) b
    exact ih _

theorem registerAll_lookup_of_not_mem (s : Server) (regs : List (String × Int × Nat)) (n : String)
    (h : ∀ e ∈ regs, e.1 ≠ n) :
    mapLookup (registerAll s regs).udpClients n = mapLookup s.udpClients n := by
  induction regs generalizing s with
  | nil => rfl
  | cons e rest ih =>
    obtain ⟨name, id, client⟩ := e
    have hne : n ≠ name := fun hc => h (name, id, client) (List.mem_cons_self _ _) hc.symm
    rw [registerAll, ih _ (fun e he => h e (List.mem_cons_of_mem _ he))]
    exact mapLookup_mapStore_of_ne _ _ _ _ hne

theorem registerAll_lookup_of_mem (s : Server) (regs : List (String × Int × Nat))
    (hnd : (regs.map (fun e => e.1)).Nodup) (n : String) (id : Int) (client : Nat)
    (hmem : (n, id, client) ∈ regs) :
    mapLookup (registerAll s regs).udpClients n
      = some { ID := id, Client := client, Name := n, Datagrams := [], Running := false } := by
  induction regs generalizing s with
  | nil => simp at hmem
  | cons e rest ih =>
    obtain ⟨name0, id0, client0⟩ := e
    simp only [List.map_cons, List.nodup_cons, List.mem_map, not_exists, not_and] at hnd
    rw [registerAll]
    rcases List.mem_cons.1 hmem with heq | htail
    · obtain ⟨rfl, rfl, rfl⟩ := Prod.mk.injEq .. ▸ (by simpa using heq : n = name0 ∧ id = id0 ∧ client = client0)
      rw [registerAll_lookup_of_not_mem _ _ _ (fun e he hc => hnd.1 e he hc)]
      exact mapLookup_mapStore_self _ _ _
    · exact ih _ hnd.2 htail

/-- C15, as stated, fails. First, the name generator may return the same name
twice: the two starts get the ids 0 and 1, and the name resolves to the record
with id 1 only, not to the id 0 of the first start. Second, on the code as it
is a single `StartUDPClient` on an idle server never returns: it calls
`genUDPClient` while holding the registry lock that `genUDPClient` takes. -/
theorem startClients_resolvable_counterexample :
    (genUDPClients idCounter (NewServer 8080 9090) [("Anna", 5), ("Anna", 6)]).1
        = [("Anna", 0), ("Anna", 1)]
      ∧ (GetUDPClientStateByName
          (genUDPClients idCounter (NewServer 8080 9090) [("Anna", 5), ("Anna", 6)]).2.2
          (some "Anna")).reply = .UDPClientStateResponse 1 false []
      ∧ StartUDPClient idCounter (NewServer 8080 9090) "Anna" 5 = .blocks := by
  decide

/-- C15 (amended): let `N` starts call `GetNextID` in the order `starts`, from
a counter holding a Go `int`, and let their registrations (the critical
sections of `genUDPClient`) run in any order `regs`. The `N` ids are the next
`N` values of the counter (wrapping around as a 64-bit `int`) and, for
`N ≤ 2^64`, pairwise distinct. If the generated names are non-empty and
pairwise distinct, every start is resolvable by its own name afterwards:
`GetUDPClientStateByName` on the name yields the record with the id of that
same start (not running, empty log). If a name is generated more than once, the
registration that runs last under it replaces the earlier entries: the name
resolves to the id of that last start. Running `genUDPClient` for the starts
one after another is the case in which both orders agree. -/
theorem startClients_distinct_resolvable (counter : ids) (s : Server)
    (starts : List (String × Nat)) (regs : List (String × Int × Nat))
    (hcounter : -2 ^ 63 ≤ counter.nextID ∧ counter.nextID < 2 ^ 63)
    (horder : regs.Perm (allocateIds counter starts)) :
    (allocateIds counter starts).length = starts.length
      ∧ (allocateIds counter starts).map (fun e => e.1) = starts.map Prod.fst
      ∧ (allocateIds counter starts).map (fun e => e.2.1)
          = (List.range starts.length).map
              (fun (j : Nat) => wrapInt64 (counter.nextID + (j : Int)))
      ∧ (∀ e ∈ allocateIds counter starts, -2 ^ 63 ≤ e.2.1 ∧ e.2.1 < 2 ^ 63)
      ∧ (starts.length ≤ 2 ^ 64 → ((allocateIds counter starts).map (fun e => e.2.1)).Nodup)
      ∧ ((starts.map Prod.fst).Nodup → (∀ e ∈ starts, e.1 ≠ "") →
          ∀ e ∈ allocateIds counter starts,
            (GetUDPClientStateByName (registerAll s regs) (some e.1)).reply
              = .UDPClientStateResponse e.2.1 false [])
      ∧ (∀ before after n id client, regs = before ++ (n, id, client) :: after →
          (∀ e ∈ after, e.1 ≠ n) → n ≠ "" →
          (GetUDPClientStateByName (registerAll s regs) (some n)).reply
            = .UDPClientStateResponse id false [])
      ∧ (genUDPClients counter s starts).1
          = (allocateIds counter starts).map (fun e => (e.1, e.2.1))
      ∧ (genUDPClients counter s starts).2.2 = registerAll s (allocateIds counter starts) := by
  have hn := allocateIds_names counter starts
  have hi := allocateIds_ids counter starts
  have hids : (allocateIds counter starts).map (fun e => e.2.1)
      = (List.range starts.length).map
          (fun (j : Nat) => wrapInt64 (counter.nextID + (j : Int))) := by
    rw [hi, getNextIDs_eq counter _ hcounter.1 hcounter.2]
  refine ⟨?_, hn, hids, ?_, ?_, ?_, ?_, ?_, ?_⟩
  · have := congrArg List.length hn
    simpa using this
  · intro e he
    have hmem : e.2.1 ∈ (allocateIds counter starts).map (fun e => e.2.1) :=
      List.mem_map.2 ⟨e, he, rfl⟩
    rw [hids] at hmem
    obtain ⟨j, _, hj⟩ := List.mem_map.1 hmem
    rw [← hj]
    exact wrapInt64_range _
  · intro hN
    rw [hi]
    exact getNextIDs_nodup counter starts.length hcounter.1 hcounter.2 hN
  · intro hnames hne e he
    obtain ⟨n, id, client⟩ := e
    have hregs : (regs.map (fun e => e.1)).Nodup := by
      have hp : (regs.map (fun e => e.1)).Perm ((allocateIds counter starts).map (fun e => e.1)) :=
        horder.map _
      rw [hp.nodup_iff, hn]
      exact hnames
    have hmem : (n, id, client) ∈ regs := horder.mem_iff.2 he
    have hlook := registerAll_lookup_of_mem s regs hregs n id client hmem
    have hnn : n ≠ "" := by
      have : n ∈ (allocateIds counter starts).map (fun e => e.1) :=
        List.mem_map.2 ⟨(n, id, client), he, rfl⟩
      rw [hn] at this
      obtain ⟨e', he', hfst⟩ := List.mem_map.1 this
      rw [← hfst]
      exact hne e' he'
    simp [GetUDPClientStateByName, queryGet, hnn, hlook]
  · intro before after n id client hregs hafter hnn
    have hlook : mapLookup (registerAll s regs).udpClients n
        = some { ID := id, Client := client, Name := n, Datagrams := [], Running := false } := by
      rw [hregs, registerAll_append, registerAll,
        registerAll_lookup_of_not_mem _ _ _ hafter]
      exact mapLookup_mapStore_self _ _ _
    simp [GetUDPClientStateByName, queryGet, hnn, hlook]
  · rw [genUDPClients_eq counter s starts hcounter.1 hcounter.2]
  · rw [genUDPClients_eq counter s starts hcounter.1 hcounter.2]

theorem startClients_distinct_resolvable_witness :
    (allocateIds idCounter [("Anna", 5), ("Bob", 6), ("Cleo", 7)]).map (fun e => e.2.1)
        = [0, 1, 2]
      ∧ ((allocateIds idCounter [("Anna", 5), ("Bob", 6), ("Cleo", 7)]).map
          (fun e => e.2.1)).Nodup
      ∧ (GetUDPClientStateByName
          (registerAll (NewServer 8080 9090) [("Cleo", 2, 7), ("Anna", 0, 5), ("Bob", 1, 6)])
          (some "Anna")).reply = .UDPClientStateResponse 0 false []
      ∧ (GetUDPClientStateByName
          (registerAll (NewServer 8080 9090) [("Anna", 0, 5), ("Anna", 1, 6)])
          (some "Anna")).reply = .UDPClientStateResponse 1 false [] :=
  have h := startClients_distinct_resolvable idCounter (NewServer 8080 9090)
    [("Anna", 5), ("Bob", 6), ("Cleo", 7)] [("Cleo", 2, 7), ("Anna", 0, 5), ("Bob", 1, 6)]
    (by decide) (by decide)
  have h2 := startClients_distinct_resolvable idCounter (NewServer 8080 9090)
    [("Anna", 5), ("Anna", 6)] [("Anna", 0, 5), ("Anna", 1, 6)] (by decide) (by decide)
  ⟨by rw [h.2.2.1]; decide, h.2.2.2.2.1 (by decide),
   h.2.2.2.2.2.1 (by decide) (by decide) ("Anna", 0, 5) (by decide),
   h2.2.2.2.2.2.2.1 [("Anna", 0, 5)] [] "Anna" 1 6 rfl (by decide) (by decide)⟩

/-! ## Facts about `int` arithmetic and parameter parsing -/

theorem wrapInt64_of_range (x : Int) (h1 : -2 ^ 63 ≤ x) (h2 : x < 2 ^ 63) : wrapInt64 x = x := by
  unfold wrapInt64
  omega

theorem Atoi_range (str : String) (v : Int) (h : Atoi str = some v) :
    -2 ^ 63 ≤ v ∧ v ≤ 2 ^ 63 - 1 := by
  unfold Atoi at h
  simp only at h
  split_ifs at h <;> (simp only [Option.some.injEq] at h; subst h; assumption)

theorem parsePositive_some (str : String) (d v : Int) (hd1 : 1 ≤ d) (hd2 : d < 2 ^ 63)
    (h : parsePositive str d = some v) : 1 ≤ v ∧ v < 2 ^ 63 := by
  unfold parsePositive at h
  split_ifs at h with h1
  · cases ha : Atoi str with
    | none => simp [ha] at h
    | some w =>
      simp only [ha] at h
      split_ifs at h with h2
      have := Option.some.inj h
      have hr := Atoi_range str w ha
      omega
  · have := Option.some.inj h
    omega

theorem parsePositive_eq_none_iff (str : String) (d : Int) :
    parsePositive str d = none ↔ str ≠ "" ∧ ∀ v, Atoi str = some v → v < 1 := by
  unfold parsePositive
  by_cases h1 : str = ""
  · simp [h1]
  · cases ha : Atoi str with
    | none => simp [h1]
    | some w =>
      by_cases h2 : w < 1
      · simp [h1, h2]
      · simp [h1, h2]

theorem le_ceilDiv_iff (N p k : Int) (hp : 1 ≤ p) : k ≤ ceilDiv N p ↔ (k - 1) * p < N := by
  unfold ceilDiv
  rw [Int.le_ediv_iff_mul_le (by omega)]
  have : (k - 1) * p = k * p - p := by ring
  omega

theorem ceilDiv_pos_iff (N p : Int) (hp : 1 ≤ p) : 0 < ceilDiv N p ↔ 0 < N := by
  have h := le_ceilDiv_iff N p 1 hp
  simp only [sub_self, zero_mul] at h
  constructor
  · intro h0
    exact h.1 (by omega)
  · intro h0
    have := h.2 h0
    omega

/-! ## `GetAllUDPClientPaginated`: properties -/

/-- C11: let `N` be the number of registry entries that match the filter
(`N` below `2^53`), let the `pageSize` parameter read as `p` and the `page`
parameter as `k` (each parsed by `strconv.Atoi`, or the default when omitted),
so `p ≥ 1` and `k ≥ 1`, and let `k ≤ ceil(N/p)`. Then
`GetAllUDPClientPaginated` replies 200 with `total = N`, `page = k`,
`pageSize = p` and the items `(k-1)*p .. (k-1)*p + p - 1` of the matching
entries (as many as exist): exactly `min(p, N - (k-1)*p)` items. The state is
unchanged. -/
theorem GetAllUDPClientPaginated_page (ToLower : String → String) (s : Server)
    (pageParam pageSizeParam qParam : Option String) (k p : Int)
    (hk : parsePositive (queryGet pageParam) 1 = some k)
    (hp : parsePositive (queryGet pageSizeParam) 10 = some p)
    (hsize : ((paginatedItems ToLower s.udpClients (queryGet qParam)).length : Int) < 2 ^ 53)
    (hkle : k ≤ ceilDiv (paginatedItems ToLower s.udpClients (queryGet qParam)).length p) :
    ∃ items,
      GetAllUDPClientPaginated ToLower s pageParam pageSizeParam qParam
          = .returns ⟨s, .UDPClientPaginatedRespone items k p
              (paginatedItems ToLower s.udpClients (queryGet qParam)).length,
              [.muLock, .muUnlock]⟩
        ∧ items = ((paginatedItems ToLower s.udpClients (queryGet qParam)).drop
            ((k - 1) * p).toNat).take p.toNat
        ∧ (items.length : Int)
            = min p ((paginatedItems ToLower s.udpClients (queryGet qParam)).length - (k - 1) * p)
        ∧ 1 ≤ k ∧ 1 ≤ p := by
  obtain ⟨hk1, hk2⟩ := parsePositive_some _ 1 k (by decide) (by decide) hk
  obtain ⟨hp1, hp2⟩ := parsePositive_some _ 10 p (by decide) (by decide) hp
  have hst := (le_ceilDiv_iff _ p k hp1).1 hkle
  have hst0 : 0 ≤ (k - 1) * p := mul_nonneg (by omega) (by omega)
  have hcase : k = 1 ∨ p ≤ (k - 1) * p := by
    by_cases h1 : k = 1
    · exact Or.inl h1
    · right
      have h2 : 1 ≤ k - 1 := by omega
      nlinarith
  have hnot : ¬ (k > ceilDiv (paginatedItems ToLower s.udpClients (queryGet qParam)).length p
      ∧ ceilDiv (paginatedItems ToLower s.udpClients (queryGet qParam)).length p > 0) := by
    omega
  have hw1 : wrapInt64 ((k - 1) * p) = (k - 1) * p :=
    wrapInt64_of_range _ (by omega) (by omega)
  have hw2 : wrapInt64 ((k - 1) * p + p) = (k - 1) * p + p := by
    apply wrapInt64_of_range
    · omega
    · rcases hcase with h | h
      · subst h
        omega
      · omega
  refine ⟨_, ?_, rfl, ?_, hk1, hp1⟩
  · unfold GetAllUDPClientPaginated
    simp only [hk, hp, hnot, if_false, hw1, hw2, hst, if_true]
    generalize paginatedItems ToLower s.udpClients (queryGet qParam) = all at *
    generalize (k - 1) * p = st at *
    by_cases hover : st + p > (all.length : Int)
    · have hb : 0 ≤ st ∧ st ≤ (all.length : Int) ∧ (all.length : Int) ≤ all.length := by omega
      simp only [hover, if_true, hb, and_self]
      congr 3
      rw [List.take_of_length_le, List.take_of_length_le]
      · rw [List.length_drop]
        omega
      · rw [List.length_drop]
        omega
    · have hb : 0 ≤ st ∧ st ≤ st + p ∧ st + p ≤ (all.length : Int) := by omega
      simp only [hover, if_false, hb, and_self, if_true]
      congr 4
      omega
  · generalize paginatedItems ToLower s.udpClients (queryGet qParam) = all at *
    generalize (k - 1) * p = st at *
    rw [List.length_take, List.length_drop]
    omega

theorem GetAllUDPClientPaginated_page_witness :
    ∃ items,
      GetAllUDPClientPaginated asciiToLower crowdedServer (some "3") (some "10") none
          = .returns ⟨crowdedServer, .UDPClientPaginatedRespone items 3 10
              (paginatedItems asciiToLower crowdedServer.udpClients (queryGet none)).length,
              [.muLock, .muUnlock]⟩
        ∧ items = ((paginatedItems asciiToLower crowdedServer.udpClients (queryGet none)).drop
            ((3 - 1) * 10 : Int).toNat).take (10 : Int).toNat
        ∧ (items.length : Int)
            = min 10
                ((paginatedItems asciiToLower crowdedServer.udpClients (queryGet none)).length
                  - (3 - 1) * 10)
        ∧ (1 : Int) ≤ 3 ∧ (1 : Int) ≤ 10 :=
  GetAllUDPClientPaginated_page asciiToLower crowdedServer (some "3") (some "10") none 3 10
    (by decide) (by decide) (by decide) (by decide)

/-- With 25 clients and `pageSize=10`: page 1 has 10 items and `total=25`, page 3
has the last 5 items, page 4 is rejected with 400. -/
theorem test_pagination_25 :
    GetAllUDPClientPaginated asciiToLower crowdedServer (some "1") (some "10") none
        = .returns ⟨crowdedServer, .UDPClientPaginatedRespone
            ((List.range 10).map (fun (i : Nat) => ⟨Int.ofNat i, "C" ++ toString i⟩)) 1 10 25,
            [.muLock, .muUnlock]⟩
      ∧ GetAllUDPClientPaginated asciiToLower crowdedServer (some "3") (some "10") none
        = .returns ⟨crowdedServer, .UDPClientPaginatedRespone
            [⟨20, "C20"⟩, ⟨21, "C21"⟩, ⟨22, "C22"⟩, ⟨23, "C23"⟩, ⟨24, "C24"⟩] 3 10 25,
            [.muLock, .muUnlock]⟩
      ∧ GetAllUDPClientPaginated asciiToLower crowdedServer (some "4") (some "10") none
        = .returns ⟨crowdedServer, .ApiError 400 "Page is out of range" none,
            [.muLock, .muUnlock]⟩ := by
  decide

/-- The tests `TestServer_GetAllUDPClientPaginated_DefaultValues`, `_InvalidPage`,
`_InvalidPageSize` and `_NegativePage`, on a new server. -/
theorem test_pagination_parameters :
    GetAllUDPClientPaginated asciiToLower (NewServer 8080 9090) none none none
        = .returns ⟨NewServer 8080 9090, .UDPClientPaginatedRespone [] 1 10 0,
            [.muLock, .muUnlock]⟩
      ∧ GetAllUDPClientPaginated asciiToLower (NewServer 8080 9090) (some "invalid") none none
        = .returns ⟨NewServer 8080 9090, .ApiError 400 "Page must be a positive integer" none,
            [.muLock, .muUnlock]⟩
      ∧ GetAllUDPClientPaginated asciiToLower (NewServer 8080 9090) none (some "invalid") none
        = .returns ⟨NewServer 8080 9090,
            .ApiError 400 "Page size must be a positive integer" none, [.muLock, .muUnlock]⟩
      ∧ GetAllUDPClientPaginated asciiToLower (NewServer 8080 9090) (some "-1") none none
        = .returns ⟨NewServer 8080 9090, .ApiError 400 "Page must be a positive integer" none,
            [.muLock, .muUnlock]⟩ := by
  decide

/-- C12, as stated, fails. A `page` parameter that is present but empty
(`?page=`) is not an integer, yet it is read as the default 1 and the reply is
200; `page=99999999999999999999` is an integer above 0, yet it is rejected with
400 because it does not fit a Go `int`; and on an empty registry (total 0) the
page 922337203685477582 with the default page size does not yield 200: the
product `(page-1)*10` wraps to a negative start index and the slice expression
panics. -/
theorem GetAllUDPClientPaginated_validation_counterexample :
    GetAllUDPClientPaginated asciiToLower (NewServer 8080 9090) (some "") none none
        = .returns ⟨NewServer 8080 9090, .UDPClientPaginatedRespone [] 1 10 0,
            [.muLock, .muUnlock]⟩
      ∧ GetAllUDPClientPaginated asciiToLower (NewServer 8080 9090)
          (some "99999999999999999999") none none
        = .returns ⟨NewServer 8080 9090, .ApiError 400 "Page must be a positive integer" none,
            [.muLock, .muUnlock]⟩
      ∧ Atoi "922337203685477582" = some 922337203685477582
      ∧ wrapInt64 ((922337203685477582 - 1) * 10) = -9223372036854775806
      ∧ GetAllUDPClientPaginated asciiToLower (NewServer 8080 9090)
          (some "922337203685477582") none none
        = .panics "slice bounds out of range" := by
  decide

/-- C12 (amended): `GetAllUDPClientPaginated` replies 400 if and only if the
`page` parameter is non-empty and `strconv.Atoi` does not read it as an integer
of at least 1 (a syntax error, a value outside the 64-bit range, or a value
below 1), or the same holds for `pageSize`, or the filtered total is above 0
and `page > ceil(total/pageSize)`; an omitted or empty `page` is read as 1 and
an omitted or empty `pageSize` as 10; with total 0, every page `k ≥ 1` and page
size `p ≥ 1` whose product `(k-1)*p` is below `2^63` yields 200 with an empty
item list, `page = k`, `pageSize = p` and total 0. -/
theorem GetAllUDPClientPaginated_validation (ToLower : String → String) (s : Server)
    (pageParam pageSizeParam qParam : Option String) :
    ((∃ msg, GetAllUDPClientPaginated ToLower s pageParam pageSizeParam qParam
          = .returns ⟨s, .ApiError 400 msg none, [.muLock, .muUnlock]⟩)
        ↔ (queryGet pageParam ≠ "" ∧ ∀ v, Atoi (queryGet pageParam) = some v → v < 1)
          ∨ (queryGet pageSizeParam ≠ "" ∧ ∀ v, Atoi (queryGet pageSizeParam) = some v → v < 1)
          ∨ ∃ k p, parsePositive (queryGet pageParam) 1 = some k
              ∧ parsePositive (queryGet pageSizeParam) 10 = some p
              ∧ 0 < (paginatedItems ToLower s.udpClients (queryGet qParam)).length
              ∧ k > ceilDiv (paginatedItems ToLower s.udpClients (queryGet qParam)).length p)
      ∧ (∀ out, GetAllUDPClientPaginated ToLower s pageParam pageSizeParam qParam = .returns out →
          (out.reply.status = 200 ∨ out.reply.status = 400) ∧ out.state = s)
      ∧ (queryGet pageParam = "" → parsePositive (queryGet pageParam) 1 = some 1)
      ∧ (queryGet pageSizeParam = "" → parsePositive (queryGet pageSizeParam) 10 = some 10)
      ∧ (∀ k p, parsePositive (queryGet pageParam) 1 = some k →
          parsePositive (queryGet pageSizeParam) 10 = some p →
          (paginatedItems ToLower s.udpClients (queryGet qParam)).length = 0 →
          (k - 1) * p < 2 ^ 63 →
          GetAllUDPClientPaginated ToLower s pageParam pageSizeParam qParam
            = .returns ⟨s, .UDPClientPaginatedRespone [] k p 0, [.muLock, .muUnlock]⟩) := by
  refine ⟨?_, ?_, ?_, ?_, ?_⟩
  · rw [← parsePositive_eq_none_iff _ 1, ← parsePositive_eq_none_iff _ 10]
    unfold GetAllUDPClientPaginated
    cases hk : parsePositive (queryGet pageParam) 1 with
    | none => simp
    | some k =>
      cases hp : parsePositive (queryGet pageSizeParam) 10 with
      | none => simp
      | some p =>
        obtain ⟨hp1, _⟩ := parsePositive_some _ 10 p (by decide) (by decide) hp
        have hpos := ceilDiv_pos_iff (paginatedItems ToLower s.udpClients (queryGet qParam)).length
          p hp1
        simp only []
        constructor
        · rintro ⟨msg, hmsg⟩
          by_cases hc : k > ceilDiv (paginatedItems ToLower s.udpClients (queryGet qParam)).length p
              ∧ ceilDiv (paginatedItems ToLower s.udpClients (queryGet qParam)).length p > 0
          · exact Or.inr (Or.inr ⟨k, p, rfl, rfl, by exact_mod_cast hpos.1 hc.2, hc.1⟩)
          · rw [if_neg hc] at hmsg
            split_ifs at hmsg <;> simp at hmsg
        · rintro (h | h | ⟨k', p', hk', hp', hN, hgt⟩)
          · exact absurd h (by simp)
          · exact absurd h (by simp)
          · have e1 := Option.some.inj hk'
            have e2 := Option.some.inj hp'
            subst e1
            subst e2
            have hc : k > ceilDiv (paginatedItems ToLower s.udpClients (queryGet qParam)).length p
                ∧ ceilDiv (paginatedItems ToLower s.udpClients (queryGet qParam)).length p > 0 :=
              ⟨hgt, hpos.2 (by exact_mod_cast hN)⟩
            rw [if_pos hc]
            exact ⟨_, rfl⟩
  · intro out hout
    unfold GetAllUDPClientPaginated at hout
    cases hk : parsePositive (queryGet pageParam) 1 with
    | none =>
      simp only [hk, Run.returns.injEq] at hout
      subst hout
      exact ⟨Or.inr rfl, rfl⟩
    | some k =>
      cases hp : parsePositive (queryGet pageSizeParam) 10 with
      | none =>
        simp only [hk, hp, Run.returns.injEq] at hout
        subst hout
        exact ⟨Or.inr rfl, rfl⟩
      | some p =>
        simp only [hk, hp] at hout
        split_ifs at hout <;> first
          | (simp only [Run.returns.injEq] at hout; subst hout; exact ⟨Or.inr rfl, rfl⟩)
          | (simp only [Run.returns.injEq] at hout; subst hout; exact ⟨Or.inl rfl, rfl⟩)
  · intro h
    simp [parsePositive, h]
  · intro h
    simp [parsePositive, h]
  · intro k p hk hp hzero hprod
    obtain ⟨hk1, _⟩ := parsePositive_some _ 1 k (by decide) (by decide) hk
    obtain ⟨hp1, _⟩ := parsePositive_some _ 10 p (by decide) (by decide) hp
    have hst0 : 0 ≤ (k - 1) * p := mul_nonneg (by omega) (by omega)
    have hw1 : wrapInt64 ((k - 1) * p) = (k - 1) * p :=
      wrapInt64_of_range _ (by omega) hprod
    have hcd : ceilDiv 0 p = 0 := by
      have := ceilDiv_pos_iff 0 p hp1
      have h2 := le_ceilDiv_iff 0 p 0 hp1
      have h3 : (0 - 1) * p < 0 := by omega
      have := h2.2 h3
      omega
    unfold GetAllUDPClientPaginated
    simp only [hk, hp, hzero, Nat.cast_zero, hcd, gt_iff_lt, lt_self_iff_false, and_false,
      if_false, hw1]
    have hnlt : ¬ (k - 1) * p < 0 := by omega
    simp only [hnlt, if_false]

theorem GetAllUDPClientPaginated_validation_witness :
    (∃ msg, GetAllUDPClientPaginated asciiToLower crowdedServer (some "4") (some "10") none
        = .returns ⟨crowdedServer, .ApiError 400 msg none, [.muLock, .muUnlock]⟩)
      ∧ GetAllUDPClientPaginated asciiToLower (NewServer 8080 9090) (some "7") none none
        = .returns ⟨NewServer 8080 9090, .UDPClientPaginatedRespone [] 7 10 0,
            [.muLock, .muUnlock]⟩ :=
  ⟨(GetAllUDPClientPaginated_validation asciiToLower crowdedServer (some "4") (some "10")
      none).1.2 (Or.inr (Or.inr ⟨4, 10, by decide, by decide, by decide, by decide⟩)),
   (GetAllUDPClientPaginated_validation asciiToLower (NewServer 8080 9090) (some "7") none
      none).2.2.2.2 7 10 (by decide) (by decide) (by decide) (by decide)⟩

theorem filterMap_ite_eq_map_filter {α β : Type} (c : α → Bool) (g : α → β) (l : List α) :
    l.filterMap (fun x => if c x = true then some (g x) else none) = (l.filter c).map g := by
  induction l with
  | nil => rfl
  | cons x rest ih =>
    by_cases hx : c x = true
    · simp [List.filterMap_cons, List.filter_cons, hx, ih]
    · simp [List.filterMap_cons, List.filter_cons, hx, ih]

theorem paginatedItems_eq_filter_map (ToLower : String → String)
    (clients : List (String × UDPClient)) (q : String) :
    paginatedItems ToLower clients q
      = (clients.filter (fun e =>
            decide (q = "" ∨ (ToLower q).data <:+: (ToLower e.1).data))).map
          (fun e => { Id := e.2.ID, Name := e.1 }) := by
  rw [← filterMap_ite_eq_map_filter]
  unfold paginatedItems
  congr 1
  funext e
  by_cases hq : q = ""
  · simp [hq]
  · by_cases hc : (ToLower q).data <:+: (ToLower e.1).data
    · simp [hq, hc, Contains]
    · simp [hq, hc, Contains]

/-- C13: the items `GetAllUDPClientPaginated` paginates over are exactly the
registry entries whose name, lower-cased, contains the lower-cased query `q` as
a contiguous substring (every entry when `q` is empty), in the order the loop
visits them, each reported with the `ID` of its record and its key as name; in
every 200 reply the total is the number of these entries and the items of the
page are a contiguous part of them. -/
theorem GetAllUDPClientPaginated_filter (ToLower : String → String) (s : Server)
    (pageParam pageSizeParam qParam : Option String) :
    paginatedItems ToLower s.udpClients (queryGet qParam)
        = (s.udpClients.filter (fun e =>
              decide (queryGet qParam = ""
                ∨ (ToLower (queryGet qParam)).data <:+: (ToLower e.1).data))).map
            (fun e => { Id := e.2.ID, Name := e.1 })
      ∧ (∀ item : UDPClientListItem,
          item ∈ paginatedItems ToLower s.udpClients (queryGet qParam)
            ↔ ∃ e ∈ s.udpClients,
                (queryGet qParam = ""
                  ∨ (ToLower (queryGet qParam)).data <:+: (ToLower e.1).data)
                ∧ item = { Id := e.2.ID, Name := e.1 })
      ∧ (queryGet qParam = "" →
          paginatedItems ToLower s.udpClients (queryGet qParam)
            = s.udpClients.map (fun e => { Id := e.2.ID, Name := e.1 }))
      ∧ (∀ out items page pageSize total,
          GetAllUDPClientPaginated ToLower s pageParam pageSizeParam qParam = .returns out →
          out.reply = .UDPClientPaginatedRespone items page pageSize total →
          total = ((s.udpClients.filter (fun e =>
              decide (queryGet qParam = ""
                ∨ (ToLower (queryGet qParam)).data <:+: (ToLower e.1).data))).length : Int)
            ∧ items <:+: paginatedItems ToLower s.udpClients (queryGet qParam)) := by
  have heq := paginatedItems_eq_filter_map ToLower s.udpClients (queryGet qParam)
  refine ⟨heq, ?_, ?_, ?_⟩
  · intro item
    rw [heq]
    simp only [List.mem_map, List.mem_filter, decide_eq_true_eq]
    constructor
    · rintro ⟨e, ⟨he, hc⟩, rfl⟩
      exact ⟨e, he, hc, rfl⟩
    · rintro ⟨e, he, hc, rfl⟩
      exact ⟨e, ⟨he, hc⟩, rfl⟩
  · intro hq
    rw [heq]
    simp [hq]
  · intro out items page pageSize total hout hreply
    have hlen : ((paginatedItems ToLower s.udpClients (queryGet qParam)).length : Int)
        = ((s.udpClients.filter (fun e =>
              decide (queryGet qParam = ""
                ∨ (ToLower (queryGet qParam)).data <:+: (ToLower e.1).data))).length : Int) := by
      rw [heq, List.length_map]
    rw [← hlen]
    unfold GetAllUDPClientPaginated at hout
    cases hk : parsePositive (queryGet pageParam) 1 with
    | none =>
      simp only [hk, Run.returns.injEq] at hout
      subst hout
      simp at hreply
    | some k =>
      cases hp : parsePositive (queryGet pageSizeParam) 10 with
      | none =>
        simp only [hk, hp, Run.returns.injEq] at hout
        subst hout
        simp at hreply
      | some p =>
        simp only [hk, hp] at hout
        split_ifs at hout <;> first
          | (simp only [Run.returns.injEq] at hout
             subst hout
             simp at hreply
             done)
          | (simp only [Run.returns.injEq] at hout
             subst hout
             simp only [Response.UDPClientPaginatedRespone.injEq] at hreply
             obtain ⟨h1, _, _, h4⟩ := hreply
             refine ⟨h4.symm, ?_⟩
             rw [← h1]
             first
               | exact List.nil_infix
               | exact (List.take_prefix _ _).isInfix.trans (List.drop_suffix _ _).isInfix)

/-- A case-insensitive search: the query `c2` matches `C2` and `C20` .. `C24`. -/
theorem test_pagination_filter :
    GetAllUDPClientPaginated asciiToLower crowdedServer none none (some "c2")
      = .returns ⟨crowdedServer, .UDPClientPaginatedRespone
          [⟨2, "C2"⟩, ⟨20, "C20"⟩, ⟨21, "C21"⟩, ⟨22, "C22"⟩, ⟨23, "C23"⟩, ⟨24, "C24"⟩] 1 10 6,
          [.muLock, .muUnlock]⟩ := by
  decide

/-! ## `GetUDPClientStateByName` and `GetUDPClientStateById`: properties -/

theorem mapLookup_some_mem {κ ν : Type} [DecidableEq κ] (m : List (κ × ν)) (k : κ) (v : ν)
    (h : mapLookup m k = some v) : (k, v) ∈ m := by
  induction m with
  | nil => simp [mapLookup] at h
  | cons e rest ih =>
    obtain ⟨k0, v0⟩ := e
    by_cases h0 : k0 = k
    · simp only [mapLookup, h0, if_true, Option.some.injEq] at h
      simp [h0, h]
    · simp only [mapLookup, h0, if_false] at h
      exact List.mem_cons_of_mem _ (ih h)

theorem Atoi_empty : Atoi "" = none := by decide

/-- C22: both lookups leave the state unchanged. By name: 400 "Name is
required" for a missing or empty name, 404 when the name is not a key, otherwise
200 with the id, running flag and datagrams of the record stored under the
name. By id: 400 "ID is required" for a missing or empty id, 400 "ID is
invalid" when `strconv.Atoi` does not read the id as an integer, 404 when no
record has that ID, otherwise 200 with the id, running flag and datagrams of a
record whose ID is the requested one. For a record with non-empty name `n`
whose id no other record shares, the lookup by that id returns the same body as
the lookup by `n`. -/
theorem client_lookups_read_only (s : Server) (nameParam idParam : Option String) :
    (GetUDPClientStateByName s nameParam).state = s
      ∧ (GetUDPClientStateById s idParam).state = s
      ∧ (queryGet nameParam = "" →
          (GetUDPClientStateByName s nameParam).reply = .ApiError 400 "Name is required" none)
      ∧ (queryGet nameParam ≠ "" → mapLookup s.udpClients (queryGet nameParam) = none →
          (GetUDPClientStateByName s nameParam).reply
            = .ApiError 404 "UDP client not found" none)
      ∧ (∀ uc, queryGet nameParam ≠ "" → mapLookup s.udpClients (queryGet nameParam) = some uc →
          (GetUDPClientStateByName s nameParam).reply
              = .UDPClientStateResponse uc.ID uc.Running uc.Datagrams
            ∧ (GetUDPClientStateByName s nameParam).reply.status = 200)
      ∧ (queryGet idParam = "" →
          (GetUDPClientStateById s idParam).reply = .ApiError 400 "ID is required" none)
      ∧ (queryGet idParam ≠ "" → Atoi (queryGet idParam) = none →
          (GetUDPClientStateById s idParam).reply = .ApiError 400 "ID is invalid" none)
      ∧ (∀ i, Atoi (queryGet idParam) = some i → (∀ e ∈ s.udpClients, e.2.ID ≠ i) →
          (GetUDPClientStateById s idParam).reply = .ApiError 404 "UDP client not found" none)
      ∧ (∀ i, Atoi (queryGet idParam) = some i → (∃ e ∈ s.udpClients, e.2.ID = i) →
          ∃ e ∈ s.udpClients, e.2.ID = i
            ∧ (GetUDPClientStateById s idParam).reply
                = .UDPClientStateResponse i e.2.Running e.2.Datagrams
            ∧ (GetUDPClientStateById s idParam).reply.status = 200)
      ∧ (∀ n uc, n ≠ "" → mapLookup s.udpClients n = some uc →
          Atoi (queryGet idParam) = some uc.ID →
          (∀ e ∈ s.udpClients, e.2.ID = uc.ID → e.2 = uc) →
          (GetUDPClientStateById s idParam).reply = (GetUDPClientStateByName s (some n)).reply) := by
  have hne_of_atoi : ∀ i, Atoi (queryGet idParam) = some i → queryGet idParam ≠ "" := by
    intro i hi hemp
    rw [hemp, Atoi_empty] at hi
    exact Option.noConfusion hi
  refine ⟨?_, ?_, ?_, ?_, ?_, ?_, ?_, ?_, ?_, ?_⟩
  · unfold GetUDPClientStateByName
    by_cases h : queryGet nameParam = ""
    · simp only [h, if_true]
    · simp only [h, if_false]
      cases hl : mapLookup s.udpClients (queryGet nameParam) <;> simp only [hl]
  · unfold GetUDPClientStateById
    by_cases h : queryGet idParam = ""
    · simp only [h, if_true]
    · simp only [h, if_false]
      cases ha : Atoi (queryGet idParam) with
      | none => simp only [ha]
      | some i =>
        simp only [ha]
        cases hf : findClientById s.udpClients i with
        | none => simp only [hf]
        | some e => simp only [hf]
  · intro h
    simp [GetUDPClientStateByName, h]
  · intro h hl
    simp [GetUDPClientStateByName, h, hl]
  · intro uc h hl
    simp [GetUDPClientStateByName, h, hl, Response.status]
  · intro h
    simp [GetUDPClientStateById, h]
  · intro h ha
    simp [GetUDPClientStateById, h, ha]
  · intro i ha hno
    have hf := (findClientById_eq_none_iff s.udpClients i).2 hno
    simp [GetUDPClientStateById, hne_of_atoi i ha, ha, hf]
  · intro i ha hex
    cases hf : findClientById s.udpClients i with
    | none =>
      obtain ⟨e, he, hid⟩ := hex
      exact absurd hid ((findClientById_eq_none_iff s.udpClients i).1 hf e he)
    | some e =>
      obtain ⟨n, uc⟩ := e
      have hm := findClientById_some_mem s.udpClients i n uc hf
      refine ⟨(n, uc), hm.1, hm.2, ?_, ?_⟩
      · simp [GetUDPClientStateById, hne_of_atoi i ha, ha, hf, hm.2]
      · simp [GetUDPClientStateById, hne_of_atoi i ha, ha, hf, Response.status]
  · intro n uc hn hl ha huniq
    have hmem := mapLookup_some_mem s.udpClients n uc hl
    cases hf : findClientById s.udpClients uc.ID with
    | none =>
      exact absurd rfl ((findClientById_eq_none_iff s.udpClients uc.ID).1 hf (n, uc) hmem)
    | some e =>
      obtain ⟨n', uc'⟩ := e
      have hm := findClientById_some_mem s.udpClients uc.ID n' uc' hf
      have heq : uc' = uc := huniq (n', uc') hm.1 hm.2
      subst heq
      have h1 : (GetUDPClientStateById s idParam).reply
          = .UDPClientStateResponse uc'.ID uc'.Running uc'.Datagrams := by
        simp [GetUDPClientStateById, hne_of_atoi _ ha, ha, hf]
      have h2 : (GetUDPClientStateByName s (some n)).reply
          = .UDPClientStateResponse uc'.ID uc'.Running uc'.Datagrams := by
        simp [GetUDPClientStateByName, queryGet, hn, hl]
      rw [h1, h2]

theorem client_lookups_read_only_witness :
    (GetUDPClientStateById exampleServer (some "7")).reply
        = (GetUDPClientStateByName exampleServer (some "alice")).reply
      ∧ (GetUDPClientStateById exampleServer (some "8")).reply
        = .ApiError 404 "UDP client not found" none :=
  ⟨(client_lookups_read_only exampleServer none (some "7")).2.2.2.2.2.2.2.2.2 "alice"
      exampleClient (by decide) (by decide) (by decide) (by decide),
   (client_lookups_read_only exampleServer none (some "8")).2.2.2.2.2.2.2.1 8 (by decide)
      (by decide)⟩

/-- The tests `TestServer_GetUDPClientStateByName_NotFound`, `_NoName`,
`TestServer_GetUDPClientStateById_NoId`, `_InvalidId` and `_NotFound`, on a new
server. -/
theorem test_client_lookups :
    (GetUDPClientStateByName (NewServer 8080 9090) (some "nonexistent")).reply.status = 404
      ∧ (GetUDPClientStateByName (NewServer 8080 9090) none).reply
          = .ApiError 400 "Name is required" none
      ∧ (GetUDPClientStateById (NewServer 8080 9090) none).reply
          = .ApiError 400 "ID is required" none
      ∧ (GetUDPClientStateById (NewServer 8080 9090) (some "invalid")).reply
          = .ApiError 400 "ID is invalid" none
      ∧ (GetUDPClientStateById (NewServer 8080 9090) (some "999")).reply.status = 404 := by
  decide

/-! ## `handleAllClient` and the client-command relay: properties -/

/-- C27: for every state, name and packet: if the name is a registry key with
record `old`, `handleAllClient` returns nil and leaves under that name the
record `old` with its datagram log extended by exactly the one datagram
`{Direction: ServerToClient (2), Message: packet}`, so that the earlier
datagrams are a prefix of the new log, unchanged and in their order, and ID,
Name and Running are as before; every other name maps to what it mapped to, no
key is added or removed, and (on a server with a hub) the one broadcast is
"usu" followed by the decimal of the record's ID. If the name is not a key it
returns an error, broadcasts nothing and leaves the state unchanged. -/
theorem handleAllClient_appends (s : Server) (name : String) (packet : List Nat) :
    (∀ old, mapLookup s.udpClients name = some old →
        (handleAllClient s name packet).err = none
          ∧ mapLookup (handleAllClient s name packet).state.udpClients name
              = some { ID := old.ID, Client := old.Client, Name := old.Name,
                       Datagrams := old.Datagrams ++ [{ Direction := 2, Message := packet }],
                       Running := old.Running }
          ∧ ServerToClient = 2
          ∧ (∀ new, mapLookup (handleAllClient s name packet).state.udpClients name = some new →
              old.Datagrams <+: new.Datagrams
                ∧ new.Datagrams.length = old.Datagrams.length + 1)
          ∧ (∀ other, other ≠ name →
              mapLookup (handleAllClient s name packet).state.udpClients other
                = mapLookup s.udpClients other)
          ∧ (handleAllClient s name packet).state.udpClients.map Prod.fst
              = s.udpClients.map Prod.fst
          ∧ (handleAllClient s name packet).state.clientCommandChs = s.clientCommandChs
          ∧ (handleAllClient s name packet).state.traces = s.traces
          ∧ (s.wsHub = true →
              broadcasts (handleAllClient s name packet).trace
                = [stringBytes ("usu" ++ Itoa old.ID)]))
      ∧ (mapLookup s.udpClients name = none →
          (handleAllClient s name packet).err = some ("UDP client not found: " ++ name)
            ∧ broadcasts (handleAllClient s name packet).trace = []
            ∧ (handleAllClient s name packet).state = s) := by
  refine ⟨?_, ?_⟩
  · intro old hold
    have hout : handleAllClient s name packet
        = ⟨{ s with udpClients := (mapStore s.udpClients name
              ({ old with Datagrams := old.Datagrams ++ [⟨ServerToClient, packet⟩] })) },
            none,
            [.muLock] ++ (if s.wsHub then
              [Event.hubBroadcast (stringBytes ("usu" ++ Itoa old.ID))] else [])
              ++ [.muUnlock]⟩ := by
      simp only [handleAllClient, hold]
    rw [hout]
    have hnew : mapLookup (mapStore s.udpClients name
          ({ old with Datagrams := old.Datagrams ++ [⟨ServerToClient, packet⟩] })) name
        = some { old with Datagrams := old.Datagrams ++ [⟨ServerToClient, packet⟩] } :=
      mapLookup_mapStore_self _ _ _
    refine ⟨rfl, ?_, rfl, ?_, ?_, ?_, rfl, rfl, ?_⟩
    · simpa [ServerToClient] using hnew
    · intro new hn
      simp only [hnew, Option.some.injEq] at hn
      subst hn
      exact ⟨List.prefix_append _ _, by simp⟩
    · intro other hne
      exact mapLookup_mapStore_of_ne _ _ _ _ hne
    · exact mapStore_keys_of_mapLookup _ _ _ old hold
    · intro hhub
      simp [hhub, broadcasts]
  · intro hnone
    have hout : handleAllClient s name packet
        = ⟨s, some ("UDP client not found: " ++ name), [.muLock, .muUnlock]⟩ := by
      simp only [handleAllClient, hnone]
    rw [hout]
    exact ⟨rfl, by simp [broadcasts], rfl⟩

theorem handleAllClient_appends_witness :
    mapLookup (handleAllClient exampleServer "alice" [9, 8]).state.udpClients "alice"
        = some { ID := 7, Client := 1, Name := "alice",
                 Datagrams := [{ Direction := 2, Message := [1, 2] }]
                   ++ [{ Direction := 2, Message := [9, 8] }],
                 Running := true }
      ∧ broadcasts (handleAllClient exampleServer "alice" [9, 8]).trace
          = [stringBytes ("usu" ++ Itoa 7)]
      ∧ (handleAllClient exampleServer "nobody" [9, 8]).state = exampleServer :=
  ⟨((handleAllClient_appends exampleServer "alice" [9, 8]).1 exampleClient (by decide)).2.1,
   ((handleAllClient_appends exampleServer "alice" [9, 8]).1 exampleClient
      (by decide)).2.2.2.2.2.2.2.2 (by decide),
   ((handleAllClient_appends exampleServer "nobody" [9, 8]).2 (by decide)).2.2⟩

/-- C28: when the relay of client `clientID` receives `CmdUpdateClientState`:
if the lookup loop finds a record with that ID (under name `n`), the record
stored under `n` becomes that record with `Running` true exactly when the
transport's `ClientState.Running` is 1, its ID, Client, Name and Datagrams
unchanged; every other name maps to what it mapped to and no key is added or
removed; on a server with a hub exactly one token, "usu" followed by the
decimal of `clientID`, is broadcast. If no record has that ID, the state is
unchanged and nothing is broadcast. Any other command value changes nothing
and produces no event. In all these cases the loop goes on. -/
theorem handleClientCommandsStep_update (CmdUpdateClientState : Int) (clientRunning : Nat → Int)
    (s : Server) (clientID : Int) :
    (∀ n uc, findClientById s.udpClients clientID = some (n, uc) →
        mapLookup (handleClientCommandsStep CmdUpdateClientState clientRunning s clientID
            (.command CmdUpdateClientState)).state.udpClients n
            = some { ID := uc.ID, Client := uc.Client, Name := uc.Name,
                     Datagrams := uc.Datagrams,
                     Running := decide (clientRunning uc.Client = 1) }
          ∧ uc.ID = clientID
          ∧ (∀ other, other ≠ n →
              mapLookup (handleClientCommandsStep CmdUpdateClientState clientRunning s clientID
                (.command CmdUpdateClientState)).state.udpClients other
                = mapLookup s.udpClients other)
          ∧ (handleClientCommandsStep CmdUpdateClientState clientRunning s clientID
                (.command CmdUpdateClientState)).state.udpClients.map Prod.fst
              = s.udpClients.map Prod.fst
          ∧ (handleClientCommandsStep CmdUpdateClientState clientRunning s clientID
                (.command CmdUpdateClientState)).state.clientCommandChs = s.clientCommandChs
          ∧ (s.wsHub = true →
              broadcasts (handleClientCommandsStep CmdUpdateClientState clientRunning s clientID
                (.command CmdUpdateClientState)).trace
                = [stringBytes ("usu" ++ Itoa clientID)])
          ∧ (handleClientCommandsStep CmdUpdateClientState clientRunning s clientID
                (.command CmdUpdateClientState)).exits = false)
      ∧ ((∀ e ∈ s.udpClients, e.2.ID ≠ clientID) →
          (handleClientCommandsStep CmdUpdateClientState clientRunning s clientID
              (.command CmdUpdateClientState)).state = s
            ∧ broadcasts (handleClientCommandsStep CmdUpdateClientState clientRunning s clientID
              (.command CmdUpdateClientState)).trace = []
            ∧ (handleClientCommandsStep CmdUpdateClientState clientRunning s clientID
              (.command CmdUpdateClientState)).exits = false)
      ∧ (∀ cmd, cmd ≠ CmdUpdateClientState →
          handleClientCommandsStep CmdUpdateClientState clientRunning s clientID (.command cmd)
            = ⟨s, [], false⟩) := by
  refine ⟨?_, ?_, ?_⟩
  · intro n uc hfind
    have hm := findClientById_some_mem s.udpClients clientID n uc hfind
    have hout : handleClientCommandsStep CmdUpdateClientState clientRunning s clientID
          (.command CmdUpdateClientState)
        = ⟨{ s with udpClients := (mapStore s.udpClients n
              ({ uc with Running := decide (clientRunning uc.Client = 1) })) },
            [.muLock] ++ (if s.wsHub then
              [Event.hubBroadcast (stringBytes ("usu" ++ Itoa clientID))] else [])
              ++ [.muUnlock], false⟩ := by
      simp only [handleClientCommandsStep, if_true, hfind]
    rw [hout]
    refine ⟨mapLookup_mapStore_self _ _ _, hm.2, ?_, ?_, rfl, ?_, rfl⟩
    · intro other hne
      exact mapLookup_mapStore_of_ne _ _ _ _ hne
    · obtain ⟨old, hold⟩ : ∃ old, mapLookup s.udpClients n = some old := by
        cases hl : mapLookup s.udpClients n with
        | none =>
          have := (mapLookup_eq_none_iff s.udpClients n).1 hl
          exact absurd (List.mem_map.2 ⟨(n, uc), hm.1, rfl⟩) this
        | some old => exact ⟨old, rfl⟩
      exact mapStore_keys_of_mapLookup _ _ _ old hold
    · intro hhub
      simp [hhub, broadcasts]
  · intro hno
    have hnone := (findClientById_eq_none_iff s.udpClients clientID).2 hno
    have hout : handleClientCommandsStep CmdUpdateClientState clientRunning s clientID
          (.command CmdUpdateClientState) = ⟨s, [.muLock, .muUnlock], false⟩ := by
      simp only [handleClientCommandsStep, if_true, hnone]
    rw [hout]
    exact ⟨rfl, by simp [broadcasts], rfl⟩
  · intro cmd hcmd
    simp only [handleClientCommandsStep, hcmd, if_false]

theorem handleClientCommandsStep_update_witness :
    mapLookup (handleClientCommandsStep 3 (fun _ => 0) exampleServer 7
        (.command 3)).state.udpClients "alice"
        = some { ID := 7, Client := 1, Name := "alice",
                 Datagrams := [{ Direction := 2, Message := [1, 2] }],
                 Running := decide ((0 : Int) = 1) }
      ∧ broadcasts (handleClientCommandsStep 3 (fun _ => 0) exampleServer 7 (.command 3)).trace
          = [stringBytes ("usu" ++ Itoa 7)]
      ∧ (handleClientCommandsStep 3 (fun _ => 0) exampleServer 8 (.command 3)).state
          = exampleServer
      ∧ handleClientCommandsStep 3 (fun _ => 0) exampleServer 7 (.command 4)
          = ⟨exampleServer, [], false⟩ :=
  ⟨((handleClientCommandsStep_update 3 (fun _ => 0) exampleServer 7).1 "alice" exampleClient
      (by decide)).1,
   ((handleClientCommandsStep_update 3 (fun _ => 0) exampleServer 7).1 "alice" exampleClient
      (by decide)).2.2.2.2.2.1 (by decide),
   ((handleClientCommandsStep_update 3 (fun _ => 0) exampleServer 8).2.1 (by decide)).1,
   (handleClientCommandsStep_update 3 (fun _ => 0) exampleServer 7).2.2 4 (by decide)⟩

/-! ## Lock discipline: broadcasts and the registry lock -/

/-- In every run of `SendDatagram` each broadcast is made while `s.mu` is
held. -/
theorem SendDatagram_allBroadcastsLocked (tr : Transport) (env : Server → Server) (s : Server)
    (body : Except String SendDatagramRequest) :
    allBroadcastsLocked false (SendDatagram tr env s body).trace = true := by
  unfold SendDatagram
  repeat' first | split | (dsimp only; split)
  all_goals rfl

/-- In every run of `handleAllClient` each broadcast is made while `s.mu` is
held. -/
theorem handleAllClient_allBroadcastsLocked (s : Server) (name : String) (packet : List Nat) :
    allBroadcastsLocked false (handleAllClient s name packet).trace = true := by
  unfold handleAllClient
  split
  · rfl
  · cases h : s.wsHub <;> simp [allBroadcastsLocked, h]

/-- In every turn of the client-command relay each broadcast is made while
`s.mu` is held. -/
theorem handleClientCommandsStep_allBroadcastsLocked (CmdUpdateClientState : Int)
    (clientRunning : Nat → Int) (s : Server) (clientID : Int) (wake : ClientWake) :
    allBroadcastsLocked false
      (handleClientCommandsStep CmdUpdateClientState clientRunning s clientID wake).trace
      = true := by
  unfold handleClientCommandsStep
  repeat' split
  all_goals rfl

/-- C24 (as stated, refuted): the successful `SendDatagram`, `handleAllClient`
and the client-command relay each call the hub's `Broadcast` between an
acquisition of `s.mu` and the matching release. -/
theorem broadcast_after_release_counterexample :
    (SendDatagram okTransport id exampleServer (.ok ⟨7, "hi", "text"⟩)).trace
        = [.muLock, .muUnlock, .clientSend 1 ⟨.PacketTypeDebugAny, [104, 105]⟩, .muLock,
            .hubBroadcast (stringBytes "usu7"), .muUnlock]
      ∧ broadcastsWhileLocked false
          (SendDatagram okTransport id exampleServer (.ok ⟨7, "hi", "text"⟩)).trace = true
      ∧ (handleAllClient exampleServer "alice" [9, 8]).trace
          = [.muLock, .hubBroadcast (stringBytes "usu7"), .muUnlock]
      ∧ broadcastsWhileLocked false (handleAllClient exampleServer "alice" [9, 8]).trace = true
      ∧ (handleClientCommandsStep 3 (fun _ => 0) exampleServer 7 (.command 3)).trace
          = [.muLock, .hubBroadcast (stringBytes "usu7"), .muUnlock]
      ∧ broadcastsWhileLocked false
          (handleClientCommandsStep 3 (fun _ => 0) exampleServer 7 (.command 3)).trace = true := by
  decide

/-- C24 (amended): in the sequence of lock, unlock and broadcast events
produced by any run of `SendDatagram`, of `handleAllClient` or of one turn of
the client-command relay, every call to the hub's `Broadcast` occurs between an
acquisition of `s.mu` and the matching release; and on a server with a hub the
run that stores a datagram or updates the running flag does make such a call
while holding `s.mu`. -/
theorem broadcasts_hold_registry_lock (tr : Transport) (env : Server → Server) (s : Server)
    (body : Except String SendDatagramRequest) (name : String) (packet : List Nat)
    (CmdUpdateClientState : Int) (clientRunning : Nat → Int) (clientID : Int)
    (wake : ClientWake) :
    allBroadcastsLocked false (SendDatagram tr env s body).trace = true
      ∧ allBroadcastsLocked false (handleAllClient s name packet).trace = true
      ∧ allBroadcastsLocked false
          (handleClientCommandsStep CmdUpdateClientState clientRunning s clientID wake).trace
          = true
      ∧ ((SendDatagram tr env s body).reply = .SendDatagramResponse "Datagram sent successfully" →
          (env s).wsHub = true →
          broadcastsWhileLocked false (SendDatagram tr env s body).trace = true)
      ∧ (mapLookup s.udpClients name ≠ none → s.wsHub = true →
          broadcastsWhileLocked false (handleAllClient s name packet).trace = true)
      ∧ (findClientById s.udpClients clientID ≠ none → s.wsHub = true →
          broadcastsWhileLocked false
            (handleClientCommandsStep CmdUpdateClientState clientRunning s clientID
              (.command CmdUpdateClientState)).trace = true) := by
  refine ⟨SendDatagram_allBroadcastsLocked tr env s body,
    handleAllClient_allBroadcastsLocked s name packet,
    handleClientCommandsStep_allBroadcastsLocked _ _ _ _ _, ?_, ?_, ?_⟩
  · intro hreply hhub
    revert hreply
    unfold SendDatagram
    repeat' first | split | (dsimp only; split)
    all_goals first
      | (intro hreply; simp at hreply; done)
      | (intro _; rfl)
  · intro hfound hhub
    cases hl : mapLookup s.udpClients name with
    | none => exact absurd hl hfound
    | some old => simp [handleAllClient, hl, hhub, broadcastsWhileLocked]
  · intro hfound hhub
    cases hl : findClientById s.udpClients clientID with
    | none => exact absurd hl hfound
    | some e =>
      obtain ⟨n, uc⟩ := e
      simp [handleClientCommandsStep, hl, hhub, broadcastsWhileLocked]

theorem broadcasts_hold_registry_lock_witness :
    broadcastsWhileLocked false
        (SendDatagram okTransport id exampleServer (.ok ⟨7, "hi", "text"⟩)).trace = true
      ∧ broadcastsWhileLocked false (handleAllClient exampleServer "alice" [9, 8]).trace = true
      ∧ broadcastsWhileLocked false
          (handleClientCommandsStep 3 (fun _ => 0) exampleServer 7 (.command 3)).trace = true :=
  ⟨(broadcasts_hold_registry_lock okTransport id exampleServer (.ok ⟨7, "hi", "text"⟩) "alice"
      [9, 8] 3 (fun _ => 0) 7 (.command 3)).2.2.2.1 (by decide) (by decide),
   (broadcasts_hold_registry_lock okTransport id exampleServer (.ok ⟨7, "hi", "text"⟩) "alice"
      [9, 8] 3 (fun _ => 0) 7 (.command 3)).2.2.2.2.1 (by decide) (by decide),
   (broadcasts_hold_registry_lock okTransport id exampleServer (.ok ⟨7, "hi", "text"⟩) "alice"
      [9, 8] 3 (fun _ => 0) 7 (.command 3)).2.2.2.2.2 (by decide) (by decide)⟩

/-! ## Lock discipline: the registry lock and the trace lock -/

/-- C25 (as stated, refuted): `GetTraces` for a registered name acquires
`s.traceMu` while it holds `s.mu`. -/
theorem locks_never_nested_counterexample :
    (GetTraces (fun _ => "") tracedServer (some "alice")).trace.take 3
        = [.muLock, .traceMuLock, .traceMuUnlock]
      ∧ locksTraceMuUnderMu false
          (GetTraces (fun _ => "") tracedServer (some "alice")).trace = true := by
  decide

/-- C25 (amended): `s.mu` and `s.traceMu` are only ever nested in the order
`s.mu` then `s.traceMu`. For every renderer, state and `name` parameter,
`GetTraces` acquires `s.traceMu` while holding `s.mu` exactly when the name is
a registry key, and never acquires `s.mu` while holding `s.traceMu`; every turn
of `handleTrace` releases `s.mu` before it acquires `s.traceMu`, so it acquires
neither lock while holding the other. -/
theorem lock_order_mu_then_traceMu (render : List TraceEvent → String) (s : Server)
    (nameParam : Option String) (wake : TraceWake) :
    (locksTraceMuUnderMu false (GetTraces render s nameParam).trace = true
        ↔ mapLookup s.udpClients (queryGet nameParam) ≠ none)
      ∧ locksMuUnderTraceMu false (GetTraces render s nameParam).trace = false
      ∧ locksTraceMuUnderMu false (handleTraceStep s wake).trace = false
      ∧ locksMuUnderTraceMu false (handleTraceStep s wake).trace = false := by
  refine ⟨?_, ?_, ?_, ?_⟩
  · cases hl : mapLookup s.udpClients (queryGet nameParam) <;>
      simp [GetTraces, hl, locksTraceMuUnderMu]
  · cases hl : mapLookup s.udpClients (queryGet nameParam) <;>
      simp [GetTraces, hl, locksMuUnderTraceMu]
  · unfold handleTraceStep
    repeat' split
    all_goals rfl
  · unfold handleTraceStep
    repeat' split
    all_goals rfl

/-! ## `Shutdown`: properties -/

/-- C23 (as stated, refuted): the listener's shutdown fails (here with the
deadline error), the second `select` takes the deadline case, and `Shutdown`
returns nil. -/
theorem Shutdown_listener_error_counterexample :
    Shutdown exampleServer true ⟨true, some "context deadline exceeded", false⟩
      = .returns ⟨none, ["Shutting down server...", "All connections closed",
          "HTTP server shutdown timeout", "Server shutdown complete"], true, true⟩ := by
  decide

/-- C23 (amended): on a server whose HTTP server is set, `Shutdown(timeout)`
returns for every outcome of the tracked loops and of the listener's shutdown;
it returns a non-nil error exactly when its second `select` receives the
listener's result and that result is an error, and the error returned is then
the listener's error wrapped as "error shutting down HTTP server: ..."; in every
other case, also when the listener fails but the deadline case is taken, it
returns nil. A drain timeout of the tracked loops only prints the warning: the
returned error is the same whichever case the first `select` takes. -/
theorem Shutdown_reports_received_listener_error (s : Server) (r : ShutdownRun) :
    (∃ res, Shutdown s true r = .returns res)
      ∧ (∀ res, Shutdown s true r = .returns res →
          (res.err = if r.httpDoneFirst then
              r.httpErr.map (fun e => "error shutting down HTTP server: " ++ e) else none)
            ∧ (res.err ≠ none ↔ r.httpDoneFirst = true ∧ r.httpErr ≠ none)
            ∧ (r.wgDoneFirst = false →
                "Warning: Shutdown timeout reached, some connections may not have closed gracefully"
                  ∈ res.printed)
            ∧ (∀ drained res2,
                Shutdown s true ⟨drained, r.httpErr, r.httpDoneFirst⟩ = .returns res2 →
                res2.err = res.err)) := by
  obtain ⟨wg, he, hd⟩ := r
  cases wg <;> cases he <;> cases hd <;> refine ⟨⟨_, rfl⟩, ?_⟩ <;> intro res hres <;>
    simp only [Shutdown, Bool.true_eq_false, Bool.false_eq_true, if_false, if_true,
      Run.returns.injEq] at hres <;>
    subst hres <;>
    refine ⟨by simp, by simp, by simp, ?_⟩ <;>
    intro drained res2 h2 <;>
    cases drained <;>
    simp only [Shutdown, Bool.true_eq_false, Bool.false_eq_true, if_false, if_true,
      Run.returns.injEq] at h2 <;>
    subst h2 <;> rfl

theorem Shutdown_reports_received_listener_error_witness :
    Shutdown exampleServer true ⟨false, some "listener closed", true⟩
        = .returns listenerFailedResult
      ∧ listenerFailedResult.err = some "error shutting down HTTP server: listener closed"
      ∧ "Warning: Shutdown timeout reached, some connections may not have closed gracefully"
          ∈ listenerFailedResult.printed
      ∧ (∀ drained res2,
          Shutdown exampleServer true ⟨drained, some "listener closed", true⟩ = .returns res2 →
          res2.err = listenerFailedResult.err) :=
  ⟨by decide,
   ((Shutdown_reports_received_listener_error exampleServer
      ⟨false, some "listener closed", true⟩).2 listenerFailedResult (by decide)).1,
   ((Shutdown_reports_received_listener_error exampleServer
      ⟨false, some "listener closed", true⟩).2 listenerFailedResult (by decide)).2.2.1 rfl,
   ((Shutdown_reports_received_listener_error exampleServer
      ⟨false, some "listener closed", true⟩).2 listenerFailedResult (by decide)).2.2.2⟩

/-! ## `StartUDPClient`: the registry lock -/

/-- C26: on an idle server a start-client request does not run to completion.
`StartUDPClient` calls `genUDPClient` while it holds `s.mu`, and `genUDPClient`
locks `s.mu` again, so the call never returns, whatever the counter, the state
and the generated name are; called with the lock free, `genUDPClient` does
return and registers the record. -/
theorem StartUDPClient_self_deadlock :
    StartUDPClient idCounter (NewServer 8080 9090) "Anna" 5 = .blocks
      ∧ (∀ counter s name client, StartUDPClient counter s name client = .blocks)
      ∧ (∀ counter s name client, genUDPClient counter s true name client = .blocks)
      ∧ (∃ r, genUDPClient idCounter (NewServer 8080 9090) false "Anna" 5 = .returns r
          ∧ mapLookup r.state.udpClients "Anna"
              = some { ID := 0, Client := 5, Name := "Anna", Datagrams := [], Running := false }) := by
  refine ⟨by decide, ?_, ?_, ⟨_, rfl, by decide⟩⟩
  · intro counter s name client
    simp [StartUDPClient, genUDPClient]
  · intro counter s name client
    simp [genUDPClient]

/-! ## `GetAllUDPClientPaginated`: the slice bounds -/

/-- C29: on an empty registry the request `page=922337203685477582` with the
default page size passes validation (`page ≥ 1`, and the range check is skipped
because there are 0 pages); `(page-1)*10` wraps to the negative start index
-9223372036854775806, which is below the total 0, so the slice expression
`allItems[startIndex:endIndex]` is evaluated with `startIndex < 0` and the
handler panics. -/
theorem GetAllUDPClientPaginated_slice_panics :
    parsePositive "922337203685477582" 1 = some 922337203685477582
      ∧ parsePositive (queryGet none) 10 = some 10
      ∧ (paginatedItems asciiToLower (NewServer 8080 9090).udpClients (queryGet none)).length = 0
      ∧ wrapInt64 ((922337203685477582 - 1) * 10) = -9223372036854775806
      ∧ GetAllUDPClientPaginated asciiToLower (NewServer 8080 9090)
          (some "922337203685477582") none none
        = .panics "slice bounds out of range" := by
  decide

/-! ## Control codes: `UDPServerService.HandleAll` -/

theorem stringBytes_usu_head (id : Int) :
    (stringBytes ("usu" ++ Itoa id)).head? = some 117 := by
  have h : stringBytes ("usu" ++ Itoa id) = stringBytes "usu" ++ stringBytes (Itoa id) := by
    simp only [stringBytes, String.data_append, utf8Bytes_append]
  rw [h]
  rfl

/-- Every other broadcast of the model is a control code: those of
`SendDatagram`, of `handleAllClient` and of the relay turns. -/
theorem server_broadcasts_are_control_codes (tr : Transport) (env : Server → Server)
    (s : Server) (body : Except String SendDatagramRequest) (name : String)
    (packet : List Nat) (cmdClient cmdServer : Int) (clientRunning : Nat → Int)
    (clientID : Int) (cw : ClientWake) (sw : ServerWake) (tw : TraceWake) :
    (∀ m ∈ broadcasts (SendDatagram tr env s body).trace, IsControlCode m)
      ∧ (∀ m ∈ broadcasts (handleAllClient s name packet).trace, IsControlCode m)
      ∧ (∀ m ∈ broadcasts (handleClientCommandsStep cmdClient clientRunning s clientID cw).trace,
          IsControlCode m)
      ∧ (∀ m ∈ broadcasts (handleInternalStep cmdServer s sw).trace, IsControlCode m)
      ∧ (∀ m ∈ broadcasts (handleTraceStep s tw).trace, IsControlCode m) := by
  refine ⟨?_, ?_, ?_, ?_, ?_⟩
  · unfold SendDatagram
    repeat' first | split | (dsimp only; split)
    all_goals
      intro m hm
      simp only [broadcasts, List.filterMap_cons, List.filterMap_nil, List.cons_append,
        List.nil_append, List.mem_cons, List.mem_singleton, List.not_mem_nil, or_false] at hm <;>
        exact Or.inr (Or.inr (Or.inr ⟨_, hm⟩))
  · unfold handleAllClient
    repeat' split
    all_goals
      intro m hm
      simp only [broadcasts, List.filterMap_cons, List.filterMap_nil, List.cons_append,
        List.nil_append, List.mem_cons, List.mem_singleton, List.not_mem_nil, or_false] at hm <;>
        exact Or.inr (Or.inr (Or.inr ⟨_, hm⟩))
  · unfold handleClientCommandsStep
    repeat' split
    all_goals
      intro m hm
      simp only [broadcasts, List.filterMap_cons, List.filterMap_nil, List.cons_append,
        List.nil_append, List.mem_cons, List.mem_singleton, List.not_mem_nil, or_false] at hm <;>
        exact Or.inr (Or.inr (Or.inr ⟨_, hm⟩))
  · unfold handleInternalStep
    repeat' split
    all_goals
      intro m hm
      simp only [broadcasts, List.filterMap_cons, List.filterMap_nil, List.cons_append,
        List.nil_append, List.mem_cons, List.mem_singleton, List.not_mem_nil, or_false] at hm <;>
        exact Or.inr (Or.inl hm)
  · unfold handleTraceStep
    repeat' split
    all_goals
      intro m hm
      simp only [broadcasts, List.filterMap_cons, List.filterMap_nil, List.cons_append,
        List.nil_append, List.mem_cons, List.mem_singleton, List.not_mem_nil, or_false] at hm

/-- C21: the packet handler registered on the UDP server passes the raw
datagram payload to the hub's `Broadcast`. With a hub, `HandleAll` on the
payload "test packet" (the payload of the repository's own test) broadcasts
exactly those bytes, which are none of "rp", "uss", "cnu" or "usu" followed by
the decimal of an id; and for every payload the one broadcast is the payload
itself. -/
theorem HandleAll_broadcasts_raw_payload :
    broadcasts ((NewUDPServerService true).HandleAll "127.0.0.1:12345"
        (stringBytes "test packet")).2 = [stringBytes "test packet"]
      ∧ ¬ IsControlCode (stringBytes "test packet")
      ∧ (∀ server addr packet,
          broadcasts ((⟨server, true⟩ : UDPServerService).HandleAll addr packet).2 = [packet]) := by
  refine ⟨by decide, ?_, ?_⟩
  · rintro (h | h | h | ⟨id, h⟩)
    · exact absurd h (by decide)
    · exact absurd h (by decide)
    · exact absurd h (by decide)
    · have h1 := congrArg List.head? h
      rw [stringBytes_usu_head] at h1
      exact absurd h1 (by decide)
  · intro server addr packet
    cases server <;> simp [UDPServerService.HandleAll, broadcasts]

/-! ## Hexadecimal round trip -/

theorem hextable_facts : ∀ n < 16,
    isHexDigit (hextable n) = true ∧ hexDigitValue (hextable n) = n
      ∧ isHexDigit (hextable n).toUpper = true ∧ hexDigitValue (hextable n).toUpper = n := by
  decide

theorem byte_nibbles : ∀ v < 256,
    v >>> 4 < 16 ∧ v &&& 0x0f < 16 ∧ 16 * (v >>> 4) + (v &&& 0x0f) = v := by
  intro v hv
  have h1 : v >>> 4 = v / 16 := by
    rw [Nat.shiftRight_eq_div_pow]
  have h2 : v &&& 0x0f = v % 16 := Nat.and_pow_two_sub_one_eq_mod v 4
  rw [h1, h2]
  omega

/-- A string of hexadecimal digits is left as it is by `strings.TrimSpace`
followed by the deletion of spaces. -/
theorem removeSpaces_trimSpace_of_hexDigits (l : List Char)
    (h : ∀ c ∈ l, isHexDigit c = true) :
    removeSpacesRunes (trimSpaceRunes l) = l := by
  have hns : ∀ c ∈ l, unicodeIsSpace c = false := fun c hc => isHexDigit_not_space c (h c hc)
  rw [removeSpacesRunes_trimSpaceRunes l (fun c hc hs => by
    have := hns c (trimSpaceRunes_subset l c hc)
    rw [hs] at this
    exact Bool.noConfusion this)]
  rw [List.filter_eq_self]
  intro c hc
  simp [hns c hc]

/-- On hexadecimal digits in even number `convertMessageToBytes` in format
`hex` returns the bytes the digits denote, and no error. -/
theorem convertMessageToBytes_of_hexDigits (m : String)
    (hlen : m.data.length % 2 = 0) (hdig : ∀ c ∈ m.data, isHexDigit c = true) :
    convertMessageToBytes m "hex" = (hexValue m.data, none) := by
  simp only [convertMessageToBytes, if_true, ReplaceAllSpaces, TrimSpace, DecodeString,
    stringBytes]
  rw [removeSpaces_trimSpace_of_hexDigits m.data hdig]
  exact hexDecode_of_hexDigits m.data hlen hdig

theorem EncodeToString_facts (b : List Nat) (hb : ∀ x ∈ b, x < 256) :
    (EncodeToString b).data.length % 2 = 0
      ∧ (∀ c ∈ (EncodeToString b).data, isHexDigit c = true)
      ∧ hexValue (EncodeToString b).data = b := by
  induction b with
  | nil => exact ⟨rfl, by simp [EncodeToString], rfl⟩
  | cons v rest ih =>
    have hv := byte_nibbles v (hb v (by simp))
    have h1 := hextable_facts _ hv.1
    have h2 := hextable_facts _ hv.2.1
    obtain ⟨i1, i2, i3⟩ := ih (fun x hx => hb x (by simp [hx]))
    have hd : (EncodeToString (v :: rest)).data
        = hextable (v >>> 4) :: hextable (v &&& 0x0f) :: (EncodeToString rest).data := by
      simp [EncodeToString]
    rw [hd]
    refine ⟨?_, ?_, ?_⟩
    · simp only [List.length_cons]
      omega
    · intro c hc
      simp only [List.mem_cons] at hc
      rcases hc with rfl | rfl | hc
      · exact h1.1
      · exact h2.1
      · exact i2 c hc
    · simp only [hexValue, h1.2.1, h2.2.1, i3, hv.2.2]

theorem EncodeToStringUpper_facts (b : List Nat) (hb : ∀ x ∈ b, x < 256) :
    (EncodeToStringUpper b).data.length % 2 = 0
      ∧ (∀ c ∈ (EncodeToStringUpper b).data, isHexDigit c = true)
      ∧ hexValue (EncodeToStringUpper b).data = b := by
  induction b with
  | nil => exact ⟨rfl, by simp [EncodeToStringUpper, EncodeToString], rfl⟩
  | cons v rest ih =>
    have hv := byte_nibbles v (hb v (by simp))
    have h1 := hextable_facts _ hv.1
    have h2 := hextable_facts _ hv.2.1
    obtain ⟨i1, i2, i3⟩ := ih (fun x hx => hb x (by simp [hx]))
    have hd : (EncodeToStringUpper (v :: rest)).data
        = (hextable (v >>> 4)).toUpper :: (hextable (v &&& 0x0f)).toUpper
            :: (EncodeToStringUpper rest).data := by
      simp [EncodeToStringUpper, EncodeToString]
    rw [hd]
    refine ⟨?_, ?_, ?_⟩
    · simp only [List.length_cons]
      omega
    · intro c hc
      simp only [List.mem_cons] at hc
      rcases hc with rfl | rfl | hc
      · exact h1.2.2.1
      · exact h2.2.2.1
      · exact i2 c hc
    · simp only [hexValue, h1.2.2.2, h2.2.2.2, i3, hv.2.2]

/-- C30: for every byte sequence `b` (every element below 256),
`convertMessageToBytes(hex.EncodeToString(b), "hex")` succeeds and returns
exactly `b`, and so does the conversion of the upper-case hex encoding of `b`;
for the empty sequence the encoding is the empty string and the result is the
empty sequence. -/
theorem convertMessageToBytes_hex_round_trip (b : List Nat) (hb : ∀ x ∈ b, x < 256) :
    convertMessageToBytes (EncodeToString b) "hex" = (b, none)
      ∧ convertMessageToBytes (EncodeToStringUpper b) "hex" = (b, none)
      ∧ EncodeToString [] = ""
      ∧ convertMessageToBytes "" "hex" = ([], none) := by
  obtain ⟨l1, l2, l3⟩ := EncodeToString_facts b hb
  obtain ⟨u1, u2, u3⟩ := EncodeToStringUpper_facts b hb
  refine ⟨?_, ?_, rfl, by decide⟩
  · rw [convertMessageToBytes_of_hexDigits _ l1 l2, l3]
  · rw [convertMessageToBytes_of_hexDigits _ u1 u2, u3]

theorem convertMessageToBytes_hex_round_trip_witness :
    EncodeToString [72, 101, 108, 108, 111, 0, 255] = "48656c6c6f00ff"
      ∧ EncodeToStringUpper [72, 101, 108, 108, 111, 0, 255] = "48656C6C6F00FF"
      ∧ convertMessageToBytes (EncodeToString [72, 101, 108, 108, 111, 0, 255]) "hex"
          = ([72, 101, 108, 108, 111, 0, 255], none)
      ∧ convertMessageToBytes (EncodeToStringUpper [72, 101, 108, 108, 111, 0, 255]) "hex"
          = ([72, 101, 108, 108, 111, 0, 255], none) :=
  ⟨by decide, by decide,
   (convertMessageToBytes_hex_round_trip [72, 101, 108, 108, 111, 0, 255] (by decide)).1,
   (convertMessageToBytes_hex_round_trip [72, 101, 108, 108, 111, 0, 255] (by decide)).2.1⟩

end DebugUI
